import Mathlib

/-!
# OpenEmbroidery G-code interpreter (`src/gcode_handler.cpp`)

A shallow embedding of the G-code handler of the OpenEmbroidery firmware:
the field parser `gcode_parse_code`, the interpolation routine
`calculate_interpolation`, the tension accessors, the reset / pause / resume /
stop operations and the per-tick entry point `gcode_cycle`.

Conventions of the embedding.

* `float` values are exact numbers of an ordered field `α` (`ℚ` to compute,
  `ℝ` for statements over the reals); rounding is not modelled.  A value that
  is the result of a float division may be non-finite, see `FVal`.
* A C string is the list of its characters before the terminating NUL.  A
  `char *` into the line buffer is the suffix of the buffer it points at.
* The collaborators (motors, needle sensor, clock, SD card, EEPROM, servo,
  LCD / menu) are the record `World`; every command issued to one of them is
  appended to `World.log`.
-/

namespace OpenEmbroidery

/-! ## Numbers -/

/-- Result of a float computation that may leave the finite range: a finite
value, an infinity (`negative` tells its sign) or a not-a-number. -/
inductive FVal (α : Type) where
  | fin (x : α)
  | inf (negative : Bool)
  | nan
  deriving DecidableEq, Repr

section Numbers
variable {α : Type} [LinearOrderedField α]

/-- Float division `a / b` (IEEE 754: `0/0` is a NaN, `x/0` an infinity). -/
def fdiv (a b : α) : FVal α :=
  if b = 0 then (if a = 0 then FVal.nan else FVal.inf (decide (a < 0)))
  else FVal.fin (a / b)

/-- Float product `a * v` of a finite value and a possibly non-finite one
(IEEE 754: `0 * inf` and `x * NaN` are NaNs). -/
def fmul (a : α) : FVal α → FVal α
  | FVal.fin x => FVal.fin (a * x)
  | FVal.inf n => if a = 0 then FVal.nan else FVal.inf (xor n (decide (a < 0)))
  | FVal.nan => FVal.nan

end Numbers

/-! ## The C library's `atof` -/

/-- C `isspace` in the "C" locale. -/
def isspace (c : Char) : Bool :=
  c = ' ' || c = '\t' || c = '\n' || c = '\r' || c.toNat = 11 || c.toNat = 12

/-- C `isdigit`. -/
def isdigit (c : Char) : Bool := decide (48 ≤ c.toNat) && decide (c.toNat ≤ 57)

/-- Skips the leading white space of a string. -/
def skip_space : List Char → List Char
  | [] => []
  | c :: cs => if isspace c then skip_space cs else c :: cs

/-- Reads an optional sign: `(is_negative, rest)`. -/
def take_sign : List Char → Bool × List Char
  | [] => (false, [])
  | c :: cs => if c = '-' then (true, cs) else if c = '+' then (false, cs) else (false, c :: cs)

/-- Reads the leading run of decimal digits, continuing the value `acc` and
the digit count `n`: `(value, digit count, rest)`. -/
def take_digits : Nat → Nat → List Char → Nat × Nat × List Char
  | acc, n, [] => (acc, n, [])
  | acc, n, c :: cs =>
    if isdigit c then take_digits (10 * acc + (c.toNat - 48)) (n + 1) cs
    else (acc, n, c :: cs)

/-- Decimal exponent of a numeral: the characters after the mantissa. -/
def take_exponent : List Char → Int
  | [] => 0
  | c :: cs =>
    if c = 'e' || c = 'E' then
      let sg := take_sign cs
      let ds := take_digits 0 0 sg.2
      if ds.2.1 = 0 then 0 else if sg.1 then - (ds.1 : Int) else (ds.1 : Int)
    else 0

/-- Modelled from the spec: the C library function `atof` is not part of the
repository; spec 4.1 fixes its behaviour as the C-style conversion "convert
leading numeral, ignore trailing garbage, no numeral present yields 0".  As
in C, leading white space is skipped, then an optional sign, decimal digits
with an optional decimal point and an optional exponent are read.  The
spellings `inf`, `nan` and hexadecimal numerals are outside the model (they
convert to 0 here), and the value is not rounded to a `float`. -/
def atof (s : List Char) : ℚ :=
  let sg := take_sign (skip_space s)
  let ip := take_digits 0 0 sg.2
  let fp : Nat × Nat × List Char :=
    match ip.2.2 with
    | [] => (ip.1, 0, [])
    | c :: r => if c = '.' then take_digits ip.1 0 r else (ip.1, 0, c :: r)
  if ip.2.1 + fp.2.1 = 0 then 0
  else
    let m : ℚ := (fp.1 : ℚ) * (10 : ℚ) ^ (take_exponent fp.2.2 - (fp.2.1 : Int))
    if sg.1 then - m else m

/-! ## The field parser -/

/-- The pointer `strchr(ptr, ' ') + 1`: the suffix after the first space of
`ptr`, or `none` for the pointer value `NULL + 1 = 1` when `ptr` holds no
space. -/
def strchr_next : List Char → Option (List Char)
  | [] => none
  | c :: cs => if c = ' ' then some cs else strchr_next cs

section Parser
variable {α : Type} [LinearOrderedField α]

set_option linter.unusedVariables false in
/-- The `while` loop of `gcode_parse_code`, started at the pointer `ptr`.
The loop condition `(long)ptr > 1 && *ptr && ptr < buffer + strlen(buffer)`
holds exactly when `ptr` is not the pointer value 1 and points at a character
of the string. -/
def parse_loop (code : Char) (default_value : α) (ptr : List Char) : α :=
  match ptr with
  | [] => default_value
  | c :: cs =>
    if c = code then ((atof cs : ℚ) : α)
    else if c = ';' then default_value
    else
      match h : strchr_next (c :: cs) with
      | none => default_value
      | some p => parse_loop code default_value p
termination_by ptr.length
decreasing_by
  have key : ∀ (l q : List Char), strchr_next l = some q → q.length < l.length := by
    intro l
    induction l with
    | nil => intro q hq; simp [strchr_next] at hq
    | cons a as ih =>
      intro q hq
      by_cases ha : a = ' '
      · simp [strchr_next, ha] at hq
        subst hq
        simp
      · simp [strchr_next, ha] at hq
        have := ih q hq
        simp
        omega
  exact key _ _ h

/-- `gcode_parse_code(code, default_value)` on the line buffer `buffer`
(`sd_card_get_buffer()`). -/
def gcode_parse_code (buffer : List Char) (code : Char) (default_value : α) : α :=
  parse_loop code default_value buffer

end Parser

/-! ## Machine state and collaborators -/

/-- Values of `next_line_condition`. -/
inductive Condition where
  | CONDITION_IMMEDIATELY
  | CONDITION_AFTER_MOVE
  | CONDITION_AFTER_INTERRUPT
  | CONDITION_AFTER_DWELL
  deriving DecidableEq, Repr

/-- Values of `action_after_needle_interrupt`. -/
inductive Action where
  | ACTION_NONE
  | ACTION_STOP_MOTOR
  deriving DecidableEq, Repr

/-- A command issued to a collaborator (motor driver, servo, LCD / menu,
SD card, EEPROM), with its arguments. -/
inductive Cmd (α : Type) where
  | motors_set_speed_x (v : FVal α)
  | motors_set_speed_y (v : FVal α)
  | motors_set_speed_z (v : α)
  | motors_set_acceleration_x (v : FVal α)
  | motors_set_acceleration_y (v : FVal α)
  | motors_set_acceleration_z (v : α)
  | motors_move_to_position (x y : α)
  | motors_enable
  | motors_disable
  | motors_enable_z
  | motors_disable_z
  | motors_start_z
  | motors_stop_z
  | motors_stop
  | motors_abort_and_reset
  | servo_set_tension (t : Nat)
  | lcd_print_progress
  | menu_pause_file
  | menu_stop_file
  | sd_card_file_rewind
  | EEPROM_write (address value : Nat)
  deriving DecidableEq, Repr

/-- The constants of `config.hpp` and the C library's `sqrtf`, none of which is
part of the source file: they are parameters of the embedding. -/
structure Config (α : Type) where
  sqrtf : α → α
  SPEED_INITIAL_XY_MM_S : α
  SPEED_INITIAL_Z_HZ : α
  ACCELERATION_INITIAL_X_MM_S : α
  ACCELERATION_INITIAL_Y_MM_S : α
  ACCELERATION_INITIAL_Z_HZ : α

/-- The module's variables.  Modelled from the spec: the header that declares
them is not part of the source; `tension_`, `progress` and `paused_code` are
bytes (the getters return `uint8_t`), the dwell fields are unsigned 32-bit
clock values like the result of `millis()` (spec 4.4: elapsed time against a
deadline), `command` is an integer and the remaining fields are floats
(spec 3: real-valued). -/
structure State (α : Type) where
  next_line_condition : Condition
  action_after_needle_interrupt : Action
  dwell_delay : Nat
  dwell_timer : Nat
  command : Int
  x_new : α
  y_new : α
  speed_xy : α
  speed_z : α
  acceleration_x : α
  acceleration_y : α
  interpolation_x : FVal α
  interpolation_y : FVal α
  interpolation_x_d : α
  interpolation_y_d : α
  interpolation_distance : α
  tension_ : Nat
  is_tensioned : Bool
  progress : Nat
  paused_code : Nat

/-- The collaborators as seen by one call of the handler: what the queries
return (`is_motors_stopped()`, `motors_get_x()`, `motors_get_y()`, `millis()`,
`needle_sensor_get_interrupt_flag()`), the program source (the lines of the
file, the index of the next line and the line buffer), the EEPROM, and the
commands issued so far.  Each query is sampled once per call. -/
structure World (α : Type) where
  motors_stopped : Bool
  motor_x : α
  motor_y : α
  clock : Nat
  needle_flag : Bool
  file : List (List Char)
  cursor : Nat
  buffer : List Char
  eeprom : Nat → Nat
  log : List (Cmd α)

section Machine
variable {α : Type} [LinearOrderedField α] [FloorRing α]

/-- Issues the command `c`. -/
def World.emit (w : World α) (c : Cmd α) : World α :=
  { w with log := w.log ++ [c] }

/-- `millis()`: an `unsigned long` of 32 bits. -/
def millis (w : World α) : Nat := w.clock % 4294967296

/-- Difference `a - b` of two unsigned 32-bit values. -/
def u32_sub (a b : Nat) : Nat := (a % 4294967296 + 4294967296 - b % 4294967296) % 4294967296

/-- `EEPROM.write(address, value)`. -/
def EEPROM_write (w : World α) (address value : Nat) : World α :=
  { w with eeprom := Function.update w.eeprom address value,
           log := w.log ++ [Cmd.EEPROM_write address value] }

/-- `needle_sensor_clear_interrupt_flag()`. -/
def needle_sensor_clear_interrupt_flag (w : World α) : World α :=
  { w with needle_flag := false }

/-- Modelled from the spec: `sd_card_read_next_line()` belongs to the SD-card
module, which is not part of the source; spec 6: "loads next line into an
accessible buffer, false at end-of-program". -/
def sd_card_read_next_line (w : World α) : Bool × World α :=
  match w.file.get? w.cursor with
  | some line => (true, { w with buffer := line, cursor := w.cursor + 1 })
  | none => (false, w)

/-- Modelled from the spec: `sd_card_file_rewind()` ("set current file
position to 0") of the absent SD-card module. -/
def sd_card_file_rewind (w : World α) : World α :=
  { w with cursor := 0, log := w.log ++ [Cmd.sd_card_file_rewind] }

/-- Conversion of a float to an integer type: the fractional part is
discarded (truncation toward zero). -/
def ftrunc (x : α) : Int := if 0 ≤ x then ⌊x⌋ else ⌈x⌉

/-- Conversion of a float to an unsigned integer of `bits` bits.  C leaves the
conversion undefined when the truncated value is not representable; the model
yields 0 for negative values and reduces modulo `2 ^ bits`. -/
def f2u (bits : Nat) (x : α) : Nat := (ftrunc x).toNat % 2 ^ bits

/-- `calculate_interpolation()`.  `abs` is the Arduino macro
`((x)>0?(x):-(x))`, the absolute value of a float; the divisions are float
divisions, with no test of the divisor. -/
def calculate_interpolation (cfg : Config α) (s : State α) (w : World α) : State α :=
  let xd := s.x_new - w.motor_x
  let yd := s.y_new - w.motor_y
  let dist := cfg.sqrtf (xd * xd + yd * yd)
  { s with interpolation_x_d := xd,
           interpolation_y_d := yd,
           interpolation_distance := dist,
           interpolation_x := fdiv |xd| dist,
           interpolation_y := fdiv |yd| dist }

/-- `gcode_get_tension()`. -/
def gcode_get_tension (s : State α) : Nat := s.tension_

/-- `gcode_get_progress()`. -/
def gcode_get_progress (s : State α) : Nat := s.progress

/-- `gcode_get_paused_code()`. -/
def gcode_get_paused_code (s : State α) : Nat := s.paused_code

/-- `gcode_set_tension(tension)`; the argument is a `uint8_t`. -/
def gcode_set_tension (tension : Nat) (s : State α) (w : World α) : State α × World α :=
  let s1 := { s with tension_ := tension % 256 }
  let w1 := EEPROM_write w 0 s1.tension_
  if s1.is_tensioned then (s1, w1.emit (Cmd.servo_set_tension s1.tension_)) else (s1, w1)

/-- `gcode_clear()`. -/
def gcode_clear (cfg : Config α) (s : State α) (w : World α) : State α × World α :=
  let t := w.eeprom 0 % 256
  let bad : Bool := decide (100 < t) || decide (t % 5 ≠ 0)
  let s1 := { s with tension_ := if bad then 90 else t }
  let w1 := if bad then EEPROM_write w 0 s1.tension_ else w
  ({ s1 with x_new := 0,
             y_new := 0,
             interpolation_x := FVal.fin 1,
             interpolation_y := FVal.fin 1,
             command := 0,
             progress := 0,
             paused_code := 0,
             is_tensioned := false,
             next_line_condition := Condition.CONDITION_IMMEDIATELY,
             action_after_needle_interrupt := Action.ACTION_NONE,
             speed_xy := cfg.SPEED_INITIAL_XY_MM_S,
             speed_z := cfg.SPEED_INITIAL_Z_HZ,
             acceleration_x := cfg.ACCELERATION_INITIAL_X_MM_S,
             acceleration_y := cfg.ACCELERATION_INITIAL_Y_MM_S },
   needle_sensor_clear_interrupt_flag w1)

/-- `gcode_pause()`. -/
def gcode_pause (s : State α) (w : World α) : State α × World α :=
  ({ s with next_line_condition := Condition.CONDITION_IMMEDIATELY },
   ((w.emit Cmd.motors_stop).emit Cmd.motors_stop_z).emit Cmd.motors_disable_z)

/-- `gcode_resume()`. -/
def gcode_resume (s : State α) (w : World α) : State α × World α :=
  ({ s with next_line_condition := Condition.CONDITION_IMMEDIATELY, paused_code := 0 }, w)

/-- `gcode_stop()`. -/
def gcode_stop (s : State α) (w : World α) : State α × World α :=
  ({ s with next_line_condition := Condition.CONDITION_IMMEDIATELY, is_tensioned := false },
   ((((sd_card_file_rewind (w.emit Cmd.motors_abort_and_reset)).emit
      (Cmd.servo_set_tension 0)).emit Cmd.motors_stop_z).emit Cmd.motors_disable_z))

/-- Case `G0`/`G1` of the G-code switch (lines 99-121): interpolation
movement. -/
def g_move (cfg : Config α) (s : State α) (w : World α) : State α × World α :=
  let s1 := { s with x_new := gcode_parse_code w.buffer 'X' w.motor_x }
  let s2 := { s1 with y_new := gcode_parse_code w.buffer 'Y' w.motor_y }
  let s3 := { s2 with speed_xy := gcode_parse_code w.buffer 'F' s2.speed_xy }
  let s4 := calculate_interpolation cfg s3 w
  let w1 := w.emit (Cmd.motors_set_speed_x (fmul s4.speed_xy s4.interpolation_x))
  let w2 := w1.emit (Cmd.motors_set_speed_y (fmul s4.speed_xy s4.interpolation_y))
  let w3 := w2.emit (Cmd.motors_set_acceleration_x (fmul s4.acceleration_x s4.interpolation_x))
  let w4 := w3.emit (Cmd.motors_set_acceleration_y (fmul s4.acceleration_y s4.interpolation_y))
  let w5 := w4.emit (Cmd.motors_move_to_position s4.x_new s4.y_new)
  ({ s4 with next_line_condition := Condition.CONDITION_AFTER_MOVE }, w5)

/-- Case `G4` of the G-code switch (lines 123-129): dwell. -/
def g_dwell (s : State α) (w : World α) : State α × World α :=
  ({ s with dwell_delay := f2u 32 (gcode_parse_code w.buffer 'P' (0 : α)),
            next_line_condition := Condition.CONDITION_AFTER_DWELL }, w)

/-- The statement `switch (command)` of the G-codes (lines 96-133). -/
def g_switch (cfg : Config α) (s : State α) (w : World α) : State α × World α :=
  if s.command = 0 ∨ s.command = 1 then g_move cfg s w
  else if s.command = 4 then g_dwell s w
  else (s, w)

/-- The G-code dispatch of `gcode_cycle` (lines 94-133):
`command = gcode_parse_code('G', -1)` and the switch. -/
def g_codes (cfg : Config α) (s : State α) (w : World α) : State α × World α :=
  g_switch cfg { s with command := ftrunc (gcode_parse_code w.buffer 'G' (-1 : α)) } w

/-- Case `M0` (lines 141-151): pause. -/
def m_pause (s : State α) (w : World α) : State α × World α :=
  let s1 := { s with paused_code := f2u 8 (gcode_parse_code w.buffer 'C' (0 : α)) }
  let r := gcode_pause s1 w
  (r.1, r.2.emit Cmd.menu_pause_file)

/-- Case `M3` (lines 153-186): enable and start the needle motor, rotating
until the needle interrupt when the field `I` is positive. -/
def m_start_z (cfg : Config α) (s : State α) (w : World α) : State α × World α :=
  let w1 := w.emit Cmd.motors_enable_z
  let s1 := { s with speed_z := gcode_parse_code w.buffer 'S' cfg.SPEED_INITIAL_Z_HZ }
  let w2 := w1.emit (Cmd.motors_set_speed_z s1.speed_z)
  let r : State α × World α :=
    if gcode_parse_code w.buffer 'I' (0 : α) > 0 then
      ({ s1 with next_line_condition := Condition.CONDITION_AFTER_INTERRUPT,
                 action_after_needle_interrupt := Action.ACTION_STOP_MOTOR },
       needle_sensor_clear_interrupt_flag w2)
    else
      ({ s1 with next_line_condition := Condition.CONDITION_IMMEDIATELY,
                 action_after_needle_interrupt := Action.ACTION_NONE }, w2)
  if r.1.speed_z > 0 then (r.1, r.2.emit Cmd.motors_start_z)
  else (r.1, r.2.emit Cmd.motors_stop_z)

/-- Case `M73` (lines 216-222): set the progress, at most 100. -/
def m_progress (s : State α) (w : World α) : State α × World α :=
  let p := f2u 8 (gcode_parse_code w.buffer 'P' (s.progress : α))
  ({ s with progress := if p > 100 then 100 else p }, w.emit Cmd.lcd_print_progress)

/-- Case `M201` (lines 224-232): set the accelerations. -/
def m_accelerations (cfg : Config α) (s : State α) (w : World α) : State α × World α :=
  let s1 := { s with acceleration_x := gcode_parse_code w.buffer 'X' s.acceleration_x }
  let s2 := { s1 with acceleration_y := gcode_parse_code w.buffer 'Y' s1.acceleration_y }
  let w1 := w.emit (Cmd.motors_set_acceleration_x (FVal.fin s2.acceleration_x))
  let w2 := w1.emit (Cmd.motors_set_acceleration_y (FVal.fin s2.acceleration_y))
  (s2, w2.emit (Cmd.motors_set_acceleration_z
    (gcode_parse_code w.buffer 'Z' cfg.ACCELERATION_INITIAL_Z_HZ)))

/-- The statement `switch (command)` of the M-codes (lines 139-236). -/
def m_switch (cfg : Config α) (s : State α) (w : World α) : State α × World α :=
  if s.command = 0 then m_pause s w
  else if s.command = 3 then m_start_z cfg s w
  else if s.command = 5 then
    (s, (w.emit Cmd.motors_disable_z).emit Cmd.motors_stop_z)
  else if s.command = 17 then
    (s, w.emit Cmd.motors_enable)
  else if s.command = 18 then
    (s, w.emit Cmd.motors_disable)
  else if s.command = 41 then
    ({ s with is_tensioned := false }, w.emit (Cmd.servo_set_tension 0))
  else if s.command = 42 then
    ({ s with is_tensioned := true }, w.emit (Cmd.servo_set_tension s.tension_))
  else if s.command = 73 then m_progress s w
  else if s.command = 201 then m_accelerations cfg s w
  else (s, w)

/-- The M-code dispatch of `gcode_cycle` (lines 138-236):
`command = gcode_parse_code('M', -1)` and the switch. -/
def m_codes (cfg : Config α) (s : State α) (w : World α) : State α × World α :=
  m_switch cfg { s with command := ftrunc (gcode_parse_code w.buffer 'M' (-1 : α)) } w

/-- The part of `gcode_cycle` after the gate (lines 74-241): the resets, the
line fetch and the two dispatches, or `menu_stop_file()` at the end of the
file. -/
def proceed (cfg : Config α) (s : State α) (w : World α) : State α × World α :=
  let w1 := needle_sensor_clear_interrupt_flag w
  let s1 := { s with next_line_condition := Condition.CONDITION_IMMEDIATELY,
                     action_after_needle_interrupt := Action.ACTION_NONE,
                     dwell_delay := 0,
                     dwell_timer := millis w1 }
  let r := sd_card_read_next_line w1
  if r.1 then
    let g := g_codes cfg s1 r.2
    m_codes cfg g.1 g.2
  else (s1, r.2.emit Cmd.menu_stop_file)

/-- The dwell test `millis() - dwell_timer < dwell_delay` of the case
`CONDITION_AFTER_DWELL`: true when the call returns without proceeding. -/
def dwell_pending (s : State α) (w : World α) : Bool :=
  decide (u32_sub (millis w) s.dwell_timer < s.dwell_delay)

/-- `gcode_cycle()`.  The case `CONDITION_AFTER_INTERRUPT` has no `break`: with
the interrupt flag set, control falls through into the dwell test of
`CONDITION_AFTER_DWELL`. -/
def gcode_cycle (cfg : Config α) (s : State α) (w : World α) : State α × World α :=
  match s.next_line_condition with
  | Condition.CONDITION_AFTER_MOVE =>
    if !w.motors_stopped then (s, w) else proceed cfg s w
  | Condition.CONDITION_AFTER_INTERRUPT =>
    if w.needle_flag then
      let w1 :=
        match s.action_after_needle_interrupt with
        | Action.ACTION_STOP_MOTOR => w.emit Cmd.motors_stop_z
        | Action.ACTION_NONE => w
      if dwell_pending s w1 then (s, w1) else proceed cfg s w1
    else (s, w)
  | Condition.CONDITION_AFTER_DWELL =>
    if dwell_pending s w then (s, w) else proceed cfg s w
  | Condition.CONDITION_IMMEDIATELY => proceed cfg s w

/-! ## Ticks under a changing environment -/

/-- What the collaborators report at one call: the values the environment
controls (motor status and position, clock, needle interrupt flag). -/
structure Readings (α : Type) where
  motors_stopped : Bool
  motor_x : α
  motor_y : α
  clock : Nat
  needle_flag : Bool

/-- The world as the next call finds it when the collaborators report `e`:
program source, EEPROM and issued commands are as the handler left them. -/
def World.sample (w : World α) (e : Readings α) : World α :=
  { w with motors_stopped := e.motors_stopped,
           motor_x := e.motor_x,
           motor_y := e.motor_y,
           clock := e.clock,
           needle_flag := e.needle_flag }

/-- Repeated calls of `gcode_cycle`, one per reading of the environment. -/
def run_ticks (cfg : Config α) :
    List (Readings α) → State α × World α → State α × World α
  | [], r => r
  | e :: es, r => run_ticks cfg es (gcode_cycle cfg r.1 (r.2.sample e))

/-- The gate of the current `next_line_condition` is unmet: motors still
running after a move, no needle interrupt yet, or dwell time not yet over. -/
def gate_unmet (s : State α) (w : World α) : Prop :=
  (s.next_line_condition = Condition.CONDITION_AFTER_MOVE ∧ w.motors_stopped = false) ∨
  (s.next_line_condition = Condition.CONDITION_AFTER_INTERRUPT ∧ w.needle_flag = false) ∨
  (s.next_line_condition = Condition.CONDITION_AFTER_DWELL ∧
    u32_sub (millis w) s.dwell_timer < s.dwell_delay)

instance gate_unmet_decidable (s : State α) (w : World α) : Decidable (gate_unmet s w) := by
  unfold gate_unmet
  exact inferInstance

/-- A public operation of the handler, as the firmware calls it; a tick comes
with what the collaborators report at that call. -/
inductive Op (α : Type) where
  | cycle (e : Readings α)
  | set_tension (v : Nat)
  | pause
  | resume
  | stop
  | clear

/-- Effect of one public operation. -/
def apply_op (cfg : Config α) (r : State α × World α) : Op α → State α × World α
  | Op.cycle e => gcode_cycle cfg r.1 (r.2.sample e)
  | Op.set_tension v => gcode_set_tension v r.1 r.2
  | Op.pause => gcode_pause r.1 r.2
  | Op.resume => gcode_resume r.1 r.2
  | Op.stop => gcode_stop r.1 r.2
  | Op.clear => gcode_clear cfg r.1 r.2

/-- Effect of a sequence of public operations, first to last. -/
def run_ops (cfg : Config α) (ops : List (Op α)) (r : State α × World α) :
    State α × World α :=
  ops.foldl (apply_op cfg) r

end Machine

/-! ## A concrete configuration, state and world -/

/-- Square root on the rationals, exact on squares of rationals (integer
square roots of numerator and denominator). -/
def demo_sqrt (q : ℚ) : ℚ := (Nat.sqrt q.num.toNat : ℚ) / (Nat.sqrt q.den : ℚ)

/-- A configuration over the rationals. -/
def demo_config : Config ℚ :=
  { sqrtf := demo_sqrt,
    SPEED_INITIAL_XY_MM_S := 100,
    SPEED_INITIAL_Z_HZ := 200,
    ACCELERATION_INITIAL_X_MM_S := 300,
    ACCELERATION_INITIAL_Y_MM_S := 400,
    ACCELERATION_INITIAL_Z_HZ := 500 }

section Demo
variable {α : Type} [LinearOrderedField α]

/-- Some state of the variables before the first `gcode_clear()`. -/
def demo_state : State α :=
  { next_line_condition := Condition.CONDITION_IMMEDIATELY,
    action_after_needle_interrupt := Action.ACTION_NONE,
    dwell_delay := 0,
    dwell_timer := 0,
    command := 0,
    x_new := 0,
    y_new := 0,
    speed_xy := 0,
    speed_z := 0,
    acceleration_x := 0,
    acceleration_y := 0,
    interpolation_x := FVal.fin 0,
    interpolation_y := FVal.fin 0,
    interpolation_x_d := 0,
    interpolation_y_d := 0,
    interpolation_distance := 0,
    tension_ := 0,
    is_tensioned := false,
    progress := 0,
    paused_code := 0 }

/-- A world with the motors at rest at the origin, the clock at 1000 ms, the
program `file` loaded and positioned at its first line, and the byte `b` in
EEPROM cell 0. -/
def demo_world (file : List (List Char)) (b : Nat) : World α :=
  { motors_stopped := true,
    motor_x := 0,
    motor_y := 0,
    clock := 1000,
    needle_flag := false,
    file := file,
    cursor := 0,
    buffer := [],
    eeprom := fun _ => b,
    log := [] }

end Demo

/-- The program of the end-to-end example. -/
def program3 : List (List Char) :=
  ["G1 X10 Y0 F500".toList, "G4 P200".toList, "M73 P50".toList]

/-! ## Spec-side notions for the parser claims -/

/-- A token: a non-empty run of characters without a space. -/
def is_token (u : List Char) : Prop := u ≠ [] ∧ ' ' ∉ u

instance is_token_decidable (u : List Char) : Decidable (is_token u) := by
  unfold is_token
  exact inferInstance

/-- The buffer made of the given tokens separated by single spaces. -/
def unwords : List (List Char) → List Char
  | [] => []
  | [t] => t
  | t :: u :: ts => t ++ ' ' :: unwords (u :: ts)

/-- The given tokens, each followed by one space: the part of a buffer that
precedes a later token. -/
def lead : List (List Char) → List Char
  | [] => []
  | u :: us => u ++ ' ' :: lead us

/-! ## Data of the worked examples -/

/-- A one-line program whose line carries a dwell and a needle start that
waits for the interrupt. -/
def program_dwell_interrupt : List (List Char) := ["G4 P200 M3 I1".toList]

/-- A state waiting for the motors to stop. -/
def moving_state : State ℚ :=
  { (demo_state : State ℚ) with next_line_condition := Condition.CONDITION_AFTER_MOVE }

/-- A world whose motors are running. -/
def moving_world : World ℚ :=
  { (demo_world program3 90 : World ℚ) with motors_stopped := false, cursor := 1 }

/-- Readings with the motors running, at clock value `t`. -/
def running_at (t : Nat) : Readings ℚ :=
  { motors_stopped := false, motor_x := 5, motor_y := 0, clock := t, needle_flag := false }

/-- Readings with the motors stopped at (10, 0), at clock value `t`. -/
def stopped_at (t : Nat) : Readings ℚ :=
  { motors_stopped := true, motor_x := 10, motor_y := 0, clock := t, needle_flag := false }

/-- End-to-end example: the state after `gcode_clear`. -/
def trace_r0 : State ℚ × World ℚ :=
  gcode_clear demo_config demo_state (demo_world program3 90)

/-- End-to-end example: after the first tick. -/
def trace_r1 : State ℚ × World ℚ := gcode_cycle demo_config trace_r0.1 trace_r0.2

/-- End-to-end example: after the tick at 1500 ms that finds the motors
stopped. -/
def trace_r2 : State ℚ × World ℚ :=
  gcode_cycle demo_config trace_r1.1 (trace_r1.2.sample (stopped_at 1500))

/-- End-to-end example: after the tick at 1700 ms. -/
def trace_r3 : State ℚ × World ℚ :=
  gcode_cycle demo_config trace_r2.1 (trace_r2.2.sample (stopped_at 1700))

/-- A state whose target is the point (`x`, `y`). -/
def target_state {α : Type} [LinearOrderedField α] (x y : α) : State α :=
  { (demo_state : State α) with x_new := x, y_new := y }

/-- A world whose motors are at the point (`x`, `y`), with the program `file`
loaded and positioned at its first line. -/
def world_at {α : Type} [LinearOrderedField α] (x y : α) (file : List (List Char)) : World α :=
  { (demo_world file 90 : World α) with motor_x := x, motor_y := y }

/-- A one-line program: a move that names no coordinate. -/
def program_move_nowhere : List (List Char) := ["G1 F500".toList]

/-! ## The parts of a tick -/

section TickParts
variable {α : Type} [LinearOrderedField α] [FloorRing α]

/-- The gate of `gcode_cycle` lets the call through: no early `return` is
taken (lines 28-72). -/
def tick_proceeds (s : State α) (w : World α) : Prop :=
  match s.next_line_condition with
  | Condition.CONDITION_AFTER_MOVE => w.motors_stopped = true
  | Condition.CONDITION_AFTER_INTERRUPT => w.needle_flag = true ∧ dwell_pending s w = false
  | Condition.CONDITION_AFTER_DWELL => dwell_pending s w = false
  | Condition.CONDITION_IMMEDIATELY => True

/-- The world when a call that is let through leaves the gate: under
`CONDITION_AFTER_INTERRUPT` with the pending action `ACTION_STOP_MOTOR` the
gate has issued `motors_stop_z()` (line 43), otherwise nothing. -/
def gate_world (s : State α) (w : World α) : World α :=
  match s.next_line_condition, s.action_after_needle_interrupt with
  | Condition.CONDITION_AFTER_INTERRUPT, Action.ACTION_STOP_MOTOR => w.emit Cmd.motors_stop_z
  | _, _ => w

/-- The variables after the resets of lines 74-87, at clock value
`millis w`. -/
def proceed_state (s : State α) (w : World α) : State α :=
  { s with next_line_condition := Condition.CONDITION_IMMEDIATELY,
           action_after_needle_interrupt := Action.ACTION_NONE,
           dwell_delay := 0,
           dwell_timer := millis w }

/-- The world after line 75 and a successful `sd_card_read_next_line()` that
loaded `line`. -/
def fetch_world (w : World α) (line : List Char) : World α :=
  { w with needle_flag := false, buffer := line, cursor := w.cursor + 1 }

/-- The G code of a line: the value assigned to the integer `command` by
line 94 (the field `G` converted to an integer, -1 when absent). -/
def g_code (α : Type) [LinearOrderedField α] [FloorRing α] (line : List Char) : Int :=
  ftrunc (gcode_parse_code line 'G' (-1 : α))

/-- The M code of a line: the value assigned to the integer `command` by
line 138 (the field `M` converted to an integer, -1 when absent). -/
def m_code (α : Type) [LinearOrderedField α] [FloorRing α] (line : List Char) : Int :=
  ftrunc (gcode_parse_code line 'M' (-1 : α))

/-- The `while` loop of `gcode_parse_code` with a bound on the number of
times the loop condition is evaluated: `none` when the bound is used up
before the loop has ended. -/
def parse_fuel (code : Char) (default_value : α) : Nat → List Char → Option α
  | 0, _ => none
  | _ + 1, [] => some default_value
  | n + 1, c :: cs =>
    if c = code then some ((atof cs : ℚ) : α)
    else if c = ';' then some default_value
    else
      match strchr_next (c :: cs) with
      | none => some default_value
      | some p => parse_fuel code default_value n p

end TickParts

/-- A one-line program: a progress report above 100. -/
def program_progress : List (List Char) := ["M73 P150".toList]

/-- A two-line program: a needle start that waits for the interrupt, then a
code the handler does not know. -/
def program_needle : List (List Char) := ["M3 I1".toList, "G21".toList]

/-- Readings at clock value `t` with the needle interrupt flag set. -/
def interrupt_at (t : Nat) : Readings ℚ :=
  { motors_stopped := true, motor_x := 0, motor_y := 0, clock := t, needle_flag := true }

/-- A one-line program that ends with a needle start waiting for the
interrupt. -/
def program_needle_last : List (List Char) := ["M3 I1".toList]

/-- A one-line program: a code the handler does not know. -/
def program_unknown : List (List Char) := ["G21".toList]

/-- The state and world after `gcode_clear` and the tick that executes the
first line, `M3 I1`, of the program `file`. -/
def needle_r1 (file : List (List Char)) : State ℚ × World ℚ :=
  gcode_cycle demo_config (gcode_clear demo_config demo_state (demo_world file 90)).1
    (gcode_clear demo_config demo_state (demo_world file 90)).2

/-- A one-line program: a move and a needle start on the same line. -/
def program_move_needle : List (List Char) := ["G1 X10 M3 I1".toList]

/-- A one-line program: a move and a pause on the same line. -/
def program_move_pause : List (List Char) := ["G1 X10 M0".toList]

/-- The position that follows the characters `p` of a buffer is the start of
a token: `p` is empty (the position of the first character of the buffer) or
`p` ends with a space (a position directly after a space).  These are the
positions the scan of `gcode_parse_code` can visit. -/
def token_start (p : List Char) : Prop := p = [] ∨ p.getLast? = some ' '

instance token_start_decidable (p : List Char) : Decidable (token_start p) := by
  unfold token_start
  exact inferInstance

/-- A one-line program: a move to (3, 4) at feed rate 500. -/
def program_move : List (List Char) := ["G1 X3 Y4 F500".toList]

/-- A one-line program: a move to (3, 4) and the code `M201` on the same
line. -/
def program_move_accelerations : List (List Char) := ["G1 X3 Y4 M201".toList]

/-- The state and world after `gcode_clear` with the program `file` loaded
and a valid tension byte in the EEPROM. -/
def clear_r0 (file : List (List Char)) : State ℚ × World ℚ :=
  gcode_clear demo_config demo_state (demo_world file 90)

/-- The state and world after `gcode_clear` and the tick that executes the
first line of the program `file`. -/
def first_tick (file : List (List Char)) : State ℚ × World ℚ :=
  gcode_cycle demo_config (clear_r0 file).1 (clear_r0 file).2

/-! ## Evaluation lemmas -/

theorem sample_sample {α : Type} (w : World α) (e e2 : Readings α) :
    (w.sample e).sample e2 = w.sample e2 := rfl

section EvalLemmas
variable {α : Type} [LinearOrderedField α] [FloorRing α]

theorem ftrunc_intCast (n : Int) : ftrunc ((n : Int) : α) = n := by
  unfold ftrunc
  split <;> simp

theorem ftrunc_neg_one : ftrunc (-1 : α) = -1 := by
  have := ftrunc_intCast (α := α) (-1)
  simpa using this

theorem ftrunc_natCast (n : Nat) : ftrunc ((n : Nat) : α) = n := by
  have := ftrunc_intCast (α := α) (n : Int)
  simpa using this

theorem ftrunc_zero : ftrunc (0 : α) = 0 := by
  simpa using ftrunc_natCast (α := α) 0

theorem ftrunc_one : ftrunc (1 : α) = 1 := by
  simpa using ftrunc_natCast (α := α) 1

theorem ftrunc_ofNat (n : Nat) [n.AtLeastTwo] :
    ftrunc (no_index (OfNat.ofNat n) : α) = n := by
  have := ftrunc_natCast (α := α) n
  simpa using this

theorem f2u_natCast (b n : Nat) : f2u b ((n : Nat) : α) = n % 2 ^ b := by
  simp [f2u, ftrunc_natCast]

theorem f2u_ofNat (b n : Nat) [n.AtLeastTwo] :
    f2u b (no_index (OfNat.ofNat n) : α) = n % 2 ^ b := by
  have := f2u_natCast (α := α) b n
  simpa using this

/-- A call under an unmet gate is a no-op. -/
theorem cycle_of_gate_unmet (cfg : Config α) (s : State α) (w : World α)
    (h : gate_unmet s w) : gcode_cycle cfg s w = (s, w) := by
  rcases h with ⟨hc, hm⟩ | ⟨hc, hm⟩ | ⟨hc, hm⟩
  · simp [gcode_cycle, hc, hm]
  · simp [gcode_cycle, hc, hm]
  · simp [gcode_cycle, hc, hm, dwell_pending]

theorem run_ticks_of_gate_unmet (cfg : Config α) (s : State α) (es : List (Readings α)) :
    ∀ w : World α, (∀ e ∈ es, gate_unmet s (w.sample e)) →
      (run_ticks cfg es (s, w)).1 = s ∧
      (run_ticks cfg es (s, w)).2.file = w.file ∧
      (run_ticks cfg es (s, w)).2.cursor = w.cursor ∧
      (run_ticks cfg es (s, w)).2.buffer = w.buffer ∧
      (run_ticks cfg es (s, w)).2.eeprom = w.eeprom ∧
      (run_ticks cfg es (s, w)).2.log = w.log := by
  induction es with
  | nil => intro w _; simp [run_ticks]
  | cons e es ih =>
    intro w h
    have he : gate_unmet s (w.sample e) := h e (List.mem_cons_self _ _)
    have hstep : run_ticks cfg (e :: es) (s, w) = run_ticks cfg es (s, w.sample e) := by
      simp [run_ticks, cycle_of_gate_unmet cfg s (w.sample e) he]
    rw [hstep]
    have := ih (w.sample e) (fun e2 h2 => by
      rw [sample_sample]; exact h e2 (List.mem_cons_of_mem _ h2))
    simpa [World.sample] using this

end EvalLemmas

/-! ## Gate claims -/

section GateClaims
variable {α : Type} [LinearOrderedField α] [FloorRing α]

/-- C1: under an unmet gate (after-move with motors running, after-interrupt
without the interrupt flag, after-dwell before the delay is over) one call of
`gcode_cycle` changes neither the machine state nor the world (no line read,
no command issued), and any number of repeated calls under an unmet gate
leaves the state, the program position, the line buffer, the EEPROM and the
list of issued commands as they were. -/
theorem gcode_cycle_gate_unmet_idle (cfg : Config α) (s : State α) (w : World α) :
    (gate_unmet s w → gcode_cycle cfg s w = (s, w)) ∧
    (∀ es : List (Readings α), (∀ e ∈ es, gate_unmet s (w.sample e)) →
      (run_ticks cfg es (s, w)).1 = s ∧
      (run_ticks cfg es (s, w)).2.file = w.file ∧
      (run_ticks cfg es (s, w)).2.cursor = w.cursor ∧
      (run_ticks cfg es (s, w)).2.buffer = w.buffer ∧
      (run_ticks cfg es (s, w)).2.eeprom = w.eeprom ∧
      (run_ticks cfg es (s, w)).2.log = w.log) :=
  ⟨cycle_of_gate_unmet cfg s w, fun es h => run_ticks_of_gate_unmet cfg s es w h⟩

theorem gcode_cycle_gate_unmet_idle_witness :
    gate_unmet moving_state moving_world ∧
    gcode_cycle demo_config moving_state moving_world = (moving_state, moving_world) ∧
    (∀ e ∈ [running_at 1100, running_at 1200],
      gate_unmet moving_state (moving_world.sample e)) ∧
    (run_ticks demo_config [running_at 1100, running_at 1200]
      (moving_state, moving_world)).2.cursor = 1 ∧
    (run_ticks demo_config [running_at 1100, running_at 1200]
      (moving_state, moving_world)).2.log = [] :=
  have h1 : gate_unmet moving_state moving_world := Or.inl ⟨rfl, rfl⟩
  have h2 : ∀ e ∈ [running_at 1100, running_at 1200],
      gate_unmet moving_state (moving_world.sample e) := fun _ _ => Or.inl ⟨rfl, by
    simp only [List.mem_cons, List.mem_singleton, List.not_mem_nil, or_false] at *
    rename_i e he
    rcases he with rfl | rfl <;> rfl⟩
  have h := gcode_cycle_gate_unmet_idle demo_config moving_state moving_world
  ⟨h1, h.1 h1, h2, (h.2 _ h2).2.2.1, (h.2 _ h2).2.2.2.2.2⟩

omit [FloorRing α] in
/-- What `gcode_clear` leaves alone in the world: everything but the
interrupt flag, EEPROM cell 0 and the list of issued commands. -/
theorem gcode_clear_world (cfg : Config α) (s : State α) (w : World α) :
    (gcode_clear cfg s w).2.file = w.file ∧
    (gcode_clear cfg s w).2.cursor = w.cursor ∧
    (gcode_clear cfg s w).2.buffer = w.buffer ∧
    (gcode_clear cfg s w).2.motor_x = w.motor_x ∧
    (gcode_clear cfg s w).2.motor_y = w.motor_y ∧
    (gcode_clear cfg s w).2.clock = w.clock ∧
    (gcode_clear cfg s w).2.motors_stopped = w.motors_stopped := by
  unfold gcode_clear
  by_cases hb : (decide (100 < w.eeprom 0 % 256) || decide (w.eeprom 0 % 256 % 5 ≠ 0)) = true
  · simp only [hb, if_true, needle_sensor_clear_interrupt_flag, EEPROM_write]
    simp
  · simp only [hb, needle_sensor_clear_interrupt_flag]
    simp

omit [FloorRing α] in
theorem gcode_clear_condition (cfg : Config α) (s : State α) (w : World α) :
    (gcode_clear cfg s w).1.next_line_condition = Condition.CONDITION_IMMEDIATELY := rfl

/-- The tick that executes `G1 X10 Y0 F500` with the motors at the origin. -/
theorem tick_G1 (cfg : Config α) (s : State α) (w : World α)
    (hcond : s.next_line_condition = Condition.CONDITION_IMMEDIATELY)
    (hf : w.file = program3) (hc : w.cursor = 0) (hx : w.motor_x = 0) (hy : w.motor_y = 0) :
    gcode_cycle cfg s w =
      ({ s with next_line_condition := Condition.CONDITION_AFTER_MOVE,
                action_after_needle_interrupt := Action.ACTION_NONE,
                dwell_delay := 0, dwell_timer := millis w, command := -1,
                x_new := 10, y_new := 0, speed_xy := 500,
                interpolation_x_d := 10, interpolation_y_d := 0,
                interpolation_distance := cfg.sqrtf 100,
                interpolation_x := fdiv 10 (cfg.sqrtf 100),
                interpolation_y := fdiv 0 (cfg.sqrtf 100) },
       { w with needle_flag := false, buffer := "G1 X10 Y0 F500".toList, cursor := 1,
                log := w.log ++
                  [Cmd.motors_set_speed_x (fmul 500 (fdiv 10 (cfg.sqrtf 100))),
                   Cmd.motors_set_speed_y (fmul 500 (fdiv 0 (cfg.sqrtf 100))),
                   Cmd.motors_set_acceleration_x (fmul s.acceleration_x (fdiv 10 (cfg.sqrtf 100))),
                   Cmd.motors_set_acceleration_y (fmul s.acceleration_y (fdiv 0 (cfg.sqrtf 100))),
                   Cmd.motors_move_to_position 10 0] }) := by
  simp [gcode_cycle, proceed, sd_card_read_next_line, needle_sensor_clear_interrupt_flag, hf,
    hc, program3, g_codes, m_codes, g_switch, m_switch, g_move, g_dwell, m_pause, m_start_z,
    m_progress, m_accelerations, hcond, gcode_parse_code, parse_loop, strchr_next, atof,
    take_sign, skip_space, take_digits, isspace, isdigit, take_exponent, ftrunc_one,
    ftrunc_neg_one, World.emit, calculate_interpolation, hx, hy, millis]
  norm_num

/-- The tick that executes `G4 P200` once the motors have stopped. -/
theorem tick_G4 (cfg : Config α) (s : State α) (w : World α)
    (hcond : s.next_line_condition = Condition.CONDITION_AFTER_MOVE)
    (hm : w.motors_stopped = true) (hf : w.file = program3) (hc : w.cursor = 1) :
    gcode_cycle cfg s w =
      ({ s with next_line_condition := Condition.CONDITION_AFTER_DWELL,
                action_after_needle_interrupt := Action.ACTION_NONE,
                dwell_delay := 200, dwell_timer := millis w, command := -1 },
       { w with needle_flag := false, buffer := "G4 P200".toList, cursor := 2 }) := by
  simp [gcode_cycle, proceed, sd_card_read_next_line, needle_sensor_clear_interrupt_flag, hf,
    hc, program3, g_codes, m_codes, g_switch, m_switch, g_move, g_dwell, m_pause, m_start_z,
    m_progress, m_accelerations, hcond, hm, gcode_parse_code, parse_loop, strchr_next, atof,
    take_sign, skip_space, take_digits, isspace, isdigit, take_exponent, ftrunc_ofNat,
    f2u_ofNat, ftrunc_neg_one, World.emit, millis]

/-- The tick that executes `M73 P50` once the dwell time is over. -/
theorem tick_M73 (cfg : Config α) (s : State α) (w : World α)
    (hcond : s.next_line_condition = Condition.CONDITION_AFTER_DWELL)
    (hm : ¬ (u32_sub (millis w) s.dwell_timer < s.dwell_delay))
    (hf : w.file = program3) (hc : w.cursor = 2) :
    gcode_cycle cfg s w =
      ({ s with next_line_condition := Condition.CONDITION_IMMEDIATELY,
                action_after_needle_interrupt := Action.ACTION_NONE,
                dwell_delay := 0, dwell_timer := millis w, command := 73, progress := 50 },
       { w with needle_flag := false, buffer := "M73 P50".toList, cursor := 3,
                log := w.log ++ [Cmd.lcd_print_progress] }) := by
  simp only [millis] at hm
  simp [gcode_cycle, proceed, sd_card_read_next_line, needle_sensor_clear_interrupt_flag, hf,
    hc, program3, g_codes, m_codes, g_switch, m_switch, g_move, g_dwell, m_pause, m_start_z,
    m_progress, m_accelerations, hcond, hm, dwell_pending, gcode_parse_code, parse_loop,
    strchr_next, atof, take_sign, skip_space, take_digits, isspace, isdigit, take_exponent,
    ftrunc_ofNat, f2u_ofNat, ftrunc_neg_one, World.emit, millis]

theorem u32_sub_mod_left (a b : Nat) : u32_sub (a % 4294967296) b = u32_sub a b := by
  simp [u32_sub]

theorem u32_sub_mod_right (a b : Nat) : u32_sub a (b % 4294967296) = u32_sub a b := by
  simp [u32_sub]

/-- C3: the end-to-end trace of the program `G1 X10 Y0 F500`, `G4 P200`,
`M73 P50` from the state after `gcode_clear` with the motors at the origin.
The first tick issues the speed and acceleration settings and exactly one
`motors_move_to_position(10, 0)` and leaves `CONDITION_AFTER_MOVE`; a tick
with the motors still running changes nothing; a tick with the motors stopped
reads `G4 P200` and leaves `CONDITION_AFTER_DWELL` with `dwell_delay = 200`;
a tick less than 200 ms (by the `millis()` counter) later changes nothing; a
tick at least 200 ms later reads `M73 P50`, sets `progress` to 50 and calls
`lcd_print_progress()`. -/
theorem end_to_end_trace (cfg : Config α) (s : State α) (w : World α)
    (hf : w.file = program3) (hc : w.cursor = 0) (hx : w.motor_x = 0) (hy : w.motor_y = 0) :
    let r0 := gcode_clear cfg s w
    let r1 := gcode_cycle cfg r0.1 r0.2
    (r1.1.next_line_condition = Condition.CONDITION_AFTER_MOVE ∧
      r1.2.buffer = "G1 X10 Y0 F500".toList ∧ r1.2.cursor = 1 ∧
      r1.2.log = r0.2.log ++
        [Cmd.motors_set_speed_x (fmul 500 (fdiv 10 (cfg.sqrtf 100))),
         Cmd.motors_set_speed_y (fmul 500 (fdiv 0 (cfg.sqrtf 100))),
         Cmd.motors_set_acceleration_x
           (fmul cfg.ACCELERATION_INITIAL_X_MM_S (fdiv 10 (cfg.sqrtf 100))),
         Cmd.motors_set_acceleration_y
           (fmul cfg.ACCELERATION_INITIAL_Y_MM_S (fdiv 0 (cfg.sqrtf 100))),
         Cmd.motors_move_to_position 10 0]) ∧
    (∀ e : Readings α, e.motors_stopped = false →
      gcode_cycle cfg r1.1 (r1.2.sample e) = (r1.1, r1.2.sample e)) ∧
    (∀ e : Readings α, e.motors_stopped = true →
      let r2 := gcode_cycle cfg r1.1 (r1.2.sample e)
      (r2.2.buffer = "G4 P200".toList ∧ r2.2.cursor = 2 ∧ r2.2.log = r1.2.log ∧
        r2.1.next_line_condition = Condition.CONDITION_AFTER_DWELL ∧
        r2.1.dwell_delay = 200 ∧ r2.1.dwell_timer = e.clock % 4294967296) ∧
      (∀ e2 : Readings α, u32_sub e2.clock e.clock < 200 →
        gcode_cycle cfg r2.1 (r2.2.sample e2) = (r2.1, r2.2.sample e2)) ∧
      (∀ e2 : Readings α, 200 ≤ u32_sub e2.clock e.clock →
        let r3 := gcode_cycle cfg r2.1 (r2.2.sample e2)
        r3.2.buffer = "M73 P50".toList ∧ r3.2.cursor = 3 ∧ r3.1.progress = 50 ∧
        r3.1.next_line_condition = Condition.CONDITION_IMMEDIATELY ∧
        r3.2.log = r2.2.log ++ [Cmd.lcd_print_progress])) := by
  intro r0 r1
  obtain ⟨cf, cc, -, cx, cy, -, -⟩ := gcode_clear_world cfg s w
  have h1 : r1 = _ := tick_G1 cfg r0.1 r0.2 (gcode_clear_condition cfg s w)
    (cf.trans hf) (cc.trans hc) (cx.trans hx) (cy.trans hy)
  have hacc : r0.1.acceleration_x = cfg.ACCELERATION_INITIAL_X_MM_S ∧
      r0.1.acceleration_y = cfg.ACCELERATION_INITIAL_Y_MM_S := ⟨rfl, rfl⟩
  have hr1c : r1.1.next_line_condition = Condition.CONDITION_AFTER_MOVE := by rw [h1]
  have hr1f : r1.2.file = program3 := by rw [h1]; exact cf.trans hf
  have hr1k : r1.2.cursor = 1 := by rw [h1]
  refine ⟨⟨hr1c, by rw [h1], hr1k, by rw [h1, ← hacc.1, ← hacc.2]⟩, ?_, ?_⟩
  · intro e he
    exact cycle_of_gate_unmet cfg r1.1 (r1.2.sample e) (Or.inl ⟨hr1c, he⟩)
  · intro e he r2
    have h2 : r2 = _ := tick_G4 cfg r1.1 (r1.2.sample e) hr1c he hr1f hr1k
    have hr2c : r2.1.next_line_condition = Condition.CONDITION_AFTER_DWELL := by rw [h2]
    have hr2d : r2.1.dwell_delay = 200 := by rw [h2]
    have hr2t : r2.1.dwell_timer = e.clock % 4294967296 := by rw [h2]; rfl
    have hr2f : r2.2.file = program3 := by rw [h2]; exact hr1f
    have hr2k : r2.2.cursor = 2 := by rw [h2]
    refine ⟨⟨by rw [h2], hr2k, by rw [h2]; rfl, hr2c, hr2d, hr2t⟩, ?_, ?_⟩
    · intro e2 he2
      refine cycle_of_gate_unmet cfg r2.1 (r2.2.sample e2) (Or.inr (Or.inr ⟨hr2c, ?_⟩))
      rw [hr2d, hr2t, u32_sub_mod_right]
      show u32_sub (e2.clock % 4294967296) e.clock < 200
      rw [u32_sub_mod_left]
      exact he2
    · intro e2 he2 r3
      have hnot : ¬ (u32_sub (millis (r2.2.sample e2)) r2.1.dwell_timer < r2.1.dwell_delay) := by
        rw [hr2d, hr2t, u32_sub_mod_right]
        show ¬ (u32_sub (e2.clock % 4294967296) e.clock < 200)
        rw [u32_sub_mod_left]
        omega
      have h3 : r3 = _ := tick_M73 cfg r2.1 (r2.2.sample e2) hr2c hnot hr2f hr2k
      refine ⟨by rw [h3], by rw [h3], by rw [h3], by rw [h3], by rw [h3]; rfl⟩

theorem end_to_end_trace_witness :
    ((demo_world program3 90 : World ℚ).file = program3 ∧
      (demo_world program3 90 : World ℚ).cursor = 0 ∧
      (demo_world program3 90 : World ℚ).motor_x = 0 ∧
      (demo_world program3 90 : World ℚ).motor_y = 0) ∧
    trace_r1.1.next_line_condition = Condition.CONDITION_AFTER_MOVE ∧
    (running_at 1200).motors_stopped = false ∧
    gcode_cycle demo_config trace_r1.1 (trace_r1.2.sample (running_at 1200)) =
      (trace_r1.1, trace_r1.2.sample (running_at 1200)) ∧
    (stopped_at 1500).motors_stopped = true ∧
    trace_r2.1.dwell_delay = 200 ∧
    u32_sub (stopped_at 1600).clock (stopped_at 1500).clock < 200 ∧
    gcode_cycle demo_config trace_r2.1 (trace_r2.2.sample (stopped_at 1600)) =
      (trace_r2.1, trace_r2.2.sample (stopped_at 1600)) ∧
    200 ≤ u32_sub (stopped_at 1700).clock (stopped_at 1500).clock ∧
    trace_r3.1.progress = 50 ∧
    trace_r3.2.log = trace_r2.2.log ++ [Cmd.lcd_print_progress] :=
  have h := end_to_end_trace demo_config demo_state (demo_world program3 90) rfl rfl rfl rfl
  have h2 := h.2.2 (stopped_at 1500) rfl
  have h3 := h2.2.2 (stopped_at 1700) (by decide)
  ⟨⟨rfl, rfl, rfl, rfl⟩, h.1.1, rfl, h.2.1 (running_at 1200) rfl, rfl, h2.1.2.2.2.2.1,
    by decide, h2.2.1 (stopped_at 1600) (by decide), by decide, h3.2.2.1, h3.2.2.2.2⟩

/-- The tick that executes `G4 P200 M3 I1`: the dwell delay of `G4` stays in
place under the interrupt gate written by `M3`. -/
theorem tick_G4_M3_I1 (cfg : Config α) (s : State α) (w : World α)
    (hcond : s.next_line_condition = Condition.CONDITION_IMMEDIATELY)
    (hf : w.file = program_dwell_interrupt) (hc : w.cursor = 0) :
    (gcode_cycle cfg s w).1 =
      { s with next_line_condition := Condition.CONDITION_AFTER_INTERRUPT,
               action_after_needle_interrupt := Action.ACTION_STOP_MOTOR,
               dwell_delay := 200, dwell_timer := millis w, command := 3,
               speed_z := cfg.SPEED_INITIAL_Z_HZ } ∧
    (gcode_cycle cfg s w).2.cursor = 1 := by
  simp [gcode_cycle, proceed, sd_card_read_next_line, needle_sensor_clear_interrupt_flag, hf,
    hc, program_dwell_interrupt, g_codes, m_codes, g_switch, m_switch, g_move, g_dwell,
    m_pause, m_start_z, m_progress, m_accelerations, hcond, gcode_parse_code, parse_loop,
    strchr_next, atof, take_sign, skip_space, take_digits, isspace, isdigit, take_exponent,
    ftrunc_ofNat, f2u_ofNat, ftrunc_neg_one, World.emit, millis]
  split_ifs <;> simp

/-- With the interrupt flag set under `CONDITION_AFTER_INTERRUPT` and the
dwell test still pending, a call stops the needle motor and returns: the
state is kept, no line is read and the flag is not cleared. -/
theorem cycle_interrupt_dwell_pending (cfg : Config α) (s : State α) (w : World α)
    (hc : s.next_line_condition = Condition.CONDITION_AFTER_INTERRUPT)
    (ha : s.action_after_needle_interrupt = Action.ACTION_STOP_MOTOR)
    (hflag : w.needle_flag = true)
    (hd : u32_sub (millis w) s.dwell_timer < s.dwell_delay) :
    gcode_cycle cfg s w = (s, w.emit Cmd.motors_stop_z) := by
  have hd2 : dwell_pending s (w.emit Cmd.motors_stop_z) = true := by
    simpa [dwell_pending, millis, World.emit] using hd
  simp only [gcode_cycle, hc, ha, hflag, if_true, hd2]

/-- C2 (the code at the failing input): after `gcode_clear` the tick at clock
1000 executes the line `G4 P200 M3 I1` and leaves
`CONDITION_AFTER_INTERRUPT` with `ACTION_STOP_MOTOR` and `dwell_delay = 200`.
With the interrupt flag set, the tick at clock 1050 issues `motors_stop_z()`
and returns without proceeding (state kept, flag still set, no line read),
and the tick at clock 1100 issues `motors_stop_z()` a second time and again
does not proceed. -/
theorem interrupt_gate_falls_into_dwell_test (cfg : Config α) (s : State α) (w : World α) :
    let w0 : World α := { w with file := program_dwell_interrupt, cursor := 0, clock := 1000 }
    let r1 := gcode_cycle cfg (gcode_clear cfg s w0).1 (gcode_clear cfg s w0).2
    let r2 := gcode_cycle cfg r1.1 (r1.2.sample ⟨true, 0, 0, 1050, true⟩)
    let r3 := gcode_cycle cfg r2.1 (r2.2.sample ⟨true, 0, 0, 1100, true⟩)
    (r1.1.next_line_condition = Condition.CONDITION_AFTER_INTERRUPT ∧
      r1.1.action_after_needle_interrupt = Action.ACTION_STOP_MOTOR ∧
      r1.1.dwell_delay = 200 ∧ r1.1.dwell_timer = 1000 ∧ r1.2.cursor = 1) ∧
    (r2.1 = r1.1 ∧ r2.2.cursor = 1 ∧ r2.2.needle_flag = true ∧
      r2.2.log = r1.2.log ++ [Cmd.motors_stop_z]) ∧
    (r3.1 = r1.1 ∧ r3.2.cursor = 1 ∧ r3.2.needle_flag = true ∧
      r3.2.log = r1.2.log ++ [Cmd.motors_stop_z, Cmd.motors_stop_z]) := by
  intro w0 r1 r2 r3
  obtain ⟨cf, cc, -, -, -, ck, -⟩ := gcode_clear_world cfg s w0
  obtain ⟨h1s, h1c⟩ := tick_G4_M3_I1 cfg (gcode_clear cfg s w0).1 (gcode_clear cfg s w0).2
    (gcode_clear_condition cfg s w0) cf cc
  have hc1 : r1.1.next_line_condition = Condition.CONDITION_AFTER_INTERRUPT := by
    show (gcode_cycle cfg _ _).1.next_line_condition = _
    rw [h1s]
  have ha1 : r1.1.action_after_needle_interrupt = Action.ACTION_STOP_MOTOR := by
    show (gcode_cycle cfg _ _).1.action_after_needle_interrupt = _
    rw [h1s]
  have hd1 : r1.1.dwell_delay = 200 := by
    show (gcode_cycle cfg _ _).1.dwell_delay = _
    rw [h1s]
  have ht : r1.1.dwell_timer = 1000 := by
    show (gcode_cycle cfg _ _).1.dwell_timer = 1000
    rw [h1s]
    show (gcode_clear cfg s w0).2.clock % 4294967296 = 1000
    rw [ck]
    rfl
  have hk1 : r1.2.cursor = 1 := h1c
  clear_value r1
  have h2 : r2 = (r1.1, (r1.2.sample ⟨true, 0, 0, 1050, true⟩).emit Cmd.motors_stop_z) :=
    cycle_interrupt_dwell_pending cfg r1.1 _ hc1 ha1 rfl (by
      rw [hd1, ht]
      show u32_sub (1050 % 4294967296) 1000 < 200
      decide)
  clear_value r2
  subst h2
  have h3 : r3 = (r1.1, (((r1.2.sample ⟨true, 0, 0, 1050, true⟩).emit
      Cmd.motors_stop_z).sample ⟨true, 0, 0, 1100, true⟩).emit Cmd.motors_stop_z) :=
    cycle_interrupt_dwell_pending cfg r1.1 _ hc1 ha1 rfl (by
      rw [hd1, ht]
      show u32_sub (1100 % 4294967296) 1000 < 200
      decide)
  clear_value r3
  subst h3
  refine ⟨⟨hc1, ha1, hd1, ht, hk1⟩, ⟨rfl, hk1, rfl, rfl⟩, ⟨rfl, hk1, rfl, ?_⟩⟩
  simp [World.emit, World.sample]

end GateClaims

/-! ## The field parser: scanning token by token -/

theorem strchr_next_append_space (u r : List Char) (hu : ' ' ∉ u) :
    strchr_next (u ++ ' ' :: r) = some r := by
  induction u with
  | nil => simp [strchr_next]
  | cons c cs ih =>
    have hc : c ≠ ' ' := fun h => hu (by simp [h])
    have hcs : ' ' ∉ cs := fun h => hu (List.mem_cons_of_mem _ h)
    simp [strchr_next, hc, ih hcs]

theorem strchr_next_none (u : List Char) (hu : ' ' ∉ u) : strchr_next u = none := by
  induction u with
  | nil => rfl
  | cons c cs ih =>
    have hc : c ≠ ' ' := fun h => hu (by simp [h])
    have hcs : ' ' ∉ cs := fun h => hu (List.mem_cons_of_mem _ h)
    simp [strchr_next, hc, ih hcs]

theorem strchr_next_some (p q : List Char) (h : strchr_next p = some q) :
    ∃ u : List Char, ' ' ∉ u ∧ p = u ++ ' ' :: q := by
  induction p with
  | nil => simp [strchr_next] at h
  | cons c cs ih =>
    by_cases hc : c = ' '
    · simp [strchr_next, hc] at h
      subst h
      exact ⟨[], by simp, by simp [hc]⟩
    · simp [strchr_next, hc] at h
      obtain ⟨u, hu, e⟩ := ih h
      refine ⟨c :: u, ?_, by rw [e]; rfl⟩
      intro hm
      rcases List.mem_cons.mp hm with h1 | h1
      · exact hc h1.symm
      · exact hu h1

theorem strchr_next_eq_none (p : List Char) : strchr_next p = none ↔ ' ' ∉ p := by
  constructor
  · intro h hm
    induction p with
    | nil => simp at hm
    | cons c cs ih =>
      by_cases hc : c = ' '
      · simp [strchr_next, hc] at h
      · simp [strchr_next, hc] at h
        rcases List.mem_cons.mp hm with h1 | h1
        · exact hc h1.symm
        · exact ih h h1
  · exact strchr_next_none p

theorem unwords_cons (u : List Char) (ts : List (List Char)) (h : ts ≠ []) :
    unwords (u :: ts) = u ++ ' ' :: unwords ts := by
  cases ts with
  | nil => exact absurd rfl h
  | cons t ts => rfl

theorem unwords_append (pre : List (List Char)) (ts : List (List Char)) (h : ts ≠ []) :
    unwords (pre ++ ts) = lead pre ++ unwords ts := by
  induction pre with
  | nil => rfl
  | cons u us ih =>
    have : us ++ ts ≠ [] := by simp [h]
    rw [List.cons_append, unwords_cons u _ this, ih]
    simp [lead]

section ParserLemmas
variable {α : Type} [LinearOrderedField α]

theorem parse_loop_nil (code : Char) (d : α) : parse_loop code d [] = d := by
  rw [parse_loop]

theorem parse_loop_cons (code : Char) (d : α) (c : Char) (cs : List Char) :
    parse_loop code d (c :: cs) =
      if c = code then ((atof cs : ℚ) : α)
      else if c = ';' then d
      else match strchr_next (c :: cs) with
        | none => d
        | some p => parse_loop code d p := by
  rw [parse_loop]
  split
  · rfl
  · split
    · rfl
    · split <;> simp_all

theorem parse_loop_match (code : Char) (d : α) (cs : List Char) :
    parse_loop code d (code :: cs) = ((atof cs : ℚ) : α) := by
  rw [parse_loop_cons]; simp

theorem parse_loop_comment (code : Char) (d : α) (cs : List Char) (h : code ≠ ';') :
    parse_loop code d (';' :: cs) = d := by
  rw [parse_loop_cons]; simp [Ne.symm h]

theorem parse_loop_skip (code : Char) (d : α) (c : Char) (cs r : List Char)
    (h1 : c ≠ code) (h2 : c ≠ ';') (hs : ' ' ∉ c :: cs) :
    parse_loop code d ((c :: cs) ++ ' ' :: r) = parse_loop code d r := by
  have := strchr_next_append_space (c :: cs) r hs
  rw [List.cons_append] at this ⊢
  rw [parse_loop_cons, this]
  simp [h1, h2]

theorem parse_loop_last (code : Char) (d : α) (c : Char) (cs : List Char)
    (h1 : c ≠ code) (hs : ' ' ∉ c :: cs) :
    parse_loop code d (c :: cs) = d := by
  rw [parse_loop_cons, strchr_next_none _ hs]
  simp [h1]

theorem parse_loop_lead (code : Char) (d : α) (pre : List (List Char)) (r : List Char)
    (hpre : ∀ u ∈ pre, is_token u ∧ u.head? ≠ some code ∧ u.head? ≠ some ';') :
    parse_loop code d (lead pre ++ r) = parse_loop code d r := by
  induction pre with
  | nil => rfl
  | cons u us ih =>
    obtain ⟨⟨hne, hsp⟩, hc, hs⟩ := hpre u (List.mem_cons_self _ _)
    cases u with
    | nil => exact absurd rfl hne
    | cons c cs =>
      have h1 : c ≠ code := fun h => hc (by simp [h])
      have h2 : c ≠ ';' := fun h => hs (by simp [h])
      have : lead ((c :: cs) :: us) ++ r = (c :: cs) ++ ' ' :: (lead us ++ r) := by
        simp [lead]
      rw [this, parse_loop_skip code d c cs _ h1 h2 hsp]
      exact ih (fun v hv => hpre v (List.mem_cons_of_mem _ hv))

theorem parse_loop_lead_comment (code : Char) (d : α) (pre : List (List Char)) (r : List Char)
    (hpre : ∀ u ∈ pre, is_token u ∧ u.head? ≠ some code) (hcode : code ≠ ';') :
    parse_loop code d (lead pre ++ ';' :: r) = d := by
  induction pre with
  | nil => exact parse_loop_comment code d r hcode
  | cons u us ih =>
    obtain ⟨⟨hne, hsp⟩, hc⟩ := hpre u (List.mem_cons_self _ _)
    cases u with
    | nil => exact absurd rfl hne
    | cons c cs =>
      have h1 : c ≠ code := fun h => hc (by simp [h])
      by_cases h2 : c = ';'
      · subst h2
        show parse_loop code d (';' :: _) = d
        exact parse_loop_comment code d _ hcode
      · have : lead ((c :: cs) :: us) ++ ';' :: r = (c :: cs) ++ ' ' :: (lead us ++ ';' :: r) := by
          simp [lead]
        rw [this, parse_loop_skip code d c cs _ h1 h2 hsp]
        exact ih (fun v hv => hpre v (List.mem_cons_of_mem _ hv))
end ParserLemmas

theorem skip_space_append (a x : List Char) (h : skip_space a ≠ []) :
    skip_space (a ++ ' ' :: x) = skip_space a ++ ' ' :: x := by
  induction a with
  | nil => exact absurd rfl h
  | cons c cs ih =>
    by_cases hc : isspace c = true
    · simp only [List.cons_append, skip_space, hc, if_true] at h ⊢
      exact ih h
    · simp [skip_space, hc]

theorem take_sign_append (a x : List Char) :
    take_sign (a ++ ' ' :: x) = ((take_sign a).1, (take_sign a).2 ++ ' ' :: x) := by
  cases a with
  | nil => simp [take_sign]
  | cons c cs =>
    by_cases h1 : c = '-'
    · simp [take_sign, h1]
    · by_cases h2 : c = '+'
      · simp [take_sign, h2]
      · simp [take_sign, h1, h2]

theorem take_digits_append (a x : List Char) :
    ∀ acc n : Nat, take_digits acc n (a ++ ' ' :: x) =
      ((take_digits acc n a).1, (take_digits acc n a).2.1,
        (take_digits acc n a).2.2 ++ ' ' :: x) := by
  induction a with
  | nil => intro acc n; simp [take_digits, isdigit]
  | cons c cs ih =>
    intro acc n
    by_cases hc : isdigit c = true
    · simp only [List.cons_append, take_digits, hc, if_true]
      exact ih _ _
    · simp [take_digits, hc]

theorem take_exponent_append (a x : List Char) :
    take_exponent (a ++ ' ' :: x) = take_exponent a := by
  cases a with
  | nil => simp [take_exponent]
  | cons c cs =>
    by_cases hc : (c = 'e' || c = 'E') = true
    · simp only [List.cons_append, take_exponent, hc, if_true, take_sign_append,
        take_digits_append]
    · simp only [List.cons_append, take_exponent, hc]
      simp

theorem atof_append_space (a x : List Char) (h : skip_space a ≠ []) :
    atof (a ++ ' ' :: x) = atof a := by
  unfold atof
  simp only [skip_space_append a x h, take_sign_append, take_digits_append]
  cases hr : (take_digits 0 0 (take_sign (skip_space a)).2).2.2 with
  | nil => simp [take_exponent]
  | cons c r =>
    by_cases hc : c = '.'
    · simp [hc, take_digits_append, take_exponent_append]
    · simp [hc, take_exponent_append]
      rw [← List.cons_append, take_exponent_append]

section ParserClaims
variable {α : Type} [LinearOrderedField α]

/-- C4 (amended): in a buffer made of tokens separated by single spaces in
which no token before the match begins with `;`, `gcode_parse_code` returns
`atof` of all the characters that follow the letter of the first token that
begins with the letter, up to the end of the buffer; this is the conversion of
the token's own characters after the letter whenever they contain a character
that is not white space.  On `X12.5 Y-3 F800;comment` the fields `Y`, `F` and
`Z` (default 99) parse to -3, 800 and 99. -/
theorem parse_first_matching_token (pre post : List (List Char)) (tl : List Char)
    (letter : Char) (d : α)
    (hpre : ∀ u ∈ pre, is_token u ∧ u.head? ≠ some letter ∧ u.head? ≠ some ';') :
    gcode_parse_code (unwords (pre ++ (letter :: tl) :: post)) letter d =
      ((atof (unwords (tl :: post)) : ℚ) : α) ∧
    (skip_space tl ≠ [] →
      gcode_parse_code (unwords (pre ++ (letter :: tl) :: post)) letter d =
        ((atof tl : ℚ) : α)) ∧
    gcode_parse_code "X12.5 Y-3 F800;comment".toList 'Y' (0 : α) = -3 ∧
    gcode_parse_code "X12.5 Y-3 F800;comment".toList 'F' (0 : α) = 800 ∧
    gcode_parse_code "X12.5 Y-3 F800;comment".toList 'Z' (99 : α) = 99 := by
  have hmain : gcode_parse_code (unwords (pre ++ (letter :: tl) :: post)) letter d =
      ((atof (unwords (tl :: post)) : ℚ) : α) := by
    unfold gcode_parse_code
    rw [unwords_append pre _ (List.cons_ne_nil _ _), parse_loop_lead letter d pre _ hpre]
    have : unwords ((letter :: tl) :: post) = letter :: unwords (tl :: post) := by
      cases post <;> rfl
    rw [this, parse_loop_match]
  refine ⟨hmain, ?_, ?_, ?_, ?_⟩
  · intro hsk
    rw [hmain]
    cases post with
    | nil => rfl
    | cons p ps =>
      rw [unwords_cons tl _ (List.cons_ne_nil _ _), atof_append_space tl _ hsk]
  · simp [gcode_parse_code, parse_loop, strchr_next, atof, take_sign, skip_space, take_digits,
      isspace, isdigit, take_exponent]
  · simp [gcode_parse_code, parse_loop, strchr_next, atof, take_sign, skip_space, take_digits,
      isspace, isdigit, take_exponent]
  · simp [gcode_parse_code, parse_loop, strchr_next]

theorem parse_first_matching_token_witness :
    (∀ u ∈ ["X12.5".toList], is_token u ∧ u.head? ≠ some 'Y' ∧ u.head? ≠ some ';') ∧
    skip_space "-3".toList ≠ [] ∧
    unwords (["X12.5".toList] ++ ('Y' :: "-3".toList) :: ["F800;comment".toList]) =
      "X12.5 Y-3 F800;comment".toList ∧
    gcode_parse_code
      (unwords (["X12.5".toList] ++ ('Y' :: "-3".toList) :: ["F800;comment".toList]))
      'Y' (0 : ℚ) = ((atof "-3".toList : ℚ) : ℚ) :=
  have hpre : ∀ u ∈ ["X12.5".toList],
      is_token u ∧ u.head? ≠ some 'Y' ∧ u.head? ≠ some ';' := by
    simp [is_token]
  have hsk : skip_space "-3".toList ≠ [] := by simp [skip_space, isspace]
  ⟨hpre, hsk, rfl,
    (parse_first_matching_token ["X12.5".toList] ["F800;comment".toList] "-3".toList 'Y'
      (0 : ℚ) hpre).2.1 hsk⟩

/-- C4 as stated fails for a token that is the bare letter: in the buffer
`Y 5` (tokens `Y` and `5`) no character follows the letter in its token, whose
conversion is 0, while `gcode_parse_code('Y', 0)` returns 5, as `atof` skips
the space and converts the next token. -/
theorem parse_bare_letter_reads_next_token :
    unwords ["Y".toList, "5".toList] = "Y 5".toList ∧
    is_token "Y".toList ∧ is_token "5".toList ∧
    atof ("Y".toList.tail) = 0 ∧
    gcode_parse_code "Y 5".toList 'Y' (0 : ℚ) = 5 ∧
    gcode_parse_code "Y 5".toList 'Y' (0 : ℚ) ≠ atof ("Y".toList.tail) := by
  have h5 : gcode_parse_code "Y 5".toList 'Y' (0 : ℚ) = 5 := by
    simp [gcode_parse_code, parse_loop, atof, take_sign, skip_space, take_digits, isspace,
      isdigit, take_exponent]
  have h0 : atof ("Y".toList.tail) = 0 := by
    simp [atof, take_sign, skip_space, take_digits]
  refine ⟨rfl, by simp [is_token], by simp [is_token], h0, h5, ?_⟩
  rw [h5, h0]
  norm_num

/-- C5 as stated fails when the `;` is not the first character of a token: in
`X5;c Y7` the `;` comes before the only `Y`, yet `gcode_parse_code('Y', 0)`
finds the field and returns 7. -/
theorem parse_field_after_inner_semicolon :
    'Y' ∉ "X5".toList ∧
    "X5".toList ++ ';' :: "c Y7".toList = "X5;c Y7".toList ∧
    gcode_parse_code ("X5".toList ++ ';' :: "c Y7".toList) 'Y' (0 : ℚ) = 7 ∧
    gcode_parse_code ("X5".toList ++ ';' :: "c Y7".toList) 'Y' (0 : ℚ) ≠ 0 := by
  have h7 : gcode_parse_code ("X5".toList ++ ';' :: "c Y7".toList) 'Y' (0 : ℚ) = 7 := by
    simp [gcode_parse_code, parse_loop, strchr_next, atof, take_sign, skip_space, take_digits,
      isspace, isdigit, take_exponent]
  refine ⟨by decide, rfl, h7, ?_⟩
  rw [h7]
  norm_num

end ParserClaims

theorem token_start_nil : token_start [] := Or.inl rfl

/-- A position after a space of the rest is a token start of the whole. -/
theorem token_start_after_space (u p : List Char) (h : token_start p) :
    token_start (u ++ ' ' :: p) := by
  right
  rcases h with h | h
  · subst h
    simp
  · cases p with
    | nil => simp at h
    | cons a as =>
      rw [List.getLast?_append, List.getLast?_cons_cons, h]
      rfl

/-- A token start of the whole that lies after a space is one of the rest. -/
theorem token_start_of_after_space (u p : List Char) (h : token_start (u ++ ' ' :: p)) :
    token_start p := by
  cases p with
  | nil => exact Or.inl rfl
  | cons a as =>
    right
    rcases h with h | h
    · simp at h
    · rw [List.getLast?_append, List.getLast?_cons_cons] at h
      cases hl : (a :: as).getLast? with
      | none => simp at hl
      | some x =>
        rw [hl] at h
        simpa using h

theorem mem_of_token_start (c : Char) (cs : List Char) (h : token_start (c :: cs)) :
    ' ' ∈ c :: cs := by
  rcases h with h | h
  · simp at h
  · exact List.mem_of_getLast?_eq_some h

section ParserStarts
variable {α : Type} [LinearOrderedField α]

/-- When the character at no token start is the field letter, the scan
returns the default value. -/
theorem parse_loop_no_start (code : Char) (d : α) :
    ∀ (n : Nat) (buf : List Char), buf.length ≤ n →
      (∀ (p : List Char) (c : Char) (q : List Char),
        buf = p ++ c :: q → token_start p → c ≠ code) →
      parse_loop code d buf = d := by
  intro n
  induction n with
  | zero =>
    intro buf hlen _
    have : buf = [] := List.length_eq_zero.mp (Nat.le_zero.mp hlen)
    rw [this, parse_loop_nil]
  | succ n ih =>
    intro buf hlen h
    cases buf with
    | nil => exact parse_loop_nil code d
    | cons c cs =>
      have h1 : c ≠ code := h [] c cs rfl token_start_nil
      rw [parse_loop_cons, if_neg h1]
      by_cases h2 : c = ';'
      · rw [if_pos h2]
      · rw [if_neg h2]
        cases hq : strchr_next (c :: cs) with
        | none => rfl
        | some v =>
          obtain ⟨u, -, e⟩ := strchr_next_some _ _ hq
          have hv : v.length ≤ n := by
            have := congrArg List.length e
            simp at this hlen
            omega
          exact ih v hv (fun p c2 q hpq hp =>
            h (u ++ ' ' :: p) c2 q (by rw [e, hpq]; simp) (token_start_after_space u p hp))

/-- When a `;` stands at a token start and the character at no token start
before it is the field letter, the scan returns the default value. -/
theorem parse_loop_comment_start (code : Char) (d : α) (r : List Char) (hc : code ≠ ';') :
    ∀ (n : Nat) (pre : List Char), pre.length ≤ n → token_start pre →
      (∀ (p : List Char) (c : Char) (q : List Char),
        pre = p ++ c :: q → token_start p → c ≠ code) →
      parse_loop code d (pre ++ ';' :: r) = d := by
  intro n
  induction n with
  | zero =>
    intro pre hlen _ _
    have : pre = [] := List.length_eq_zero.mp (Nat.le_zero.mp hlen)
    rw [this]
    exact parse_loop_comment code d r hc
  | succ n ih =>
    intro pre hlen hs h
    cases pre with
    | nil => exact parse_loop_comment code d r hc
    | cons c cs =>
      have h1 : c ≠ code := h [] c cs rfl token_start_nil
      by_cases h2 : c = ';'
      · subst h2
        exact parse_loop_comment code d _ hc
      · cases hq : strchr_next (c :: cs) with
        | none =>
          exact absurd (mem_of_token_start c cs hs) ((strchr_next_eq_none _).mp hq)
        | some v =>
          obtain ⟨u, hu, e⟩ := strchr_next_some _ _ hq
          have hv : v.length ≤ n := by
            have := congrArg List.length e
            simp at this hlen
            omega
          have hsv : token_start v := token_start_of_after_space u v (e ▸ hs)
          have e2 : c :: (cs ++ ';' :: r) = u ++ ' ' :: (v ++ ';' :: r) := by
            rw [← List.cons_append, e]
            simp
          have hnext : strchr_next (c :: (cs ++ ';' :: r)) = some (v ++ ';' :: r) := by
            rw [e2]
            exact strchr_next_append_space u _ hu
          rw [List.cons_append, parse_loop_cons, if_neg h1, if_neg h2, hnext]
          exact ih v hv hsv (fun p c2 q hpq hp =>
            h (u ++ ' ' :: p) c2 q (by rw [e, hpq]; simp) (token_start_after_space u p hp))

/-- C5 (amended): for a field letter other than `;`, if a `;` stands at a
token start of the buffer (it is the first character or directly follows a
space) and the character at no token start before it is the field letter,
then `gcode_parse_code` returns `default_value`, whatever follows the `;`;
this holds for every buffer, also with leading or doubled spaces.  In
particular it holds when the part before the `;` is made of non-empty tokens,
each followed by one space, none of which begins with the field letter. -/
theorem parse_comment_token_first (pre r : List Char) (letter : Char) (d : α)
    (hs : token_start pre)
    (hpre : ∀ (p : List Char) (c : Char) (q : List Char),
      pre = p ++ c :: q → token_start p → c ≠ letter)
    (hl : letter ≠ ';') :
    gcode_parse_code (pre ++ ';' :: r) letter d = d ∧
    (∀ toks : List (List Char), (∀ u ∈ toks, is_token u ∧ u.head? ≠ some letter) →
      gcode_parse_code (lead toks ++ ';' :: r) letter d = d) :=
  ⟨parse_loop_comment_start letter d r hl pre.length pre (le_refl _) hs hpre,
    fun toks htoks => parse_loop_lead_comment letter d toks r htoks hl⟩

end ParserStarts

theorem parse_comment_token_first_witness :
    token_start "G1  X5 ".toList ∧
    (∀ (p : List Char) (c : Char) (q : List Char),
      "G1  X5 ".toList = p ++ c :: q → token_start p → c ≠ 'Y') ∧
    'Y' ≠ ';' ∧
    "G1  X5 ".toList ++ ';' :: " Y7".toList = "G1  X5 ; Y7".toList ∧
    gcode_parse_code ("G1  X5 ".toList ++ ';' :: " Y7".toList) 'Y' (42 : ℚ) = 42 ∧
    (∀ u ∈ ["G1".toList, "X5".toList], is_token u ∧ u.head? ≠ some 'Y') ∧
    gcode_parse_code (lead ["G1".toList, "X5".toList] ++ ';' :: " Y7".toList) 'Y' (42 : ℚ)
      = 42 :=
  have hs : token_start "G1  X5 ".toList := by decide
  have hpre : ∀ (p : List Char) (c : Char) (q : List Char),
      "G1  X5 ".toList = p ++ c :: q → token_start p → c ≠ 'Y' := by
    intro p c q h _ hc
    have hm : c ∈ "G1  X5 ".toList := by rw [h]; simp
    rw [hc] at hm
    revert hm
    decide
  have htoks : ∀ u ∈ ["G1".toList, "X5".toList], is_token u ∧ u.head? ≠ some 'Y' := by
    simp [is_token]
  have h := parse_comment_token_first "G1  X5 ".toList " Y7".toList 'Y' (42 : ℚ) hs hpre
    (by decide)
  ⟨hs, hpre, by decide, rfl, h.1, htoks, h.2 _ htoks⟩

/-! ## Interpolation claims -/

section InterpolationClaims

/-- C6: over the reals with the exact square root, when the distance between
the current position and the target is positive, `calculate_interpolation`
sets `interpolation_x = |dx| / distance` and `interpolation_y = |dy| /
distance`, both factors lie in [0, 1] and their squares sum to 1. -/
theorem interpolation_factors_unit (cfg : Config ℝ) (hsq : cfg.sqrtf = Real.sqrt)
    (s : State ℝ) (w : World ℝ)
    (hd : 0 < Real.sqrt ((s.x_new - w.motor_x) * (s.x_new - w.motor_x) +
      (s.y_new - w.motor_y) * (s.y_new - w.motor_y))) :
    ∃ fx fy : ℝ,
      fx = |s.x_new - w.motor_x| / Real.sqrt ((s.x_new - w.motor_x) * (s.x_new - w.motor_x) +
        (s.y_new - w.motor_y) * (s.y_new - w.motor_y)) ∧
      fy = |s.y_new - w.motor_y| / Real.sqrt ((s.x_new - w.motor_x) * (s.x_new - w.motor_x) +
        (s.y_new - w.motor_y) * (s.y_new - w.motor_y)) ∧
      (calculate_interpolation cfg s w).interpolation_x = FVal.fin fx ∧
      (calculate_interpolation cfg s w).interpolation_y = FVal.fin fy ∧
      0 ≤ fx ∧ fx ≤ 1 ∧ 0 ≤ fy ∧ fy ≤ 1 ∧ fx ^ 2 + fy ^ 2 = 1 := by
  set dx := s.x_new - w.motor_x with hdx
  set dy := s.y_new - w.motor_y with hdy
  set q := dx * dx + dy * dy with hq
  have hq0 : 0 ≤ q := add_nonneg (mul_self_nonneg dx) (mul_self_nonneg dy)
  have hne : Real.sqrt q ≠ 0 := ne_of_gt hd
  have hsq2 : Real.sqrt q * Real.sqrt q = q := Real.mul_self_sqrt hq0
  have hx2 : |dx| * |dx| ≤ q := by
    rw [abs_mul_abs_self]; nlinarith [mul_self_nonneg dy]
  have hy2 : |dy| * |dy| ≤ q := by
    rw [abs_mul_abs_self]; nlinarith [mul_self_nonneg dx]
  have hxle : |dx| ≤ Real.sqrt q := by
    rw [← Real.sqrt_mul_self (abs_nonneg dx)]
    exact Real.sqrt_le_sqrt hx2
  have hyle : |dy| ≤ Real.sqrt q := by
    rw [← Real.sqrt_mul_self (abs_nonneg dy)]
    exact Real.sqrt_le_sqrt hy2
  refine ⟨|dx| / Real.sqrt q, |dy| / Real.sqrt q, rfl, rfl, ?_, ?_, ?_, ?_, ?_, ?_, ?_⟩
  · simp [calculate_interpolation, fdiv, hsq, ← hdx, ← hdy, ← hq, hne]
  · simp [calculate_interpolation, fdiv, hsq, ← hdx, ← hdy, ← hq, hne]
  · positivity
  · exact (div_le_one hd).mpr hxle
  · positivity
  · exact (div_le_one hd).mpr hyle
  · rw [div_pow, div_pow, ← add_div, sq_abs, sq_abs, Real.sq_sqrt hq0]
    have : dx ^ 2 + dy ^ 2 = q := by rw [hq]; ring
    rw [this]
    exact div_self (by
      intro h0
      rw [h0] at hd
      simp at hd)

theorem sqrt_25 : Real.sqrt ((3 - 0) * (3 - 0) + (4 - 0) * (4 - 0)) = 5 := by
  rw [show ((3 - 0) * (3 - 0) + (4 - 0) * (4 - 0) : ℝ) = 5 * 5 by norm_num]
  exact Real.sqrt_mul_self (by norm_num)

theorem interpolation_factors_unit_witness :
    0 < Real.sqrt (((target_state 3 4 : State ℝ).x_new - (world_at 0 0 [] : World ℝ).motor_x) *
        ((target_state 3 4 : State ℝ).x_new - (world_at 0 0 [] : World ℝ).motor_x) +
      ((target_state 3 4 : State ℝ).y_new - (world_at 0 0 [] : World ℝ).motor_y) *
        ((target_state 3 4 : State ℝ).y_new - (world_at 0 0 [] : World ℝ).motor_y)) ∧
    (calculate_interpolation (Config.mk Real.sqrt 0 0 0 0 0) (target_state 3 4)
      (world_at 0 0 [])).interpolation_x = FVal.fin (3 / 5) ∧
    (calculate_interpolation (Config.mk Real.sqrt 0 0 0 0 0) (target_state 3 4)
      (world_at 0 0 [])).interpolation_y = FVal.fin (4 / 5) := by
  have hd : 0 < Real.sqrt
      (((target_state 3 4 : State ℝ).x_new - (world_at 0 0 [] : World ℝ).motor_x) *
        ((target_state 3 4 : State ℝ).x_new - (world_at 0 0 [] : World ℝ).motor_x) +
      ((target_state 3 4 : State ℝ).y_new - (world_at 0 0 [] : World ℝ).motor_y) *
        ((target_state 3 4 : State ℝ).y_new - (world_at 0 0 [] : World ℝ).motor_y)) := by
    show 0 < Real.sqrt ((3 - 0) * (3 - 0) + (4 - 0) * (4 - 0))
    rw [sqrt_25]; norm_num
  obtain ⟨fx, fy, hfx, hfy, hx, hy, -⟩ :=
    interpolation_factors_unit (Config.mk Real.sqrt 0 0 0 0 0) rfl (target_state 3 4)
      (world_at 0 0 []) hd
  have e1 : fx = 3 / 5 := by
    rw [hfx]
    show |(3 : ℝ) - 0| / Real.sqrt ((3 - 0) * (3 - 0) + (4 - 0) * (4 - 0)) = 3 / 5
    rw [sqrt_25]; norm_num
  have e2 : fy = 4 / 5 := by
    rw [hfy]
    show |(4 : ℝ) - 0| / Real.sqrt ((3 - 0) * (3 - 0) + (4 - 0) * (4 - 0)) = 4 / 5
    rw [sqrt_25]; norm_num
  exact ⟨hd, e1 ▸ hx, e2 ▸ hy⟩


/-- The tick that executes a `G0`/`G1` line naming no coordinate: the target
defaults to the current position, the distance is 0 and both interpolation
factors are `0/0`. -/
theorem tick_move_nowhere {α : Type} [LinearOrderedField α] [FloorRing α]
    (cfg : Config α) (h0 : cfg.sqrtf 0 = 0) (s : State α) (w : World α)
    (hcond : s.next_line_condition = Condition.CONDITION_IMMEDIATELY)
    (hf : w.file = program_move_nowhere) (hc : w.cursor = 0) :
    (gcode_cycle cfg s w).1.interpolation_x = FVal.nan ∧
    (gcode_cycle cfg s w).1.interpolation_y = FVal.nan ∧
    (gcode_cycle cfg s w).2.log = w.log ++
      [Cmd.motors_set_speed_x FVal.nan, Cmd.motors_set_speed_y FVal.nan,
       Cmd.motors_set_acceleration_x FVal.nan, Cmd.motors_set_acceleration_y FVal.nan,
       Cmd.motors_move_to_position w.motor_x w.motor_y] := by
  simp [gcode_cycle, proceed, sd_card_read_next_line, needle_sensor_clear_interrupt_flag, hf,
    hc, program_move_nowhere, g_codes, m_codes, g_switch, m_switch, g_move, g_dwell, m_pause,
    m_start_z, m_progress, m_accelerations, hcond, gcode_parse_code, parse_loop, strchr_next,
    atof, take_sign, skip_space, take_digits, isspace, isdigit, take_exponent, ftrunc_one,
    ftrunc_neg_one, World.emit, calculate_interpolation, fdiv, fmul, h0]

/-- C7 (the code at the failing input): `calculate_interpolation` has no guard
for a zero distance.  Whenever the target equals the current position (and
`sqrtf(0) = 0`) both interpolation factors are the NaN `0/0`, not 0; and the
tick that executes the line `G1 F500` after `gcode_clear` commands the NaN as
both axis speeds and both axis accelerations before it issues the move. -/
theorem interpolation_zero_distance_nan {α : Type} [LinearOrderedField α] [FloorRing α]
    (cfg : Config α) (h0 : cfg.sqrtf 0 = 0) (s : State α) (w : World α) :
    (s.x_new = w.motor_x → s.y_new = w.motor_y →
      (calculate_interpolation cfg s w).interpolation_x = FVal.nan ∧
      (calculate_interpolation cfg s w).interpolation_y = FVal.nan) ∧
    (w.file = program_move_nowhere → w.cursor = 0 →
      (gcode_cycle cfg (gcode_clear cfg s w).1 (gcode_clear cfg s w).2).2.log =
        (gcode_clear cfg s w).2.log ++
          [Cmd.motors_set_speed_x FVal.nan, Cmd.motors_set_speed_y FVal.nan,
           Cmd.motors_set_acceleration_x FVal.nan, Cmd.motors_set_acceleration_y FVal.nan,
           Cmd.motors_move_to_position w.motor_x w.motor_y]) := by
  constructor
  · intro hx hy
    simp [calculate_interpolation, fdiv, hx, hy, h0]
  · intro hf hc
    obtain ⟨cf, cc, -, cx, cy, -, -⟩ := gcode_clear_world cfg s w
    have := (tick_move_nowhere cfg h0 (gcode_clear cfg s w).1 (gcode_clear cfg s w).2
      (gcode_clear_condition cfg s w) (cf.trans hf) (cc.trans hc)).2.2
    rw [cx, cy] at this
    exact this

theorem demo_sqrt_zero : demo_config.sqrtf 0 = 0 := by
  simp [demo_config, demo_sqrt]

theorem interpolation_zero_distance_nan_witness :
    demo_config.sqrtf 0 = 0 ∧
    (target_state 5 5 : State ℚ).x_new =
      (world_at 5 5 program_move_nowhere : World ℚ).motor_x ∧
    (target_state 5 5 : State ℚ).y_new =
      (world_at 5 5 program_move_nowhere : World ℚ).motor_y ∧
    (calculate_interpolation demo_config (target_state 5 5)
      (world_at 5 5 program_move_nowhere)).interpolation_x = FVal.nan ∧
    (calculate_interpolation demo_config (target_state 5 5)
      (world_at 5 5 program_move_nowhere)).interpolation_y = FVal.nan ∧
    (gcode_cycle demo_config
      (gcode_clear demo_config (target_state 5 5) (world_at 5 5 program_move_nowhere)).1
      (gcode_clear demo_config (target_state 5 5) (world_at 5 5 program_move_nowhere)).2).2.log =
        (gcode_clear demo_config (target_state 5 5) (world_at 5 5 program_move_nowhere)).2.log ++
          [Cmd.motors_set_speed_x FVal.nan, Cmd.motors_set_speed_y FVal.nan,
           Cmd.motors_set_acceleration_x FVal.nan, Cmd.motors_set_acceleration_y FVal.nan,
           Cmd.motors_move_to_position 5 5] :=
  have h := interpolation_zero_distance_nan demo_config demo_sqrt_zero (target_state 5 5)
    (world_at 5 5 program_move_nowhere)
  ⟨demo_sqrt_zero, rfl, rfl, (h.1 rfl rfl).1, (h.1 rfl rfl).2, h.2 rfl rfl⟩

end InterpolationClaims

/-! ## Tension claims -/

section TensionClaims
variable {α : Type} [LinearOrderedField α] [FloorRing α]

omit [FloorRing α] in
/-- What `gcode_clear` does with the stored tension byte `b`. -/
theorem gcode_clear_tension (cfg : Config α) (s : State α) (w : World α) :
    (w.eeprom 0 % 256 ≤ 100 ∧ w.eeprom 0 % 256 % 5 = 0 →
      (gcode_clear cfg s w).1.tension_ = w.eeprom 0 % 256 ∧
      (gcode_clear cfg s w).2.log = w.log ∧
      (gcode_clear cfg s w).2.eeprom = w.eeprom) ∧
    (¬ (w.eeprom 0 % 256 ≤ 100 ∧ w.eeprom 0 % 256 % 5 = 0) →
      (gcode_clear cfg s w).1.tension_ = 90 ∧
      (gcode_clear cfg s w).2.log = w.log ++ [Cmd.EEPROM_write 0 90] ∧
      (gcode_clear cfg s w).2.eeprom 0 = 90) := by
  constructor
  · rintro ⟨h1, h2⟩
    have hP : ¬ (100 < w.eeprom 0 % 256 ∨ ¬ w.eeprom 0 % 256 % 5 = 0) := by omega
    simp [gcode_clear, needle_sensor_clear_interrupt_flag, hP]
  · intro h
    have hP : 100 < w.eeprom 0 % 256 ∨ ¬ w.eeprom 0 % 256 % 5 = 0 := by omega
    simp [gcode_clear, needle_sensor_clear_interrupt_flag, EEPROM_write, hP]

omit [FloorRing α] in
/-- C8: for every 8-bit value `v`, after `gcode_set_tension(v)` the getter
returns `v` and EEPROM cell 0 holds `v`; and when `v` is at most 100 and a
multiple of 5, a following `gcode_clear()` (from whatever state the variables
are in by then) leaves the getter at `v`. -/
theorem tension_round_trip (cfg : Config α) (s : State α) (w : World α) (v : Nat)
    (hv : v < 256) :
    gcode_get_tension (gcode_set_tension v s w).1 = v ∧
    (gcode_set_tension v s w).2.eeprom 0 = v ∧
    (v ≤ 100 → v % 5 = 0 → ∀ s2 : State α,
      gcode_get_tension (gcode_clear cfg s2 (gcode_set_tension v s w).2).1 = v) := by
  have hmod : v % 256 = v := Nat.mod_eq_of_lt hv
  have he : (gcode_set_tension v s w).2.eeprom 0 = v := by
    unfold gcode_set_tension
    by_cases ht : s.is_tensioned = true
    · simp [ht, EEPROM_write, World.emit, hmod]
    · simp [ht, EEPROM_write, hmod]
  refine ⟨?_, he, ?_⟩
  · unfold gcode_set_tension gcode_get_tension
    by_cases ht : s.is_tensioned = true
    · simp [ht, hmod]
    · simp [ht, hmod]
  · intro h1 h2 s2
    have := (gcode_clear_tension cfg s2 (gcode_set_tension v s w).2).1
    rw [he, hmod] at this
    exact (this ⟨h1, h2⟩).1

theorem tension_round_trip_witness :
    (65 : Nat) < 256 ∧ (65 : Nat) ≤ 100 ∧ 65 % 5 = 0 ∧
    gcode_get_tension (gcode_set_tension 65 (demo_state : State ℚ) (demo_world [] 0)).1 = 65 ∧
    (gcode_set_tension 65 (demo_state : State ℚ) (demo_world [] 0)).2.eeprom 0 = 65 ∧
    gcode_get_tension (gcode_clear demo_config
      (gcode_set_tension 65 (demo_state : State ℚ) (demo_world [] 0)).1
      (gcode_set_tension 65 (demo_state : State ℚ) (demo_world [] 0)).2).1 = 65 :=
  have h := tension_round_trip demo_config (demo_state : State ℚ) (demo_world [] 0) 65
    (by decide)
  ⟨by decide, by decide, by decide, h.1, h.2.1, h.2.2 (by decide) (by decide) _⟩

omit [FloorRing α] in
/-- C9: with the byte `b` stored at EEPROM address 0, after `gcode_clear()` the
getter returns `b` when `b` is at most 100 and a multiple of 5, and nothing is
written; otherwise it returns 90 and 90 is written to address 0.  In both
cases the tension is at most 100 and a multiple of 5. -/
theorem tension_validation (cfg : Config α) (s : State α) (w : World α) (b : Nat)
    (hb : b < 256) (hw : w.eeprom 0 = b) :
    (b ≤ 100 ∧ b % 5 = 0 →
      gcode_get_tension (gcode_clear cfg s w).1 = b ∧
      (gcode_clear cfg s w).2.log = w.log ∧
      (gcode_clear cfg s w).2.eeprom = w.eeprom) ∧
    (¬ (b ≤ 100 ∧ b % 5 = 0) →
      gcode_get_tension (gcode_clear cfg s w).1 = 90 ∧
      (gcode_clear cfg s w).2.log = w.log ++ [Cmd.EEPROM_write 0 90] ∧
      (gcode_clear cfg s w).2.eeprom 0 = 90) ∧
    gcode_get_tension (gcode_clear cfg s w).1 ≤ 100 ∧
    gcode_get_tension (gcode_clear cfg s w).1 % 5 = 0 := by
  have hmod : w.eeprom 0 % 256 = b := by rw [hw]; exact Nat.mod_eq_of_lt hb
  have h := gcode_clear_tension cfg s w
  rw [hmod] at h
  refine ⟨h.1, h.2, ?_⟩
  by_cases hg : b ≤ 100 ∧ b % 5 = 0
  · have := (h.1 hg).1
    unfold gcode_get_tension
    rw [this]
    exact hg
  · have := (h.2 hg).1
    unfold gcode_get_tension
    rw [this]
    exact ⟨by decide, by decide⟩

theorem tension_validation_witness :
    (77 : Nat) < 256 ∧ (demo_world [] 77 : World ℚ).eeprom 0 = 77 ∧
    ¬ ((77 : Nat) ≤ 100 ∧ 77 % 5 = 0) ∧
    gcode_get_tension
      (gcode_clear demo_config (demo_state : State ℚ) (demo_world [] 77)).1 = 90 ∧
    (gcode_clear demo_config (demo_state : State ℚ) (demo_world [] 77)).2.log =
      [Cmd.EEPROM_write 0 90] ∧
    (gcode_clear demo_config (demo_state : State ℚ) (demo_world [] 77)).2.eeprom 0 = 90 :=
  have h := tension_validation demo_config (demo_state : State ℚ) (demo_world [] 77) 77
    (by decide) rfl
  ⟨by decide, rfl, by decide, (h.2.1 (by decide)).1, (h.2.1 (by decide)).2.1,
    (h.2.1 (by decide)).2.2⟩

/-- The G-code dispatch does not touch the tension setpoint. -/
theorem g_codes_tension (cfg : Config α) (s : State α) (w : World α) :
    (g_codes cfg s w).1.tension_ = s.tension_ := by
  have h : ∀ s2 : State α, (g_switch cfg s2 w).1.tension_ = s2.tension_ := by
    intro s2
    unfold g_switch
    split_ifs <;> rfl
  unfold g_codes
  rw [h]

/-- The M-code dispatch does not touch the tension setpoint. -/
theorem m_codes_tension (cfg : Config α) (s : State α) (w : World α) :
    (m_codes cfg s w).1.tension_ = s.tension_ := by
  have h3 : ∀ s2 : State α, (m_start_z cfg s2 w).1.tension_ = s2.tension_ := by
    intro s2
    unfold m_start_z
    simp only []
    split_ifs <;> rfl
  have h : ∀ s2 : State α, (m_switch cfg s2 w).1.tension_ = s2.tension_ := by
    intro s2
    unfold m_switch
    split_ifs
    · rfl
    · exact h3 _
    all_goals rfl
  unfold m_codes
  rw [h]

/-- A tick does not touch the tension setpoint. -/
theorem gcode_cycle_tension (cfg : Config α) (s : State α) (w : World α) :
    (gcode_cycle cfg s w).1.tension_ = s.tension_ := by
  have hp : ∀ w2 : World α, (proceed cfg s w2).1.tension_ = s.tension_ := by
    intro w2
    unfold proceed
    simp only []
    split_ifs
    · rw [m_codes_tension, g_codes_tension]
    · rfl
  unfold gcode_cycle
  split
  · split_ifs
    · rfl
    · exact hp _
  · simp only []
    split_ifs
    · rfl
    · exact hp _
    · rfl
  · split_ifs
    · rfl
    · exact hp _
  · exact hp _

/-- C10 (amended): in every state reached from `gcode_clear` by any sequence of
the public operations in which `gcode_set_tension` is only called with
arguments that are at most 100 and multiples of 5, the tension returned by
`gcode_get_tension` is at most 100 and a multiple of 5. -/
theorem tension_invariant (cfg : Config α) (ops : List (Op α)) (s : State α) (w : World α)
    (hops : ∀ v : Nat, Op.set_tension v ∈ ops → v ≤ 100 ∧ v % 5 = 0) :
    gcode_get_tension (run_ops cfg ops (gcode_clear cfg s w)).1 ≤ 100 ∧
    gcode_get_tension (run_ops cfg ops (gcode_clear cfg s w)).1 % 5 = 0 := by
  have hclear : ∀ (s2 : State α) (w2 : World α),
      (gcode_clear cfg s2 w2).1.tension_ ≤ 100 ∧
      (gcode_clear cfg s2 w2).1.tension_ % 5 = 0 := by
    intro s2 w2
    have h := gcode_clear_tension cfg s2 w2
    by_cases hg : w2.eeprom 0 % 256 ≤ 100 ∧ w2.eeprom 0 % 256 % 5 = 0
    · rw [(h.1 hg).1]
      exact hg
    · rw [(h.2 hg).1]
      exact ⟨by decide, by decide⟩
  have key : ∀ (ops : List (Op α)) (r : State α × World α),
      (∀ v : Nat, Op.set_tension v ∈ ops → v ≤ 100 ∧ v % 5 = 0) →
      (r.1.tension_ ≤ 100 ∧ r.1.tension_ % 5 = 0) →
      (run_ops cfg ops r).1.tension_ ≤ 100 ∧ (run_ops cfg ops r).1.tension_ % 5 = 0 := by
    intro ops
    induction ops with
    | nil => intro r _ hr; exact hr
    | cons op ops ih =>
      intro r hall hr
      have hrest : ∀ v : Nat, Op.set_tension v ∈ ops → v ≤ 100 ∧ v % 5 = 0 :=
        fun v hv => hall v (List.mem_cons_of_mem _ hv)
      show (run_ops cfg ops (apply_op cfg r op)).1.tension_ ≤ 100 ∧ _
      apply ih _ hrest
      cases op with
      | cycle e =>
        have : (apply_op cfg r (Op.cycle e)).1.tension_ = r.1.tension_ :=
          gcode_cycle_tension cfg r.1 (r.2.sample e)
        rw [this]
        exact hr
      | set_tension v =>
        have hv := hall v (List.mem_cons_self _ _)
        have hm : v % 256 = v := Nat.mod_eq_of_lt (by omega)
        have : (apply_op cfg r (Op.set_tension v)).1.tension_ = v := by
          show (gcode_set_tension v r.1 r.2).1.tension_ = v
          unfold gcode_set_tension
          by_cases ht : r.1.is_tensioned = true
          · simp [ht, hm]
          · simp [ht, hm]
        rw [this]
        exact hv
      | pause => exact hr
      | resume => exact hr
      | stop => exact hr
      | clear => exact hclear r.1 r.2
  exact key ops _ hops (hclear s w)

theorem tension_invariant_witness :
    (∀ v : Nat, Op.set_tension v ∈
        [Op.cycle (stopped_at 1500), Op.set_tension 65, Op.pause, Op.resume, Op.stop] →
      v ≤ 100 ∧ v % 5 = 0) ∧
    gcode_get_tension (run_ops demo_config
      [Op.cycle (stopped_at 1500), Op.set_tension 65, Op.pause, Op.resume, Op.stop]
      (gcode_clear demo_config demo_state (demo_world program3 77))).1 ≤ 100 ∧
    gcode_get_tension (run_ops demo_config
      [Op.cycle (stopped_at 1500), Op.set_tension 65, Op.pause, Op.resume, Op.stop]
      (gcode_clear demo_config demo_state (demo_world program3 77))).1 % 5 = 0 :=
  have hops : ∀ v : Nat, Op.set_tension v ∈
      [Op.cycle (stopped_at 1500), Op.set_tension 65, Op.pause, Op.resume, Op.stop] →
      v ≤ 100 ∧ v % 5 = 0 := by
    intro v hv
    simp at hv
    subst hv
    exact ⟨by decide, by decide⟩
  ⟨hops, tension_invariant demo_config _ demo_state (demo_world program3 77) hops⟩

/-- C10 as stated fails: `gcode_set_tension` stores its argument unchecked, so
after `gcode_clear` and `gcode_set_tension(77)` the getter returns 77, which is
not a multiple of 5 (and after `gcode_set_tension(200)` it returns 200). -/
theorem tension_invariant_broken_by_setter :
    gcode_get_tension (run_ops demo_config [Op.set_tension 77]
      (gcode_clear demo_config demo_state (demo_world program3 90))).1 = 77 ∧
    ¬ (gcode_get_tension (run_ops demo_config [Op.set_tension 77]
      (gcode_clear demo_config demo_state (demo_world program3 90))).1 % 5 = 0) ∧
    gcode_get_tension (run_ops demo_config [Op.set_tension 200]
      (gcode_clear demo_config demo_state (demo_world program3 90))).1 = 200 ∧
    ¬ (gcode_get_tension (run_ops demo_config [Op.set_tension 200]
      (gcode_clear demo_config demo_state (demo_world program3 90))).1 ≤ 100) := by
  have h77 : gcode_get_tension (run_ops demo_config [Op.set_tension 77]
      (gcode_clear demo_config demo_state (demo_world program3 90))).1 = 77 := rfl
  have h200 : gcode_get_tension (run_ops demo_config [Op.set_tension 200]
      (gcode_clear demo_config demo_state (demo_world program3 90))).1 = 200 := rfl
  refine ⟨h77, ?_, h200, ?_⟩
  · rw [h77]; decide
  · rw [h200]; decide

end TensionClaims

/-! ## The structure of a tick -/

section TickLemmas
variable {α : Type} [LinearOrderedField α] [FloorRing α]

omit [LinearOrderedField α] [FloorRing α] in
theorem dwell_pending_emit (s : State α) (w : World α) (c : Cmd α) :
    dwell_pending s (w.emit c) = dwell_pending s w := rfl

omit [LinearOrderedField α] [FloorRing α] in
theorem gate_world_log (s : State α) (w : World α) :
    (gate_world s w).log = w.log ∨
    (s.next_line_condition = Condition.CONDITION_AFTER_INTERRUPT ∧
      s.action_after_needle_interrupt = Action.ACTION_STOP_MOTOR ∧
      (gate_world s w).log = w.log ++ [Cmd.motors_stop_z]) := by
  unfold gate_world
  split
  · right
    rename_i h1 h2
    exact ⟨h1, h2, rfl⟩
  · left
    rfl

omit [LinearOrderedField α] [FloorRing α] in
/-- The gate changes nothing in the world but the list of issued commands. -/
theorem gate_world_eq (s : State α) (w : World α) :
    gate_world s w = { w with log := (gate_world s w).log } := by
  unfold gate_world
  split <;> rfl

omit [LinearOrderedField α] [FloorRing α] in
theorem gate_world_of_not_interrupt (s : State α) (w : World α)
    (h : s.next_line_condition ≠ Condition.CONDITION_AFTER_INTERRUPT) : gate_world s w = w := by
  unfold gate_world
  split
  · rename_i h1 _
    exact absurd h1 h
  · rfl

/-- A call that the gate lets through runs the part after the gate, in the
world the gate has left. -/
theorem cycle_of_proceeds (cfg : Config α) (s : State α) (w : World α)
    (h : tick_proceeds s w) : gcode_cycle cfg s w = proceed cfg s (gate_world s w) := by
  unfold tick_proceeds at h
  unfold gcode_cycle gate_world
  cases hc : s.next_line_condition <;> simp only [hc] at h ⊢
  · simp [h]
  · obtain ⟨h1, h2⟩ := h
    cases ha : s.action_after_needle_interrupt <;>
      simp [h1, h2, dwell_pending_emit]
  · simp [h]

/-- The part after the gate when a line is left in the file. -/
theorem proceed_fetch (cfg : Config α) (s : State α) (w : World α) (line : List Char)
    (h : w.file.get? w.cursor = some line) :
    proceed cfg s w =
      m_codes cfg (g_codes cfg (proceed_state s w) (fetch_world w line)).1
        (g_codes cfg (proceed_state s w) (fetch_world w line)).2 := by
  unfold proceed sd_card_read_next_line
  simp only [needle_sensor_clear_interrupt_flag, h]
  rfl

/-- The part after the gate at the end of the file. -/
theorem proceed_eof (cfg : Config α) (s : State α) (w : World α)
    (h : w.file.get? w.cursor = none) :
    proceed cfg s w =
      (proceed_state s w, (needle_sensor_clear_interrupt_flag w).emit Cmd.menu_stop_file) := by
  unfold proceed sd_card_read_next_line
  simp only [needle_sensor_clear_interrupt_flag, h]
  rfl

omit [LinearOrderedField α] [FloorRing α] in
theorem gate_world_fetch (s : State α) (w : World α) :
    (gate_world s w).file = w.file ∧ (gate_world s w).cursor = w.cursor ∧
    millis (gate_world s w) = millis w ∧ (gate_world s w).motor_x = w.motor_x ∧
    (gate_world s w).motor_y = w.motor_y := by
  unfold gate_world
  split <;> exact ⟨rfl, rfl, rfl, rfl, rfl⟩

omit [LinearOrderedField α] [FloorRing α] in
theorem proceed_state_gate (s : State α) (w : World α) :
    proceed_state s (gate_world s w) = proceed_state s w := by
  unfold proceed_state
  rw [(gate_world_fetch s w).2.2.1]

/-- A call that the gate lets through and that finds the line `line` runs the
two dispatches on it. -/
theorem cycle_line (cfg : Config α) (s : State α) (w : World α) (line : List Char)
    (hp : tick_proceeds s w) (hl : w.file.get? w.cursor = some line) :
    gcode_cycle cfg s w =
      m_codes cfg (g_codes cfg (proceed_state s w) (fetch_world (gate_world s w) line)).1
        (g_codes cfg (proceed_state s w) (fetch_world (gate_world s w) line)).2 := by
  have hl2 : (gate_world s w).file.get? (gate_world s w).cursor = some line := by
    rw [(gate_world_fetch s w).1, (gate_world_fetch s w).2.1]
    exact hl
  rw [cycle_of_proceeds cfg s w hp, proceed_fetch cfg s _ line hl2, proceed_state_gate]

end TickLemmas
section DispatchLemmas
variable {α : Type} [LinearOrderedField α] [FloorRing α]

omit [FloorRing α] in
/-- The move case spelled out: the assignments and the five commands of
lines 102-119. -/
theorem g_move_eq (cfg : Config α) (s : State α) (w : World α) :
    g_move cfg s w =
      ({ calculate_interpolation cfg
           { s with x_new := gcode_parse_code w.buffer 'X' w.motor_x,
                    y_new := gcode_parse_code w.buffer 'Y' w.motor_y,
                    speed_xy := gcode_parse_code w.buffer 'F' s.speed_xy } w with
         next_line_condition := Condition.CONDITION_AFTER_MOVE },
       { w with log := w.log ++
          [Cmd.motors_set_speed_x (fmul (gcode_parse_code w.buffer 'F' s.speed_xy)
             (calculate_interpolation cfg
               { s with x_new := gcode_parse_code w.buffer 'X' w.motor_x,
                        y_new := gcode_parse_code w.buffer 'Y' w.motor_y } w).interpolation_x),
           Cmd.motors_set_speed_y (fmul (gcode_parse_code w.buffer 'F' s.speed_xy)
             (calculate_interpolation cfg
               { s with x_new := gcode_parse_code w.buffer 'X' w.motor_x,
                        y_new := gcode_parse_code w.buffer 'Y' w.motor_y } w).interpolation_y),
           Cmd.motors_set_acceleration_x (fmul s.acceleration_x
             (calculate_interpolation cfg
               { s with x_new := gcode_parse_code w.buffer 'X' w.motor_x,
                        y_new := gcode_parse_code w.buffer 'Y' w.motor_y } w).interpolation_x),
           Cmd.motors_set_acceleration_y (fmul s.acceleration_y
             (calculate_interpolation cfg
               { s with x_new := gcode_parse_code w.buffer 'X' w.motor_x,
                        y_new := gcode_parse_code w.buffer 'Y' w.motor_y } w).interpolation_y),
           Cmd.motors_move_to_position (gcode_parse_code w.buffer 'X' w.motor_x)
             (gcode_parse_code w.buffer 'Y' w.motor_y)] }) := by
  simp [g_move, calculate_interpolation, World.emit]

theorem g_codes_move (cfg : Config α) (s : State α) (w : World α)
    (h : g_code α w.buffer = 0 ∨ g_code α w.buffer = 1) :
    g_codes cfg s w = g_move cfg { s with command := g_code α w.buffer } w := by
  have k : ∀ s2 : State α, s2.command = 0 ∨ s2.command = 1 →
      g_switch cfg s2 w = g_move cfg s2 w := by
    intro s2 h2
    unfold g_switch
    simp only [h2, if_true]
  exact k _ h

theorem g_codes_other (cfg : Config α) (s : State α) (w : World α)
    (h0 : g_code α w.buffer ≠ 0) (h1 : g_code α w.buffer ≠ 1) (h4 : g_code α w.buffer ≠ 4) :
    g_codes cfg s w = ({ s with command := g_code α w.buffer }, w) := by
  have k : ∀ s2 : State α, s2.command ≠ 0 → s2.command ≠ 1 → s2.command ≠ 4 →
      g_switch cfg s2 w = (s2, w) := by
    intro s2 k0 k1 k4
    unfold g_switch
    simp [k0, k1, k4]
  exact k _ h0 h1 h4

/-- What the G-code dispatch leaves alone. -/
theorem g_codes_frame (cfg : Config α) (s : State α) (w : World α) :
    (g_codes cfg s w).1.progress = s.progress ∧
    (g_codes cfg s w).1.paused_code = s.paused_code ∧
    (g_codes cfg s w).1.is_tensioned = s.is_tensioned ∧
    (g_codes cfg s w).1.speed_z = s.speed_z ∧
    (g_codes cfg s w).1.acceleration_x = s.acceleration_x ∧
    (g_codes cfg s w).1.acceleration_y = s.acceleration_y ∧
    (g_codes cfg s w).1.action_after_needle_interrupt = s.action_after_needle_interrupt ∧
    (g_codes cfg s w).1.dwell_timer = s.dwell_timer ∧
    (g_codes cfg s w).2.buffer = w.buffer ∧
    (g_codes cfg s w).2.file = w.file ∧
    (g_codes cfg s w).2.cursor = w.cursor ∧
    (g_codes cfg s w).2.needle_flag = w.needle_flag ∧
    (g_codes cfg s w).2.eeprom = w.eeprom ∧
    ((g_codes cfg s w).1.next_line_condition = Condition.CONDITION_AFTER_INTERRUPT →
      s.next_line_condition = Condition.CONDITION_AFTER_INTERRUPT) := by
  have h : ∀ s2 : State α,
      (g_switch cfg s2 w).1.progress = s2.progress ∧
      (g_switch cfg s2 w).1.paused_code = s2.paused_code ∧
      (g_switch cfg s2 w).1.is_tensioned = s2.is_tensioned ∧
      (g_switch cfg s2 w).1.speed_z = s2.speed_z ∧
      (g_switch cfg s2 w).1.acceleration_x = s2.acceleration_x ∧
      (g_switch cfg s2 w).1.acceleration_y = s2.acceleration_y ∧
      (g_switch cfg s2 w).1.action_after_needle_interrupt = s2.action_after_needle_interrupt ∧
      (g_switch cfg s2 w).1.dwell_timer = s2.dwell_timer ∧
      (g_switch cfg s2 w).2.buffer = w.buffer ∧
      (g_switch cfg s2 w).2.file = w.file ∧
      (g_switch cfg s2 w).2.cursor = w.cursor ∧
      (g_switch cfg s2 w).2.needle_flag = w.needle_flag ∧
      (g_switch cfg s2 w).2.eeprom = w.eeprom ∧
      ((g_switch cfg s2 w).1.next_line_condition = Condition.CONDITION_AFTER_INTERRUPT →
        s2.next_line_condition = Condition.CONDITION_AFTER_INTERRUPT) := by
    intro s2
    unfold g_switch
    split_ifs
    · simp [g_move_eq, calculate_interpolation]
    · simp [g_dwell]
    · simp
  exact h _

end DispatchLemmas
section DispatchLemmasM
variable {α : Type} [LinearOrderedField α] [FloorRing α]

theorem m_codes_pause (cfg : Config α) (s : State α) (w : World α)
    (h : m_code α w.buffer = 0) :
    m_codes cfg s w = m_pause { s with command := m_code α w.buffer } w := by
  have k : ∀ s2 : State α, s2.command = 0 → m_switch cfg s2 w = m_pause s2 w := by
    intro s2 h2
    unfold m_switch
    simp only [h2, if_true]
  exact k _ h

theorem m_codes_start_z (cfg : Config α) (s : State α) (w : World α)
    (h : m_code α w.buffer = 3) :
    m_codes cfg s w = m_start_z cfg { s with command := m_code α w.buffer } w := by
  have k : ∀ s2 : State α, s2.command = 3 → m_switch cfg s2 w = m_start_z cfg s2 w := by
    intro s2 h2
    unfold m_switch
    simp [h2]
  exact k _ h

theorem m_codes_progress (cfg : Config α) (s : State α) (w : World α)
    (h : m_code α w.buffer = 73) :
    m_codes cfg s w = m_progress { s with command := m_code α w.buffer } w := by
  have k : ∀ s2 : State α, s2.command = 73 → m_switch cfg s2 w = m_progress s2 w := by
    intro s2 h2
    unfold m_switch
    simp [h2]
  exact k _ h

theorem m_codes_other (cfg : Config α) (s : State α) (w : World α)
    (h : m_code α w.buffer ∉ ([0, 3, 5, 17, 18, 41, 42, 73, 201] : List Int)) :
    m_codes cfg s w = ({ s with command := m_code α w.buffer }, w) := by
  have k : ∀ s2 : State α, s2.command ∉ ([0, 3, 5, 17, 18, 41, 42, 73, 201] : List Int) →
      m_switch cfg s2 w = (s2, w) := by
    intro s2 h2
    simp only [List.mem_cons, List.mem_singleton, List.not_mem_nil, or_false, not_or] at h2
    unfold m_switch
    simp [h2]
  exact k _ h

omit [FloorRing α] in
/-- The case `M3` spelled out. -/
theorem m_start_z_eq (cfg : Config α) (s : State α) (w : World α) :
    m_start_z cfg s w =
      ({ s with speed_z := gcode_parse_code w.buffer 'S' cfg.SPEED_INITIAL_Z_HZ,
                next_line_condition :=
                  if gcode_parse_code w.buffer 'I' (0 : α) > 0
                  then Condition.CONDITION_AFTER_INTERRUPT
                  else Condition.CONDITION_IMMEDIATELY,
                action_after_needle_interrupt :=
                  if gcode_parse_code w.buffer 'I' (0 : α) > 0
                  then Action.ACTION_STOP_MOTOR
                  else Action.ACTION_NONE },
       { w with needle_flag :=
                  if gcode_parse_code w.buffer 'I' (0 : α) > 0 then false else w.needle_flag,
                log := w.log ++
                  [Cmd.motors_enable_z,
                   Cmd.motors_set_speed_z (gcode_parse_code w.buffer 'S' cfg.SPEED_INITIAL_Z_HZ),
                   if gcode_parse_code w.buffer 'S' cfg.SPEED_INITIAL_Z_HZ > 0
                   then Cmd.motors_start_z else Cmd.motors_stop_z] }) := by
  unfold m_start_z
  generalize gcode_parse_code w.buffer 'I' (0 : α) = vi
  generalize gcode_parse_code w.buffer 'S' cfg.SPEED_INITIAL_Z_HZ = vs
  by_cases hi : vi > 0 <;> by_cases hs : vs > 0 <;>
    simp [hi, hs, World.emit, needle_sensor_clear_interrupt_flag]

/-- Case analysis of the M-code switch: a property that holds of the result
of every case holds of the result of the switch. -/
theorem m_switch_cases (cfg : Config α) (s : State α) (w : World α)
    (P : State α × World α → Prop)
    (h0 : s.command = 0 → P (m_pause s w))
    (h3 : s.command = 3 → P (m_start_z cfg s w))
    (h5 : P (s, (w.emit Cmd.motors_disable_z).emit Cmd.motors_stop_z))
    (h17 : P (s, w.emit Cmd.motors_enable))
    (h18 : P (s, w.emit Cmd.motors_disable))
    (h41 : P ({ s with is_tensioned := false }, w.emit (Cmd.servo_set_tension 0)))
    (h42 : P ({ s with is_tensioned := true }, w.emit (Cmd.servo_set_tension s.tension_)))
    (h73 : P (m_progress s w))
    (h201 : P (m_accelerations cfg s w))
    (hother : P (s, w)) : P (m_switch cfg s w) := by
  unfold m_switch
  split_ifs with c0 c3
  · exact h0 c0
  · exact h3 c3
  · exact h5
  · exact h17
  · exact h18
  · exact h41
  · exact h42
  · exact h73
  · exact h201
  · exact hother

/-- The state fields the M-code dispatch leaves alone. -/
theorem m_codes_frame (cfg : Config α) (s : State α) (w : World α) :
    (m_codes cfg s w).1.x_new = s.x_new ∧
    (m_codes cfg s w).1.y_new = s.y_new ∧
    (m_codes cfg s w).1.speed_xy = s.speed_xy ∧
    (m_codes cfg s w).1.interpolation_x = s.interpolation_x ∧
    (m_codes cfg s w).1.interpolation_y = s.interpolation_y ∧
    (m_codes cfg s w).1.dwell_delay = s.dwell_delay ∧
    (m_codes cfg s w).1.dwell_timer = s.dwell_timer := by
  unfold m_codes
  apply m_switch_cases cfg _ w (fun r => r.1.x_new = s.x_new ∧ r.1.y_new = s.y_new ∧
    r.1.speed_xy = s.speed_xy ∧ r.1.interpolation_x = s.interpolation_x ∧
    r.1.interpolation_y = s.interpolation_y ∧ r.1.dwell_delay = s.dwell_delay ∧
    r.1.dwell_timer = s.dwell_timer)
  · intro _; simp [m_pause, gcode_pause]
  · intro _; simp [m_start_z_eq]
  · simp
  · simp
  · simp
  · simp
  · simp
  · simp [m_progress]
  · simp [m_accelerations]
  · simp

/-- The M-code dispatch leaves the program source and the EEPROM alone. -/
theorem m_codes_world (cfg : Config α) (s : State α) (w : World α) :
    (m_codes cfg s w).2.buffer = w.buffer ∧
    (m_codes cfg s w).2.file = w.file ∧
    (m_codes cfg s w).2.cursor = w.cursor ∧
    (m_codes cfg s w).2.eeprom = w.eeprom := by
  unfold m_codes
  apply m_switch_cases cfg _ w (fun r => r.2.buffer = w.buffer ∧ r.2.file = w.file ∧
    r.2.cursor = w.cursor ∧ r.2.eeprom = w.eeprom)
  · intro _; simp [m_pause, gcode_pause, World.emit]
  · intro _; simp [m_start_z_eq]
  · simp [World.emit]
  · simp [World.emit]
  · simp [World.emit]
  · simp [World.emit]
  · simp [World.emit]
  · simp [m_progress, World.emit]
  · simp [m_accelerations, World.emit]
  · simp

/-- The M-code dispatch only appends commands, none of them a move. -/
theorem m_codes_log (cfg : Config α) (s : State α) (w : World α) :
    ∃ ml : List (Cmd α), (m_codes cfg s w).2.log = w.log ++ ml ∧
      ∀ x y : α, Cmd.motors_move_to_position x y ∉ ml := by
  unfold m_codes
  apply m_switch_cases cfg _ w (fun r => ∃ ml : List (Cmd α), r.2.log = w.log ++ ml ∧
      ∀ x y : α, Cmd.motors_move_to_position x y ∉ ml)
  · intro _
    exact ⟨[Cmd.motors_stop, Cmd.motors_stop_z, Cmd.motors_disable_z, Cmd.menu_pause_file],
      by simp [m_pause, gcode_pause, World.emit], by simp⟩
  · intro _
    refine ⟨_, by rw [m_start_z_eq], ?_⟩
    intro x y
    by_cases hs : gcode_parse_code w.buffer 'S' cfg.SPEED_INITIAL_Z_HZ > 0 <;> simp [hs]
  · exact ⟨[Cmd.motors_disable_z, Cmd.motors_stop_z], by simp [World.emit], by simp⟩
  · exact ⟨[Cmd.motors_enable], by simp [World.emit], by simp⟩
  · exact ⟨[Cmd.motors_disable], by simp [World.emit], by simp⟩
  · exact ⟨[Cmd.servo_set_tension 0], by simp [World.emit], by simp⟩
  · exact ⟨[Cmd.servo_set_tension s.tension_], by simp [World.emit], by simp⟩
  · exact ⟨[Cmd.lcd_print_progress], by simp [m_progress, World.emit], by simp⟩
  · exact ⟨_, by simp only [m_accelerations, World.emit, List.append_assoc]; rfl, by simp⟩
  · exact ⟨[], by simp, by simp⟩

/-- The M-code dispatch keeps the progress at most 100. -/
theorem m_codes_progress_le (cfg : Config α) (s : State α) (w : World α)
    (hs : s.progress ≤ 100) : (m_codes cfg s w).1.progress ≤ 100 := by
  unfold m_codes
  apply m_switch_cases cfg _ w (fun r => r.1.progress ≤ 100)
  · intro _; simpa [m_pause, gcode_pause] using hs
  · intro _; simpa [m_start_z_eq] using hs
  · exact hs
  · exact hs
  · exact hs
  · exact hs
  · exact hs
  · simp only [m_progress]
    split_ifs <;> omega
  · simpa [m_accelerations] using hs
  · exact hs

/-- Only `M0` and `M3` write the gating. -/
theorem m_codes_gating (cfg : Config α) (s : State α) (w : World α)
    (h0 : m_code α w.buffer ≠ 0) (h3 : m_code α w.buffer ≠ 3) :
    (m_codes cfg s w).1.next_line_condition = s.next_line_condition ∧
    (m_codes cfg s w).1.action_after_needle_interrupt = s.action_after_needle_interrupt := by
  unfold m_codes
  apply m_switch_cases cfg _ w (fun r => r.1.next_line_condition = s.next_line_condition ∧
    r.1.action_after_needle_interrupt = s.action_after_needle_interrupt)
  · intro hc; exact absurd hc h0
  · intro hc; exact absurd hc h3
  · exact ⟨rfl, rfl⟩
  · exact ⟨rfl, rfl⟩
  · exact ⟨rfl, rfl⟩
  · exact ⟨rfl, rfl⟩
  · exact ⟨rfl, rfl⟩
  · simp [m_progress]
  · simp [m_accelerations]
  · exact ⟨rfl, rfl⟩

/-- The M-code dispatch never leaves `CONDITION_AFTER_INTERRUPT` without the
action `ACTION_STOP_MOTOR`, unless it found that gating in place. -/
theorem m_codes_interrupt_action (cfg : Config α) (s : State α) (w : World α)
    (hs : s.next_line_condition ≠ Condition.CONDITION_AFTER_INTERRUPT)
    (hr : (m_codes cfg s w).1.next_line_condition = Condition.CONDITION_AFTER_INTERRUPT) :
    (m_codes cfg s w).1.action_after_needle_interrupt = Action.ACTION_STOP_MOTOR := by
  revert hr
  unfold m_codes
  apply m_switch_cases cfg _ w (fun r =>
    r.1.next_line_condition = Condition.CONDITION_AFTER_INTERRUPT →
    r.1.action_after_needle_interrupt = Action.ACTION_STOP_MOTOR)
  · intro _; simp [m_pause, gcode_pause]
  · intro _
    rw [m_start_z_eq]
    by_cases hi : gcode_parse_code w.buffer 'I' (0 : α) > 0 <;> simp [hi]
  · intro hc; exact absurd hc hs
  · intro hc; exact absurd hc hs
  · intro hc; exact absurd hc hs
  · intro hc; exact absurd hc hs
  · intro hc; exact absurd hc hs
  · intro hc; exact absurd hc (by simpa [m_progress] using hs)
  · intro hc; exact absurd hc (by simpa [m_accelerations] using hs)
  · intro hc; exact absurd hc hs

end DispatchLemmasM
section TickClaims
variable {α : Type} [LinearOrderedField α] [FloorRing α]

/-- A call either returns at the gate, with the state as it was, or runs the
part after the gate. -/
theorem cycle_cases (cfg : Config α) (s : State α) (w : World α) :
    (gcode_cycle cfg s w).1 = s ∨ ∃ w2 : World α, gcode_cycle cfg s w = proceed cfg s w2 := by
  unfold gcode_cycle
  split
  · split_ifs
    · exact Or.inl rfl
    · exact Or.inr ⟨_, rfl⟩
  · simp only []
    split_ifs
    · exact Or.inl rfl
    · exact Or.inr ⟨_, rfl⟩
    · exact Or.inl rfl
  · split_ifs
    · exact Or.inl rfl
    · exact Or.inr ⟨_, rfl⟩
  · exact Or.inr ⟨_, rfl⟩

/-- The part after the gate, whether or not a line is left. -/
theorem proceed_cases (cfg : Config α) (s : State α) (w : World α) :
    (proceed cfg s w =
      (proceed_state s w, (needle_sensor_clear_interrupt_flag w).emit Cmd.menu_stop_file)) ∨
    ∃ line : List Char, w.file.get? w.cursor = some line ∧
      proceed cfg s w =
        m_codes cfg (g_codes cfg (proceed_state s w) (fetch_world w line)).1
          (g_codes cfg (proceed_state s w) (fetch_world w line)).2 := by
  cases h : w.file.get? w.cursor with
  | none => exact Or.inl (proceed_eof cfg s w h)
  | some line => exact Or.inr ⟨line, rfl, proceed_fetch cfg s w line h⟩

/-- The part after the gate moves the program position by one line when a
line is left. -/
theorem proceed_cursor (cfg : Config α) (s : State α) (w : World α) (line : List Char)
    (h : w.file.get? w.cursor = some line) :
    (proceed cfg s w).2.cursor = w.cursor + 1 ∧ (proceed cfg s w).2.buffer = line ∧
    (proceed cfg s w).2.file = w.file := by
  rw [proceed_fetch cfg s w line h]
  obtain ⟨mb, mf, mc, -⟩ := m_codes_world cfg (g_codes cfg (proceed_state s w)
    (fetch_world w line)).1 (g_codes cfg (proceed_state s w) (fetch_world w line)).2
  obtain ⟨-, -, -, -, -, -, -, -, gb, gf, gc, -, -, -⟩ :=
    g_codes_frame cfg (proceed_state s w) (fetch_world w line)
  exact ⟨by rw [mc, gc]; rfl, by rw [mb, gb]; rfl, by rw [mf, gf]; rfl⟩

/-- A tick keeps the progress at most 100. -/
theorem gcode_cycle_progress_le (cfg : Config α) (s : State α) (w : World α)
    (hs : s.progress ≤ 100) : (gcode_cycle cfg s w).1.progress ≤ 100 := by
  rcases cycle_cases cfg s w with h | ⟨w2, h⟩
  · rw [h]; exact hs
  · rw [h]
    rcases proceed_cases cfg s w2 with h2 | ⟨line, -, h2⟩
    · rw [h2]; exact hs
    · rw [h2]
      apply m_codes_progress_le
      rw [(g_codes_frame cfg _ _).1]
      exact hs

/-- The state and the log of a tick that executes a line with the code
`M73`. -/
theorem cycle_M73 (cfg : Config α) (s : State α) (w : World α) (line : List Char)
    (hp : tick_proceeds s w) (hl : w.file.get? w.cursor = some line)
    (hM : m_code α line = 73) :
    (gcode_cycle cfg s w).1.progress =
      min (f2u 8 (gcode_parse_code line 'P' (s.progress : α))) 100 ∧
    ∃ l : List (Cmd α), (gcode_cycle cfg s w).2.log = l ++ [Cmd.lcd_print_progress] := by
  rw [cycle_line cfg s w line hp hl]
  obtain ⟨gp, -, -, -, -, -, -, -, gb, -⟩ :=
    g_codes_frame cfg (proceed_state s w) (fetch_world (gate_world s w) line)
  have hb : (g_codes cfg (proceed_state s w) (fetch_world (gate_world s w) line)).2.buffer =
      line := gb
  rw [m_codes_progress cfg _ _ (by rw [hb]; exact hM)]
  constructor
  · simp only [m_progress, hb, gp]
    show (if _ > 100 then 100 else _) = min _ 100
    split_ifs with h
    · exact (Nat.min_eq_right (le_of_lt h)).symm
    · exact (Nat.min_eq_left (not_lt.mp h)).symm
  · exact ⟨_, rfl⟩

/-- C11: in every state reached from `gcode_clear` by public operations the
progress is at most 100; a tick that executes an `M73` line calls
`lcd_print_progress()` and sets the progress to `min(v, 100)` when the field
`P` is the integer `v` in 0..255, and leaves it as it is when `P` is absent
(the progress being at most 100); the line `M73 P150` gives 100. -/
theorem progress_clamp (cfg : Config α) :
    (∀ (ops : List (Op α)) (s : State α) (w : World α),
      gcode_get_progress (run_ops cfg ops (gcode_clear cfg s w)).1 ≤ 100) ∧
    (∀ (s : State α) (w : World α) (line : List Char),
      tick_proceeds s w → w.file.get? w.cursor = some line → m_code α line = 73 →
      (∃ l : List (Cmd α), (gcode_cycle cfg s w).2.log = l ++ [Cmd.lcd_print_progress]) ∧
      (∀ v : Nat, v ≤ 255 → gcode_parse_code line 'P' (s.progress : α) = (v : α) →
        gcode_get_progress (gcode_cycle cfg s w).1 = min v 100) ∧
      ((∀ d : α, gcode_parse_code line 'P' d = d) → s.progress ≤ 100 →
        gcode_get_progress (gcode_cycle cfg s w).1 = s.progress)) ∧
    (∀ (s : State α) (w : World α),
      tick_proceeds s w → w.file.get? w.cursor = some "M73 P150".toList →
      gcode_get_progress (gcode_cycle cfg s w).1 = 100) := by
  refine ⟨?_, ?_, ?_⟩
  · intro ops s w
    have key : ∀ (ops : List (Op α)) (r : State α × World α), r.1.progress ≤ 100 →
        (run_ops cfg ops r).1.progress ≤ 100 := by
      intro ops
      induction ops with
      | nil => intro r hr; exact hr
      | cons op ops ih =>
        intro r hr
        show (run_ops cfg ops (apply_op cfg r op)).1.progress ≤ 100
        apply ih
        cases op with
        | cycle e => exact gcode_cycle_progress_le cfg r.1 (r.2.sample e) hr
        | set_tension v =>
          show (gcode_set_tension v r.1 r.2).1.progress ≤ 100
          unfold gcode_set_tension
          simp only []
          split_ifs <;> exact hr
        | pause => exact hr
        | resume => exact hr
        | stop => exact hr
        | clear => exact Nat.zero_le _
    exact key ops _ (Nat.zero_le _)
  · intro s w line hp hl hM
    obtain ⟨h1, h2⟩ := cycle_M73 cfg s w line hp hl hM
    refine ⟨h2, ?_, ?_⟩
    · intro v hv hP
      show (gcode_cycle cfg s w).1.progress = min v 100
      rw [h1, hP, f2u_natCast]
      have : v % 2 ^ 8 = v := Nat.mod_eq_of_lt (by omega)
      rw [this]
    · intro hP hs
      show (gcode_cycle cfg s w).1.progress = s.progress
      rw [h1, hP, f2u_natCast]
      have : s.progress % 2 ^ 8 = s.progress := Nat.mod_eq_of_lt (by omega)
      rw [this]
      exact Nat.min_eq_left hs
  · intro s w hp hl
    have hM : m_code α "M73 P150".toList = 73 := by
      simp [m_code, gcode_parse_code, parse_loop, strchr_next, atof, take_sign, skip_space,
        take_digits, isspace, isdigit, take_exponent, ftrunc_ofNat]
    have hP : gcode_parse_code "M73 P150".toList 'P' (s.progress : α) = ((150 : Nat) : α) := by
      simp [gcode_parse_code, parse_loop, strchr_next, atof, take_sign, skip_space,
        take_digits, isspace, isdigit, take_exponent]
    show (gcode_cycle cfg s w).1.progress = 100
    rw [(cycle_M73 cfg s w _ hp hl hM).1, hP, f2u_natCast]
    rfl

end TickClaims

theorem progress_clamp_witness :
    tick_proceeds (demo_state : State ℚ) (demo_world program_progress 90) ∧
    (demo_world program_progress 90 : World ℚ).file.get?
      (demo_world program_progress 90 : World ℚ).cursor = some "M73 P150".toList ∧
    gcode_get_progress
      (gcode_cycle demo_config demo_state (demo_world program_progress 90)).1 = 100 :=
  have hp : tick_proceeds (demo_state : State ℚ) (demo_world program_progress 90) := by
    simp [tick_proceeds, demo_state]
  ⟨hp, rfl,
    (progress_clamp demo_config).2.2 demo_state (demo_world program_progress 90) hp rfl⟩

section TickClaims2
variable {α : Type} [LinearOrderedField α] [FloorRing α]

/-- The state and the log after a tick that executes a `G0`/`G1` line. -/
theorem cycle_move (cfg : Config α) (s : State α) (w : World α) (line : List Char)
    (hp : tick_proceeds s w) (hl : w.file.get? w.cursor = some line)
    (hG : g_code α line = 0 ∨ g_code α line = 1) :
    (g_codes cfg (proceed_state s w) (fetch_world (gate_world s w) line)).1.next_line_condition
      = Condition.CONDITION_AFTER_MOVE ∧
    (gcode_cycle cfg s w).1.x_new = gcode_parse_code line 'X' w.motor_x ∧
    (gcode_cycle cfg s w).1.y_new = gcode_parse_code line 'Y' w.motor_y ∧
    (gcode_cycle cfg s w).1.speed_xy = gcode_parse_code line 'F' s.speed_xy ∧
    (gcode_cycle cfg s w).1.interpolation_x =
      (calculate_interpolation cfg
        { s with x_new := gcode_parse_code line 'X' w.motor_x,
                 y_new := gcode_parse_code line 'Y' w.motor_y } w).interpolation_x ∧
    (gcode_cycle cfg s w).1.interpolation_y =
      (calculate_interpolation cfg
        { s with x_new := gcode_parse_code line 'X' w.motor_x,
                 y_new := gcode_parse_code line 'Y' w.motor_y } w).interpolation_y ∧
    (g_codes cfg (proceed_state s w) (fetch_world (gate_world s w) line)).2.log =
      (gate_world s w).log ++
        [Cmd.motors_set_speed_x (fmul (gcode_parse_code line 'F' s.speed_xy)
           (calculate_interpolation cfg
             { s with x_new := gcode_parse_code line 'X' w.motor_x,
                      y_new := gcode_parse_code line 'Y' w.motor_y } w).interpolation_x),
         Cmd.motors_set_speed_y (fmul (gcode_parse_code line 'F' s.speed_xy)
           (calculate_interpolation cfg
             { s with x_new := gcode_parse_code line 'X' w.motor_x,
                      y_new := gcode_parse_code line 'Y' w.motor_y } w).interpolation_y),
         Cmd.motors_set_acceleration_x (fmul s.acceleration_x
           (calculate_interpolation cfg
             { s with x_new := gcode_parse_code line 'X' w.motor_x,
                      y_new := gcode_parse_code line 'Y' w.motor_y } w).interpolation_x),
         Cmd.motors_set_acceleration_y (fmul s.acceleration_y
           (calculate_interpolation cfg
             { s with x_new := gcode_parse_code line 'X' w.motor_x,
                      y_new := gcode_parse_code line 'Y' w.motor_y } w).interpolation_y),
         Cmd.motors_move_to_position (gcode_parse_code line 'X' w.motor_x)
           (gcode_parse_code line 'Y' w.motor_y)] := by
  rw [cycle_line cfg s w line hp hl]
  have hb : (fetch_world (gate_world s w) line).buffer = line := rfl
  have hg := g_codes_move cfg (proceed_state s w) (fetch_world (gate_world s w) line)
    (by rw [hb]; exact hG)
  obtain ⟨mx, my, mf, mix, miy, -, -⟩ := m_codes_frame cfg
    (g_codes cfg (proceed_state s w) (fetch_world (gate_world s w) line)).1
    (g_codes cfg (proceed_state s w) (fetch_world (gate_world s w) line)).2
  rw [mx, my, mf, mix, miy, hg, g_move_eq]
  obtain ⟨-, -, -, gx, gy⟩ := gate_world_fetch s w
  simp [calculate_interpolation, fetch_world, proceed_state, gx, gy]

/-- C14: a tick that executes an `M3` line sets `speed_z` to the field `S`
(default `SPEED_INITIAL_Z_HZ`); when the field `I` is positive it clears the
interrupt flag and ends with `CONDITION_AFTER_INTERRUPT` and
`ACTION_STOP_MOTOR`, otherwise it ends with `CONDITION_IMMEDIATELY` and
`ACTION_NONE`; its last three commands enable the needle motor, set its speed
and start it when `speed_z > 0`, stop it otherwise. -/
theorem needle_start (cfg : Config α) (s : State α) (w : World α) (line : List Char)
    (hp : tick_proceeds s w) (hl : w.file.get? w.cursor = some line)
    (hM : m_code α line = 3) :
    (gcode_cycle cfg s w).1.speed_z = gcode_parse_code line 'S' cfg.SPEED_INITIAL_Z_HZ ∧
    (gcode_parse_code line 'I' (0 : α) > 0 →
      (gcode_cycle cfg s w).2.needle_flag = false ∧
      (gcode_cycle cfg s w).1.next_line_condition = Condition.CONDITION_AFTER_INTERRUPT ∧
      (gcode_cycle cfg s w).1.action_after_needle_interrupt = Action.ACTION_STOP_MOTOR) ∧
    (¬ gcode_parse_code line 'I' (0 : α) > 0 →
      (gcode_cycle cfg s w).1.next_line_condition = Condition.CONDITION_IMMEDIATELY ∧
      (gcode_cycle cfg s w).1.action_after_needle_interrupt = Action.ACTION_NONE) ∧
    ∃ l : List (Cmd α), (gcode_cycle cfg s w).2.log =
      l ++ [Cmd.motors_enable_z,
            Cmd.motors_set_speed_z (gcode_cycle cfg s w).1.speed_z,
            if (gcode_cycle cfg s w).1.speed_z > 0 then Cmd.motors_start_z
            else Cmd.motors_stop_z] := by
  have hgb : (g_codes cfg (proceed_state s w) (fetch_world (gate_world s w) line)).2.buffer =
      line := (g_codes_frame cfg _ _).2.2.2.2.2.2.2.2.1
  have hm := m_codes_start_z cfg
    (g_codes cfg (proceed_state s w) (fetch_world (gate_world s w) line)).1
    (g_codes cfg (proceed_state s w) (fetch_world (gate_world s w) line)).2
    (by rw [hgb]; exact hM)
  rw [cycle_line cfg s w line hp hl, hm, m_start_z_eq, hgb]
  refine ⟨rfl, ?_, ?_, ⟨_, rfl⟩⟩
  · intro hi
    simp [hi]
  · intro hi
    simp [hi]

end TickClaims2
section TickWitnesses

theorem demo_proceeds (w : World ℚ) : tick_proceeds (demo_state : State ℚ) w := by
  simp [tick_proceeds, demo_state]

theorem codes_G1_X10 :
    g_code ℚ "G1 X10 Y0 F500".toList = 1 ∧ m_code ℚ "G1 X10 Y0 F500".toList = -1 ∧
    gcode_parse_code "G1 X10 Y0 F500".toList 'X' (0 : ℚ) = 10 := by
  refine ⟨?_, ?_, ?_⟩
  · simp [g_code, gcode_parse_code, parse_loop, strchr_next, atof, take_sign, skip_space,
      take_digits, isspace, isdigit, take_exponent, ftrunc_one]
  · simp [m_code, gcode_parse_code, parse_loop, strchr_next, ftrunc_neg_one]
  · simp [gcode_parse_code, parse_loop, strchr_next, atof, take_sign, skip_space,
      take_digits, isspace, isdigit, take_exponent]

theorem codes_G4_M3_I1 :
    g_code ℚ "G4 P200 M3 I1".toList = 4 ∧ m_code ℚ "G4 P200 M3 I1".toList = 3 ∧
    gcode_parse_code "G4 P200 M3 I1".toList 'I' (0 : ℚ) = 1 := by
  refine ⟨?_, ?_, ?_⟩
  · simp [g_code, gcode_parse_code, parse_loop, strchr_next, atof, take_sign, skip_space,
      take_digits, isspace, isdigit, take_exponent, ftrunc_ofNat]
  · simp [m_code, gcode_parse_code, parse_loop, strchr_next, atof, take_sign, skip_space,
      take_digits, isspace, isdigit, take_exponent, ftrunc_ofNat]
  · simp [gcode_parse_code, parse_loop, strchr_next, atof, take_sign, skip_space,
      take_digits, isspace, isdigit, take_exponent]

theorem needle_start_witness :
    tick_proceeds (demo_state : State ℚ) (demo_world program_dwell_interrupt 90) ∧
    (demo_world program_dwell_interrupt 90 : World ℚ).file.get?
      (demo_world program_dwell_interrupt 90 : World ℚ).cursor = some "G4 P200 M3 I1".toList ∧
    m_code ℚ "G4 P200 M3 I1".toList = 3 ∧
    gcode_parse_code "G4 P200 M3 I1".toList 'I' (0 : ℚ) > 0 ∧
    (gcode_cycle demo_config demo_state
      (demo_world program_dwell_interrupt 90)).1.next_line_condition =
        Condition.CONDITION_AFTER_INTERRUPT ∧
    (gcode_cycle demo_config demo_state
      (demo_world program_dwell_interrupt 90)).1.action_after_needle_interrupt =
        Action.ACTION_STOP_MOTOR :=
  have hi : gcode_parse_code "G4 P200 M3 I1".toList 'I' (0 : ℚ) > 0 := by
    rw [codes_G4_M3_I1.2.2]; norm_num
  have h := needle_start demo_config demo_state (demo_world program_dwell_interrupt 90)
    "G4 P200 M3 I1".toList (demo_proceeds _) rfl codes_G4_M3_I1.2.1
  ⟨demo_proceeds _, rfl, codes_G4_M3_I1.2.1, hi, (h.2.1 hi).2.1, (h.2.1 hi).2.2⟩

end TickWitnesses

section StopAndEnd
variable {α : Type} [LinearOrderedField α] [FloorRing α]

omit [LinearOrderedField α] [FloorRing α] in
/-- C15: `gcode_stop()` sets `next_line_condition` to `CONDITION_IMMEDIATELY`
and `is_tensioned` to false and changes no other variable (tension setpoint,
progress, paused code, speeds and accelerations are as before); it issues, in
this order, the motors' abort-and-reset, the rewind of the program source,
the tension 0 to the servo, the stop and the disabling of the needle motor,
and leaves the program source at its first line. -/
theorem gcode_stop_effect (s : State α) (w : World α) :
    (gcode_stop s w).1 =
      { s with next_line_condition := Condition.CONDITION_IMMEDIATELY,
               is_tensioned := false } ∧
    (gcode_stop s w).2 =
      { w with cursor := 0,
               log := w.log ++ [Cmd.motors_abort_and_reset, Cmd.sd_card_file_rewind,
                 Cmd.servo_set_tension 0, Cmd.motors_stop_z, Cmd.motors_disable_z] } ∧
    (gcode_stop s w).1.next_line_condition = Condition.CONDITION_IMMEDIATELY ∧
    (gcode_stop s w).1.is_tensioned = false ∧
    gcode_get_tension (gcode_stop s w).1 = gcode_get_tension s ∧
    gcode_get_progress (gcode_stop s w).1 = gcode_get_progress s ∧
    gcode_get_paused_code (gcode_stop s w).1 = gcode_get_paused_code s ∧
    (gcode_stop s w).1.speed_xy = s.speed_xy ∧
    (gcode_stop s w).1.speed_z = s.speed_z ∧
    (gcode_stop s w).1.acceleration_x = s.acceleration_x ∧
    (gcode_stop s w).1.acceleration_y = s.acceleration_y := by
  refine ⟨rfl, ?_, rfl, rfl, rfl, rfl, rfl, rfl, rfl, rfl, rfl⟩
  simp [gcode_stop, sd_card_file_rewind, World.emit]

/-- A tick that the gate lets through at the end of the file. -/
theorem cycle_eof (cfg : Config α) (s : State α) (w : World α)
    (hp : tick_proceeds s w) (he : w.file.get? w.cursor = none) :
    gcode_cycle cfg s w =
      (proceed_state s w,
       (needle_sensor_clear_interrupt_flag (gate_world s w)).emit Cmd.menu_stop_file) := by
  have he2 : (gate_world s w).file.get? (gate_world s w).cursor = none := by
    rw [(gate_world_fetch s w).1, (gate_world_fetch s w).2.1]
    exact he
  rw [cycle_of_proceeds cfg s w hp, proceed_eof cfg s _ he2, proceed_state_gate]

/-- C16 (amended): when a tick passes its gate and no line remains,
`gcode_cycle` changes no variable other than the resets of the proceed step
(`x_new`, `y_new`, speeds, accelerations, tension, `is_tensioned`, progress
and paused code are unchanged), clears the interrupt flag, leaves the program
source and the EEPROM alone and calls `menu_stop_file()` exactly once; this is
its only command, except under `CONDITION_AFTER_INTERRUPT` with
`ACTION_STOP_MOTOR` pending, where the gate has issued `motors_stop_z()`
before it. -/
theorem end_of_program (cfg : Config α) (s : State α) (w : World α)
    (hp : tick_proceeds s w) (he : w.file.get? w.cursor = none) :
    (gcode_cycle cfg s w).1 =
      { s with next_line_condition := Condition.CONDITION_IMMEDIATELY,
               action_after_needle_interrupt := Action.ACTION_NONE,
               dwell_delay := 0,
               dwell_timer := millis w } ∧
    (gcode_cycle cfg s w).2 =
      { w with needle_flag := false, log := (gcode_cycle cfg s w).2.log } ∧
    (s.next_line_condition = Condition.CONDITION_AFTER_INTERRUPT →
      s.action_after_needle_interrupt = Action.ACTION_STOP_MOTOR →
      (gcode_cycle cfg s w).2.log = w.log ++ [Cmd.motors_stop_z, Cmd.menu_stop_file]) ∧
    (¬ (s.next_line_condition = Condition.CONDITION_AFTER_INTERRUPT ∧
        s.action_after_needle_interrupt = Action.ACTION_STOP_MOTOR) →
      (gcode_cycle cfg s w).2.log = w.log ++ [Cmd.menu_stop_file]) := by
  rw [cycle_eof cfg s w hp he]
  refine ⟨rfl, ?_, ?_, ?_⟩
  · rw [gate_world_eq s w]
    rfl
  · intro hc ha
    rcases gate_world_log s w with h | ⟨-, -, h⟩
    · unfold gate_world at h
      simp only [hc, ha] at h
      simp [World.emit] at h
    · simp [World.emit, needle_sensor_clear_interrupt_flag, h]
  · intro hn
    rcases gate_world_log s w with h | ⟨h1, h2, -⟩
    · simp [World.emit, needle_sensor_clear_interrupt_flag, h]
    · exact absurd ⟨h1, h2⟩ hn

end StopAndEnd
section IgnoredCodes
variable {α : Type} [LinearOrderedField α] [FloorRing α]

/-- The program source after a tick that executes a line. -/
theorem cycle_line_world (cfg : Config α) (s : State α) (w : World α) (line : List Char)
    (hp : tick_proceeds s w) (hl : w.file.get? w.cursor = some line) :
    (gcode_cycle cfg s w).2.cursor = w.cursor + 1 ∧ (gcode_cycle cfg s w).2.buffer = line ∧
    (gcode_cycle cfg s w).2.file = w.file := by
  have hl2 : (gate_world s w).file.get? (gate_world s w).cursor = some line := by
    rw [(gate_world_fetch s w).1, (gate_world_fetch s w).2.1]
    exact hl
  rw [cycle_of_proceeds cfg s w hp]
  obtain ⟨h1, h2, h3⟩ := proceed_cursor cfg s (gate_world s w) line hl2
  rw [(gate_world_fetch s w).2.1] at h1
  rw [(gate_world_fetch s w).1] at h3
  exact ⟨h1, h2, h3⟩

/-- The gating after a tick that executes an `M3` line with a positive `I`
and no `G4`. -/
theorem cycle_M3_interrupt (cfg : Config α) (s : State α) (w : World α) (line : List Char)
    (hp : tick_proceeds s w) (hl : w.file.get? w.cursor = some line)
    (hG0 : g_code α line ≠ 0) (hG1 : g_code α line ≠ 1) (hG4 : g_code α line ≠ 4)
    (hM : m_code α line = 3) (hi : gcode_parse_code line 'I' (0 : α) > 0) :
    (gcode_cycle cfg s w).1.next_line_condition = Condition.CONDITION_AFTER_INTERRUPT ∧
    (gcode_cycle cfg s w).1.action_after_needle_interrupt = Action.ACTION_STOP_MOTOR ∧
    (gcode_cycle cfg s w).1.dwell_delay = 0 := by
  have hb : (fetch_world (gate_world s w) line).buffer = line := rfl
  have hg := g_codes_other cfg (proceed_state s w) (fetch_world (gate_world s w) line)
    (by rw [hb]; exact hG0) (by rw [hb]; exact hG1) (by rw [hb]; exact hG4)
  rw [cycle_line cfg s w line hp hl, hg]
  rw [m_codes_start_z cfg _ _ (by rw [hb]; exact hM), m_start_z_eq, hb]
  simp [hi, proceed_state]

/-- A tick that executes a line whose G code and M code are not among the
cases of the two switches: only the resets of the proceed step, the line
fetch and the assignments to `command` happen. -/
theorem cycle_ignored (cfg : Config α) (s : State α) (w : World α) (line : List Char)
    (hp : tick_proceeds s w) (hl : w.file.get? w.cursor = some line)
    (hG0 : g_code α line ≠ 0) (hG1 : g_code α line ≠ 1) (hG4 : g_code α line ≠ 4)
    (hM : m_code α line ∉ ([0, 3, 5, 17, 18, 41, 42, 73, 201] : List Int)) :
    gcode_cycle cfg s w =
      ({ proceed_state s w with command := m_code α line },
       fetch_world (gate_world s w) line) := by
  have hb : (fetch_world (gate_world s w) line).buffer = line := rfl
  have hg := g_codes_other cfg (proceed_state s w) (fetch_world (gate_world s w) line)
    (by rw [hb]; exact hG0) (by rw [hb]; exact hG1) (by rw [hb]; exact hG4)
  rw [cycle_line cfg s w line hp hl, hg]
  rw [m_codes_other cfg _ _ (by rw [hb]; exact hM), hb]

/-- C17 (amended): a tick that executes a line whose G code is not 0, 1 or 4
and whose M code is not 0, 3, 5, 17, 18, 41, 42, 73 or 201 (the codes being
the fields converted to the integer `command`, -1 when absent) ends with
`CONDITION_IMMEDIATELY`, leaves `x_new`, `y_new`, the speeds, the
accelerations, the tension, `is_tensioned`, the progress and the paused code
unchanged, and issues no command for the line: the list of issued commands is
as before, except under `CONDITION_AFTER_INTERRUPT` with `ACTION_STOP_MOTOR`
pending, where the gate has issued `motors_stop_z()`. -/
theorem unrecognized_codes_ignored (cfg : Config α) (s : State α) (w : World α)
    (line : List Char) (hp : tick_proceeds s w) (hl : w.file.get? w.cursor = some line)
    (hG0 : g_code α line ≠ 0) (hG1 : g_code α line ≠ 1) (hG4 : g_code α line ≠ 4)
    (hM : m_code α line ∉ ([0, 3, 5, 17, 18, 41, 42, 73, 201] : List Int)) :
    (gcode_cycle cfg s w).1 =
      { s with next_line_condition := Condition.CONDITION_IMMEDIATELY,
               action_after_needle_interrupt := Action.ACTION_NONE,
               dwell_delay := 0,
               dwell_timer := millis w,
               command := m_code α line } ∧
    (gcode_cycle cfg s w).1.next_line_condition = Condition.CONDITION_IMMEDIATELY ∧
    ((gcode_cycle cfg s w).1.x_new = s.x_new ∧ (gcode_cycle cfg s w).1.y_new = s.y_new ∧
      (gcode_cycle cfg s w).1.speed_xy = s.speed_xy ∧
      (gcode_cycle cfg s w).1.speed_z = s.speed_z ∧
      (gcode_cycle cfg s w).1.acceleration_x = s.acceleration_x ∧
      (gcode_cycle cfg s w).1.acceleration_y = s.acceleration_y ∧
      (gcode_cycle cfg s w).1.tension_ = s.tension_ ∧
      (gcode_cycle cfg s w).1.is_tensioned = s.is_tensioned ∧
      (gcode_cycle cfg s w).1.progress = s.progress ∧
      (gcode_cycle cfg s w).1.paused_code = s.paused_code) ∧
    (s.next_line_condition = Condition.CONDITION_AFTER_INTERRUPT →
      s.action_after_needle_interrupt = Action.ACTION_STOP_MOTOR →
      (gcode_cycle cfg s w).2.log = w.log ++ [Cmd.motors_stop_z]) ∧
    (¬ (s.next_line_condition = Condition.CONDITION_AFTER_INTERRUPT ∧
        s.action_after_needle_interrupt = Action.ACTION_STOP_MOTOR) →
      (gcode_cycle cfg s w).2.log = w.log) := by
  rw [cycle_ignored cfg s w line hp hl hG0 hG1 hG4 hM]
  refine ⟨rfl, rfl, ⟨rfl, rfl, rfl, rfl, rfl, rfl, rfl, rfl, rfl, rfl⟩, ?_, ?_⟩
  · intro hc ha
    rcases gate_world_log s w with h | ⟨-, -, h⟩
    · unfold gate_world at h
      simp only [hc, ha] at h
      simp [World.emit] at h
    · exact h
  · intro hn
    rcases gate_world_log s w with h | ⟨h1, h2, -⟩
    · exact h
    · exact absurd ⟨h1, h2⟩ hn

end IgnoredCodes

section IgnoredWitnesses

theorem codes_M3_I1 :
    g_code ℚ "M3 I1".toList = -1 ∧ m_code ℚ "M3 I1".toList = 3 ∧
    gcode_parse_code "M3 I1".toList 'I' (0 : ℚ) = 1 := by
  refine ⟨?_, ?_, ?_⟩
  · simp [g_code, gcode_parse_code, parse_loop, strchr_next, ftrunc_neg_one]
  · simp [m_code, gcode_parse_code, parse_loop, strchr_next, atof, take_sign, skip_space,
      take_digits, isspace, isdigit, take_exponent, ftrunc_ofNat]
  · simp [gcode_parse_code, parse_loop, strchr_next, atof, take_sign, skip_space,
      take_digits, isspace, isdigit, take_exponent]

theorem codes_G21 : g_code ℚ "G21".toList = 21 ∧ m_code ℚ "G21".toList = -1 := by
  refine ⟨?_, ?_⟩
  · simp [g_code, gcode_parse_code, parse_loop, strchr_next, atof, take_sign, skip_space,
      take_digits, isspace, isdigit, take_exponent, ftrunc_ofNat]
  · simp [m_code, gcode_parse_code, parse_loop, strchr_next, ftrunc_neg_one]

/-- The state after `gcode_clear` and the tick that executes `M3 I1`, the
first line of `file`: the handler waits for the needle interrupt. -/
theorem needle_r1_facts (file : List (List Char)) (h : file.get? 0 = some "M3 I1".toList) :
    (needle_r1 file).1.next_line_condition = Condition.CONDITION_AFTER_INTERRUPT ∧
    (needle_r1 file).1.action_after_needle_interrupt = Action.ACTION_STOP_MOTOR ∧
    (needle_r1 file).1.dwell_delay = 0 ∧
    (needle_r1 file).2.cursor = 1 ∧ (needle_r1 file).2.file = file := by
  obtain ⟨cf, cc, -, -, -, -, -⟩ :=
    gcode_clear_world demo_config (demo_state : State ℚ) (demo_world file 90)
  have hp : tick_proceeds (gcode_clear demo_config (demo_state : State ℚ) (demo_world file 90)).1
      (gcode_clear demo_config (demo_state : State ℚ) (demo_world file 90)).2 := by
    unfold tick_proceeds
    rw [gcode_clear_condition]
    trivial
  have hl : (gcode_clear demo_config (demo_state : State ℚ) (demo_world file 90)).2.file.get?
      (gcode_clear demo_config (demo_state : State ℚ) (demo_world file 90)).2.cursor =
      some "M3 I1".toList := by
    rw [cf, cc]
    exact h
  have hi : gcode_parse_code "M3 I1".toList 'I' (0 : ℚ) > 0 := by
    rw [codes_M3_I1.2.2]; norm_num
  obtain ⟨h1, h2, h3⟩ := cycle_M3_interrupt demo_config _ _ _ hp hl
    (by rw [codes_M3_I1.1]; decide) (by rw [codes_M3_I1.1]; decide)
    (by rw [codes_M3_I1.1]; decide) codes_M3_I1.2.1 hi
  obtain ⟨k1, -, k3⟩ := cycle_line_world demo_config _ _ _ hp hl
  refine ⟨h1, h2, h3, ?_, ?_⟩
  · show (gcode_cycle demo_config _ _).2.cursor = 1
    rw [k1, cc]
    rfl
  · show (gcode_cycle demo_config _ _).2.file = file
    rw [k3, cf]
    rfl

/-- The gate lets the tick through once the needle interrupt has fired. -/
theorem needle_r1_proceeds (file : List (List Char)) (h : file.get? 0 = some "M3 I1".toList)
    (t : Nat) : tick_proceeds (needle_r1 file).1 ((needle_r1 file).2.sample (interrupt_at t)) := by
  obtain ⟨h1, -, h3, -, -⟩ := needle_r1_facts file h
  unfold tick_proceeds
  rw [h1]
  refine ⟨rfl, ?_⟩
  unfold dwell_pending
  rw [h3]
  simp

theorem end_of_program_witness :
    tick_proceeds (demo_state : State ℚ) (demo_world [] 90) ∧
    (demo_world [] 90 : World ℚ).file.get? (demo_world [] 90 : World ℚ).cursor = none ∧
    ¬ ((demo_state : State ℚ).next_line_condition = Condition.CONDITION_AFTER_INTERRUPT ∧
      (demo_state : State ℚ).action_after_needle_interrupt = Action.ACTION_STOP_MOTOR) ∧
    (gcode_cycle demo_config demo_state (demo_world [] 90)).2.log = [Cmd.menu_stop_file] :=
  have hn : ¬ ((demo_state : State ℚ).next_line_condition = Condition.CONDITION_AFTER_INTERRUPT ∧
      (demo_state : State ℚ).action_after_needle_interrupt = Action.ACTION_STOP_MOTOR) := by
    simp [demo_state]
  ⟨demo_proceeds _, rfl, hn,
    (end_of_program demo_config demo_state (demo_world [] 90) (demo_proceeds _) rfl).2.2.2 hn⟩

/-- C16 as stated fails under `CONDITION_AFTER_INTERRUPT`: after `gcode_clear`
and the tick that executes `M3 I1`, the last line of the program, the tick
that finds the interrupt flag set passes its gate, finds no line left and
issues `motors_stop_z()` before `menu_stop_file()`: a motor command. -/
theorem end_of_program_stops_needle_motor :
    (needle_r1 program_needle_last).1.next_line_condition =
      Condition.CONDITION_AFTER_INTERRUPT ∧
    tick_proceeds (needle_r1 program_needle_last).1
      ((needle_r1 program_needle_last).2.sample (interrupt_at 1100)) ∧
    ((needle_r1 program_needle_last).2.sample (interrupt_at 1100)).file.get?
      ((needle_r1 program_needle_last).2.sample (interrupt_at 1100)).cursor = none ∧
    (gcode_cycle demo_config (needle_r1 program_needle_last).1
      ((needle_r1 program_needle_last).2.sample (interrupt_at 1100))).2.log =
        (needle_r1 program_needle_last).2.log ++ [Cmd.motors_stop_z, Cmd.menu_stop_file] := by
  obtain ⟨h1, h2, -, h4, h5⟩ := needle_r1_facts program_needle_last rfl
  have hp := needle_r1_proceeds program_needle_last rfl 1100
  have he : ((needle_r1 program_needle_last).2.sample (interrupt_at 1100)).file.get?
      ((needle_r1 program_needle_last).2.sample (interrupt_at 1100)).cursor = none := by
    show (needle_r1 program_needle_last).2.file.get? (needle_r1 program_needle_last).2.cursor
      = none
    rw [h4, h5]
    rfl
  refine ⟨h1, hp, he, ?_⟩
  rw [cycle_eof demo_config _ _ hp he]
  unfold gate_world
  simp only [h1, h2]
  simp [World.emit, needle_sensor_clear_interrupt_flag, World.sample]

theorem unrecognized_codes_ignored_witness :
    tick_proceeds (demo_state : State ℚ) (demo_world program_unknown 90) ∧
    (demo_world program_unknown 90 : World ℚ).file.get?
      (demo_world program_unknown 90 : World ℚ).cursor = some "G21".toList ∧
    g_code ℚ "G21".toList ≠ 0 ∧ g_code ℚ "G21".toList ≠ 1 ∧ g_code ℚ "G21".toList ≠ 4 ∧
    m_code ℚ "G21".toList ∉ ([0, 3, 5, 17, 18, 41, 42, 73, 201] : List Int) ∧
    ¬ ((demo_state : State ℚ).next_line_condition = Condition.CONDITION_AFTER_INTERRUPT ∧
      (demo_state : State ℚ).action_after_needle_interrupt = Action.ACTION_STOP_MOTOR) ∧
    (gcode_cycle demo_config demo_state (demo_world program_unknown 90)).1.next_line_condition
      = Condition.CONDITION_IMMEDIATELY ∧
    (gcode_cycle demo_config demo_state (demo_world program_unknown 90)).2.log = [] :=
  have g0 : g_code ℚ "G21".toList ≠ 0 := by rw [codes_G21.1]; decide
  have g1 : g_code ℚ "G21".toList ≠ 1 := by rw [codes_G21.1]; decide
  have g4 : g_code ℚ "G21".toList ≠ 4 := by rw [codes_G21.1]; decide
  have hm : m_code ℚ "G21".toList ∉ ([0, 3, 5, 17, 18, 41, 42, 73, 201] : List Int) := by
    rw [codes_G21.2]; decide
  have hn : ¬ ((demo_state : State ℚ).next_line_condition = Condition.CONDITION_AFTER_INTERRUPT ∧
      (demo_state : State ℚ).action_after_needle_interrupt = Action.ACTION_STOP_MOTOR) := by
    simp [demo_state]
  have h := unrecognized_codes_ignored demo_config demo_state (demo_world program_unknown 90)
    "G21".toList (demo_proceeds _) rfl g0 g1 g4 hm
  ⟨demo_proceeds _, rfl, g0, g1, g4, hm, hn, h.2.1, h.2.2.2.2 hn⟩

/-- C17 as stated fails under `CONDITION_AFTER_INTERRUPT`: after `gcode_clear`
and the tick that executes `M3 I1`, the tick that finds the interrupt flag set
fetches the line `G21`, whose G code 21 and absent M code are not among the
cases of the switches, and issues `motors_stop_z()`: a motor command. -/
theorem unrecognized_line_tick_stops_needle_motor :
    (needle_r1 program_needle).1.next_line_condition = Condition.CONDITION_AFTER_INTERRUPT ∧
    tick_proceeds (needle_r1 program_needle).1
      ((needle_r1 program_needle).2.sample (interrupt_at 1100)) ∧
    ((needle_r1 program_needle).2.sample (interrupt_at 1100)).file.get?
      ((needle_r1 program_needle).2.sample (interrupt_at 1100)).cursor = some "G21".toList ∧
    g_code ℚ "G21".toList = 21 ∧ m_code ℚ "G21".toList = -1 ∧
    (gcode_cycle demo_config (needle_r1 program_needle).1
      ((needle_r1 program_needle).2.sample (interrupt_at 1100))).2.log =
        (needle_r1 program_needle).2.log ++ [Cmd.motors_stop_z] := by
  obtain ⟨h1, h2, -, h4, h5⟩ := needle_r1_facts program_needle rfl
  have hp := needle_r1_proceeds program_needle rfl 1100
  have hl : ((needle_r1 program_needle).2.sample (interrupt_at 1100)).file.get?
      ((needle_r1 program_needle).2.sample (interrupt_at 1100)).cursor =
      some "G21".toList := by
    show (needle_r1 program_needle).2.file.get? (needle_r1 program_needle).2.cursor = _
    rw [h4, h5]
    rfl
  refine ⟨h1, hp, hl, codes_G21.1, codes_G21.2, ?_⟩
  rw [cycle_ignored demo_config _ _ _ hp hl (by rw [codes_G21.1]; decide)
    (by rw [codes_G21.1]; decide) (by rw [codes_G21.1]; decide)
    (by rw [codes_G21.2]; decide)]
  unfold gate_world
  simp only [h1, h2]
  simp [World.emit, fetch_world, World.sample]

end IgnoredWitnesses

section OrderAndInvariant
variable {α : Type} [LinearOrderedField α] [FloorRing α]

/-- A tick that executes a line with the code `M0` ends with
`CONDITION_IMMEDIATELY`, whatever the G-code dispatch has written. -/
theorem cycle_M0 (cfg : Config α) (s : State α) (w : World α) (line : List Char)
    (hp : tick_proceeds s w) (hl : w.file.get? w.cursor = some line)
    (hM : m_code α line = 0) :
    (gcode_cycle cfg s w).1.next_line_condition = Condition.CONDITION_IMMEDIATELY := by
  have hgb : (g_codes cfg (proceed_state s w) (fetch_world (gate_world s w) line)).2.buffer =
      line := (g_codes_frame cfg _ _).2.2.2.2.2.2.2.2.1
  rw [cycle_line cfg s w line hp hl, m_codes_pause cfg _ _ (by rw [hgb]; exact hM)]
  rfl

/-- A tick that executes a line with a `G0`/`G1` move and the code `M3`. -/
theorem cycle_move_M3 (cfg : Config α) (s : State α) (w : World α) (line : List Char)
    (hp : tick_proceeds s w) (hl : w.file.get? w.cursor = some line)
    (hG : g_code α line = 0 ∨ g_code α line = 1) (hM : m_code α line = 3) :
    (gcode_cycle cfg s w).1.next_line_condition =
      (if gcode_parse_code line 'I' (0 : α) > 0 then Condition.CONDITION_AFTER_INTERRUPT
       else Condition.CONDITION_IMMEDIATELY) ∧
    ∃ a b c d : FVal α, (gcode_cycle cfg s w).2.log =
      (gate_world s w).log ++
        [Cmd.motors_set_speed_x a, Cmd.motors_set_speed_y b,
         Cmd.motors_set_acceleration_x c, Cmd.motors_set_acceleration_y d,
         Cmd.motors_move_to_position (gcode_cycle cfg s w).1.x_new
           (gcode_cycle cfg s w).1.y_new] ++
        [Cmd.motors_enable_z, Cmd.motors_set_speed_z (gcode_cycle cfg s w).1.speed_z,
         if (gcode_cycle cfg s w).1.speed_z > 0 then Cmd.motors_start_z
         else Cmd.motors_stop_z] := by
  obtain ⟨-, hx, hy, -, -, -, hlog⟩ := cycle_move cfg s w line hp hl hG
  have hgb : (g_codes cfg (proceed_state s w) (fetch_world (gate_world s w) line)).2.buffer =
      line := (g_codes_frame cfg _ _).2.2.2.2.2.2.2.2.1
  have hm := m_codes_start_z cfg
    (g_codes cfg (proceed_state s w) (fetch_world (gate_world s w) line)).1
    (g_codes cfg (proceed_state s w) (fetch_world (gate_world s w) line)).2
    (by rw [hgb]; exact hM)
  rw [hx, hy]
  rw [cycle_line cfg s w line hp hl, hm, m_start_z_eq, hgb, hlog]
  exact ⟨rfl, _, _, _, _, rfl⟩

/-- C18: on a line that carries a `G0`/`G1` move and the code `M3`, the five
commands of the move are issued first and the three commands of `M3` after
them in the same tick, and the gating at the end of the tick is the one
written by `M3` (`CONDITION_AFTER_INTERRUPT` when `I > 0`,
`CONDITION_IMMEDIATELY` otherwise), not `CONDITION_AFTER_MOVE`; a line that
carries `G0`, `G1` or `G4` together with `M0` ends the tick with
`CONDITION_IMMEDIATELY`. -/
theorem motion_then_control (cfg : Config α) (s : State α) (w : World α) (line : List Char)
    (hp : tick_proceeds s w) (hl : w.file.get? w.cursor = some line) :
    ((g_code α line = 0 ∨ g_code α line = 1) → m_code α line = 3 →
      (gcode_cycle cfg s w).1.next_line_condition =
        (if gcode_parse_code line 'I' (0 : α) > 0 then Condition.CONDITION_AFTER_INTERRUPT
         else Condition.CONDITION_IMMEDIATELY) ∧
      (gcode_cycle cfg s w).1.next_line_condition ≠ Condition.CONDITION_AFTER_MOVE ∧
      ∃ a b c d : FVal α, (gcode_cycle cfg s w).2.log =
        (gate_world s w).log ++
          [Cmd.motors_set_speed_x a, Cmd.motors_set_speed_y b,
           Cmd.motors_set_acceleration_x c, Cmd.motors_set_acceleration_y d,
           Cmd.motors_move_to_position (gcode_cycle cfg s w).1.x_new
             (gcode_cycle cfg s w).1.y_new] ++
          [Cmd.motors_enable_z, Cmd.motors_set_speed_z (gcode_cycle cfg s w).1.speed_z,
           if (gcode_cycle cfg s w).1.speed_z > 0 then Cmd.motors_start_z
           else Cmd.motors_stop_z]) ∧
    ((g_code α line = 0 ∨ g_code α line = 1 ∨ g_code α line = 4) → m_code α line = 0 →
      (gcode_cycle cfg s w).1.next_line_condition = Condition.CONDITION_IMMEDIATELY) := by
  constructor
  · intro hG hM
    obtain ⟨h1, h2⟩ := cycle_move_M3 cfg s w line hp hl hG hM
    refine ⟨h1, ?_, h2⟩
    rw [h1]
    split_ifs <;> decide
  · intro _ hM
    exact cycle_M0 cfg s w line hp hl hM

/-- A tick keeps the invariant "the gating `CONDITION_AFTER_INTERRUPT` comes
with the action `ACTION_STOP_MOTOR`". -/
theorem gcode_cycle_interrupt_action (cfg : Config α) (s : State α) (w : World α)
    (hs : s.next_line_condition = Condition.CONDITION_AFTER_INTERRUPT →
      s.action_after_needle_interrupt = Action.ACTION_STOP_MOTOR)
    (hr : (gcode_cycle cfg s w).1.next_line_condition = Condition.CONDITION_AFTER_INTERRUPT) :
    (gcode_cycle cfg s w).1.action_after_needle_interrupt = Action.ACTION_STOP_MOTOR := by
  rcases cycle_cases cfg s w with h | ⟨w2, h⟩
  · rw [h] at hr ⊢
    exact hs hr
  · rw [h] at hr ⊢
    rcases proceed_cases cfg s w2 with h2 | ⟨line, -, h2⟩
    · rw [h2] at hr
      exact absurd hr (by simp [proceed_state])
    · rw [h2] at hr ⊢
      apply m_codes_interrupt_action cfg _ _ _ hr
      intro hg
      have := (g_codes_frame cfg (proceed_state s w2) (fetch_world w2 line)).2.2.2.2.2.2.2.2.2.2.2.2.2 hg
      exact absurd this (by simp [proceed_state])

/-- C19: in every state reached from `gcode_clear` by any sequence of the
public operations, `next_line_condition = CONDITION_AFTER_INTERRUPT` implies
`action_after_needle_interrupt = ACTION_STOP_MOTOR`. -/
theorem interrupt_gate_has_stop_action (cfg : Config α) (ops : List (Op α))
    (s : State α) (w : World α)
    (h : (run_ops cfg ops (gcode_clear cfg s w)).1.next_line_condition =
      Condition.CONDITION_AFTER_INTERRUPT) :
    (run_ops cfg ops (gcode_clear cfg s w)).1.action_after_needle_interrupt =
      Action.ACTION_STOP_MOTOR := by
  have key : ∀ (ops : List (Op α)) (r : State α × World α),
      (r.1.next_line_condition = Condition.CONDITION_AFTER_INTERRUPT →
        r.1.action_after_needle_interrupt = Action.ACTION_STOP_MOTOR) →
      ((run_ops cfg ops r).1.next_line_condition = Condition.CONDITION_AFTER_INTERRUPT →
        (run_ops cfg ops r).1.action_after_needle_interrupt = Action.ACTION_STOP_MOTOR) := by
    intro ops
    induction ops with
    | nil => intro r hr; exact hr
    | cons op ops ih =>
      intro r hr
      show (run_ops cfg ops (apply_op cfg r op)).1.next_line_condition = _ → _
      apply ih
      cases op with
      | cycle e => exact gcode_cycle_interrupt_action cfg r.1 (r.2.sample e) hr
      | set_tension v =>
        show (gcode_set_tension v r.1 r.2).1.next_line_condition = _ →
          (gcode_set_tension v r.1 r.2).1.action_after_needle_interrupt = _
        unfold gcode_set_tension
        simp only []
        split_ifs <;> exact hr
      | pause => intro hc; exact absurd hc (by simp [apply_op, gcode_pause])
      | resume => intro hc; exact absurd hc (by simp [apply_op, gcode_resume])
      | stop => intro hc; exact absurd hc (by simp [apply_op, gcode_stop])
      | clear => intro hc; exact absurd hc (by simp [apply_op, gcode_clear])
  exact key ops _ (fun hc => absurd hc (by simp [gcode_clear])) h

end OrderAndInvariant

section OrderWitnesses

theorem codes_G1_M3_I1 :
    g_code ℚ "G1 X10 M3 I1".toList = 1 ∧ m_code ℚ "G1 X10 M3 I1".toList = 3 ∧
    gcode_parse_code "G1 X10 M3 I1".toList 'I' (0 : ℚ) = 1 := by
  refine ⟨?_, ?_, ?_⟩
  · simp [g_code, gcode_parse_code, parse_loop, strchr_next, atof, take_sign, skip_space,
      take_digits, isspace, isdigit, take_exponent, ftrunc_one]
  · simp [m_code, gcode_parse_code, parse_loop, strchr_next, atof, take_sign, skip_space,
      take_digits, isspace, isdigit, take_exponent, ftrunc_ofNat]
  · simp [gcode_parse_code, parse_loop, strchr_next, atof, take_sign, skip_space,
      take_digits, isspace, isdigit, take_exponent]

theorem codes_G1_M0 :
    g_code ℚ "G1 X10 M0".toList = 1 ∧ m_code ℚ "G1 X10 M0".toList = 0 := by
  refine ⟨?_, ?_⟩
  · simp [g_code, gcode_parse_code, parse_loop, strchr_next, atof, take_sign, skip_space,
      take_digits, isspace, isdigit, take_exponent, ftrunc_one]
  · simp [m_code, gcode_parse_code, parse_loop, strchr_next, atof, take_sign, skip_space,
      take_digits, isspace, isdigit, take_exponent, ftrunc_zero]

theorem motion_then_control_witness :
    tick_proceeds (demo_state : State ℚ) (demo_world program_move_needle 90) ∧
    (demo_world program_move_needle 90 : World ℚ).file.get?
      (demo_world program_move_needle 90 : World ℚ).cursor = some "G1 X10 M3 I1".toList ∧
    (g_code ℚ "G1 X10 M3 I1".toList = 0 ∨ g_code ℚ "G1 X10 M3 I1".toList = 1) ∧
    m_code ℚ "G1 X10 M3 I1".toList = 3 ∧
    (gcode_cycle demo_config demo_state
      (demo_world program_move_needle 90)).1.next_line_condition ≠
        Condition.CONDITION_AFTER_MOVE ∧
    tick_proceeds (demo_state : State ℚ) (demo_world program_move_pause 90) ∧
    (demo_world program_move_pause 90 : World ℚ).file.get?
      (demo_world program_move_pause 90 : World ℚ).cursor = some "G1 X10 M0".toList ∧
    (g_code ℚ "G1 X10 M0".toList = 0 ∨ g_code ℚ "G1 X10 M0".toList = 1 ∨
      g_code ℚ "G1 X10 M0".toList = 4) ∧
    m_code ℚ "G1 X10 M0".toList = 0 ∧
    (gcode_cycle demo_config demo_state
      (demo_world program_move_pause 90)).1.next_line_condition =
        Condition.CONDITION_IMMEDIATELY :=
  ⟨demo_proceeds _, rfl, Or.inr codes_G1_M3_I1.1, codes_G1_M3_I1.2.1,
    ((motion_then_control demo_config demo_state (demo_world program_move_needle 90)
      "G1 X10 M3 I1".toList (demo_proceeds _) rfl).1 (Or.inr codes_G1_M3_I1.1)
      codes_G1_M3_I1.2.1).2.1,
    demo_proceeds _, rfl, Or.inr (Or.inl codes_G1_M0.1), codes_G1_M0.2,
    (motion_then_control demo_config demo_state (demo_world program_move_pause 90)
      "G1 X10 M0".toList (demo_proceeds _) rfl).2 (Or.inr (Or.inl codes_G1_M0.1))
      codes_G1_M0.2⟩

theorem interrupt_gate_has_stop_action_witness :
    (run_ops demo_config [Op.cycle (stopped_at 1000)]
      (gcode_clear demo_config demo_state (demo_world program_needle_last 90))
        ).1.next_line_condition = Condition.CONDITION_AFTER_INTERRUPT ∧
    (run_ops demo_config [Op.cycle (stopped_at 1000)]
      (gcode_clear demo_config demo_state (demo_world program_needle_last 90))
        ).1.action_after_needle_interrupt = Action.ACTION_STOP_MOTOR :=
  have hc : (run_ops demo_config [Op.cycle (stopped_at 1000)]
      (gcode_clear demo_config demo_state (demo_world program_needle_last 90))
        ).1.next_line_condition = Condition.CONDITION_AFTER_INTERRUPT := by
    obtain ⟨cf, cc, -, -, -, -, -⟩ := gcode_clear_world demo_config (demo_state : State ℚ)
      (demo_world program_needle_last 90)
    have hp : tick_proceeds
        (gcode_clear demo_config (demo_state : State ℚ) (demo_world program_needle_last 90)).1
        ((gcode_clear demo_config (demo_state : State ℚ)
          (demo_world program_needle_last 90)).2.sample (stopped_at 1000)) := by
      unfold tick_proceeds
      rw [gcode_clear_condition]
      trivial
    have hl : ((gcode_clear demo_config (demo_state : State ℚ)
        (demo_world program_needle_last 90)).2.sample (stopped_at 1000)).file.get?
        ((gcode_clear demo_config (demo_state : State ℚ)
          (demo_world program_needle_last 90)).2.sample (stopped_at 1000)).cursor =
        some "M3 I1".toList := by
      show (gcode_clear demo_config (demo_state : State ℚ)
        (demo_world program_needle_last 90)).2.file.get? (gcode_clear demo_config
          (demo_state : State ℚ) (demo_world program_needle_last 90)).2.cursor = _
      rw [cf, cc]
      rfl
    have hi : gcode_parse_code "M3 I1".toList 'I' (0 : ℚ) > 0 := by
      rw [codes_M3_I1.2.2]; norm_num
    exact (cycle_M3_interrupt demo_config _ _ _ hp hl
      (by rw [codes_M3_I1.1]; decide) (by rw [codes_M3_I1.1]; decide)
      (by rw [codes_M3_I1.1]; decide) codes_M3_I1.2.1 hi).1
  ⟨hc, interrupt_gate_has_stop_action demo_config [Op.cycle (stopped_at 1000)] demo_state
    (demo_world program_needle_last 90) hc⟩

end OrderWitnesses

/-! ## Totality of the parser -/

/-- Every buffer is made of tokens without a space, separated by single
spaces. -/
theorem exists_tokens (buffer : List Char) :
    ∃ ts : List (List Char), ts ≠ [] ∧ (∀ t ∈ ts, ' ' ∉ t) ∧ unwords ts = buffer := by
  induction buffer with
  | nil => exact ⟨[[]], by simp, by simp, rfl⟩
  | cons c cs ih =>
    obtain ⟨ts, hne, hts, e⟩ := ih
    by_cases hc : c = ' '
    · refine ⟨[] :: ts, by simp, ?_, ?_⟩
      · intro t ht
        rcases List.mem_cons.mp ht with h1 | h1
        · rw [h1]; simp
        · exact hts t h1
      · rw [unwords_cons [] ts hne, e, hc]
        rfl
    · cases ts with
      | nil => exact absurd rfl hne
      | cons t rest =>
        refine ⟨(c :: t) :: rest, by simp, ?_, ?_⟩
        · intro v hv
          rcases List.mem_cons.mp hv with h1 | h1
          · rw [h1]
            intro hm
            rcases List.mem_cons.mp hm with h2 | h2
            · exact hc h2.symm
            · exact hts t (List.mem_cons_self _ _) h2
          · exact hts v (List.mem_cons_of_mem _ h1)
        · have : unwords ((c :: t) :: rest) = c :: unwords (t :: rest) := by
            cases rest <;> rfl
          rw [this, e]

section ParserTotal
variable {α : Type} [LinearOrderedField α]

/-- With a bound above the length of the string the bounded loop ends, with
the value of `parse_loop`. -/
theorem parse_fuel_eq (code : Char) (d : α) :
    ∀ (n : Nat) (p : List Char), p.length < n →
      parse_fuel code d n p = some (parse_loop code d p) := by
  intro n
  induction n with
  | zero => intro p h; exact absurd h (Nat.not_lt_zero _)
  | succ n ih =>
    intro p h
    cases p with
    | nil => rw [parse_loop_nil]; rfl
    | cons c cs =>
      rw [parse_loop_cons]
      unfold parse_fuel
      by_cases h1 : c = code
      · simp [h1]
      · by_cases h2 : c = ';'
        · subst h2
          have h3 : ¬ (';' = code) := h1
          simp [h3]
        · simp only [h1, h2, if_false]
          cases hq : strchr_next (c :: cs) with
          | none => rfl
          | some q =>
            obtain ⟨u, -, e⟩ := strchr_next_some _ _ hq
            have hlen : q.length < n := by
              have := congrArg List.length e
              simp at this h
              omega
            exact ih q hlen

/-- When no token begins with the field letter (a character other than the
separating space), the scan returns the default value. -/
theorem parse_loop_no_match (code : Char) (d : α) (hcode : code ≠ ' ') :
    ∀ ts : List (List Char), (∀ t ∈ ts, ' ' ∉ t ∧ t.head? ≠ some code) →
      parse_loop code d (unwords ts) = d := by
  intro ts
  induction ts with
  | nil => intro _; exact parse_loop_nil code d
  | cons t rest ih =>
    intro h
    obtain ⟨hsp, hhd⟩ := h t (List.mem_cons_self _ _)
    have hrest : ∀ v ∈ rest, ' ' ∉ v ∧ v.head? ≠ some code :=
      fun v hv => h v (List.mem_cons_of_mem _ hv)
    cases rest with
    | nil =>
      show parse_loop code d t = d
      cases t with
      | nil => exact parse_loop_nil code d
      | cons c cs =>
        have h1 : c ≠ code := fun e => hhd (by simp [e])
        exact parse_loop_last code d c cs h1 hsp
    | cons u us =>
      rw [unwords_cons t (u :: us) (List.cons_ne_nil _ _)]
      cases t with
      | nil =>
        rw [List.nil_append, parse_loop_cons]
        have e1 : ¬ (' ' = code) := fun e => hcode e.symm
        have e2 : ¬ (' ' = ';') := by decide
        simp only [e1, e2, if_false, strchr_next, if_true]
        exact ih hrest
      | cons c cs =>
        have h1 : c ≠ code := fun e => hhd (by simp [e])
        by_cases h2 : c = ';'
        · subst h2
          exact parse_loop_comment code d _ (Ne.symm h1)
        · rw [parse_loop_skip code d c cs _ h1 h2 hsp]
          exact ih hrest

end ParserTotal

section ParserTotalClaim
variable {α : Type} [LinearOrderedField α]

/-- C20 (amended): for every buffer, field letter and default value the scan
loop of `gcode_parse_code` ends within `length + 1` evaluations of its
condition, with the value of `gcode_parse_code`; an iteration that does not
return moves the pointer to one past the next space (a strictly shorter
suffix of the string it pointed at, so never past the end) or, exactly when no
space is left, to the pointer value that ends the loop; and when the
character at no token start of the buffer (its first character and each
character directly after a space) is the field letter, the result is the
default value.  For a field letter other than the space this is the case
whenever no token begins with the field letter.  Every buffer is made of
tokens without a space, separated by single spaces. -/
theorem parser_total (buffer : List Char) (code : Char) (d : α) :
    parse_fuel code d (buffer.length + 1) buffer = some (gcode_parse_code buffer code d) ∧
    (∀ p q : List Char, strchr_next p = some q →
      q.length < p.length ∧ ∃ u : List Char, ' ' ∉ u ∧ p = u ++ ' ' :: q) ∧
    (∀ p : List Char, strchr_next p = none ↔ ' ' ∉ p) ∧
    ((∀ (p : List Char) (c : Char) (q : List Char),
        buffer = p ++ c :: q → token_start p → c ≠ code) →
      gcode_parse_code buffer code d = d) ∧
    (code ≠ ' ' → ∀ ts : List (List Char), (∀ t ∈ ts, ' ' ∉ t ∧ t.head? ≠ some code) →
      gcode_parse_code (unwords ts) code d = d) ∧
    (∃ ts : List (List Char), (∀ t ∈ ts, ' ' ∉ t) ∧ unwords ts = buffer) := by
  refine ⟨parse_fuel_eq code d _ buffer (Nat.lt_succ_self _), ?_, strchr_next_eq_none,
    fun h => parse_loop_no_start code d buffer.length buffer (le_refl _) h,
    fun hc ts hts => parse_loop_no_match code d hc ts hts, ?_⟩
  · intro p q h
    obtain ⟨u, hu, e⟩ := strchr_next_some p q h
    refine ⟨?_, u, hu, e⟩
    have := congrArg List.length e
    simp at this
    omega
  · obtain ⟨ts, -, h1, h2⟩ := exists_tokens buffer
    exact ⟨ts, h1, h2⟩

end ParserTotalClaim

theorem parser_total_witness :
    strchr_next "X1 Y2".toList = some "Y2".toList ∧
    "Y2".toList.length < "X1 Y2".toList.length ∧
    (∀ (p : List Char) (c : Char) (q : List Char),
      "X12.5  Y-3".toList = p ++ c :: q → token_start p → c ≠ 'Z') ∧
    gcode_parse_code "X12.5  Y-3".toList 'Z' (99 : ℚ) = 99 ∧
    'Z' ≠ ' ' ∧
    (∀ t ∈ ["X12.5".toList, "Y-3".toList], ' ' ∉ t ∧ t.head? ≠ some 'Z') ∧
    gcode_parse_code (unwords ["X12.5".toList, "Y-3".toList]) 'Z' (99 : ℚ) = 99 ∧
    parse_fuel 'Z' (99 : ℚ) ("X12.5  Y-3".toList.length + 1) "X12.5  Y-3".toList = some 99 :=
  have h := parser_total "X12.5  Y-3".toList 'Z' (99 : ℚ)
  have hs : strchr_next "X1 Y2".toList = some "Y2".toList := by simp [strchr_next]
  have hz : ∀ (p : List Char) (c : Char) (q : List Char),
      "X12.5  Y-3".toList = p ++ c :: q → token_start p → c ≠ 'Z' := by
    intro p c q e _ hc
    have hm : c ∈ "X12.5  Y-3".toList := by rw [e]; simp
    rw [hc] at hm
    revert hm
    decide
  have ht : ∀ t ∈ ["X12.5".toList, "Y-3".toList], ' ' ∉ t ∧ t.head? ≠ some 'Z' := by simp
  have hv : gcode_parse_code "X12.5  Y-3".toList 'Z' (99 : ℚ) = 99 := h.2.2.2.1 hz
  ⟨hs, (h.2.1 _ _ hs).1, hz, hv, by decide, ht, h.2.2.2.2.1 (by decide) _ ht, by
    have := h.1
    rw [this]
    exact congrArg some hv⟩

/-- C20 as stated fails for the space as field letter: in the buffer `G1  5`
(tokens `G1`, the empty token and `5`) no token begins with a space, yet after
the first token the scan stands on the second space, which matches the letter,
and `gcode_parse_code(' ', 99)` returns 5 instead of the default value. -/
theorem parse_space_letter_matches_doubled_space :
    unwords ["G1".toList, [], "5".toList] = "G1  5".toList ∧
    (∀ t ∈ ["G1".toList, [], "5".toList], ' ' ∉ t ∧ t.head? ≠ some ' ') ∧
    gcode_parse_code "G1  5".toList ' ' (99 : ℚ) = 5 ∧
    gcode_parse_code "G1  5".toList ' ' (99 : ℚ) ≠ 99 := by
  have h5 : gcode_parse_code "G1  5".toList ' ' (99 : ℚ) = 5 := by
    simp [gcode_parse_code, parse_loop, strchr_next, atof, take_sign, skip_space, take_digits,
      isspace, isdigit, take_exponent]
  refine ⟨rfl, by simp, h5, ?_⟩
  rw [h5]
  norm_num

section MoveClaim
variable {α : Type} [LinearOrderedField α] [FloorRing α]

/-- The commands and the accelerations of the M-code dispatch, code by code,
for a line that carries neither `M0` nor `M3`. -/
theorem m_codes_tail (cfg : Config α) (s : State α) (w : World α)
    (h0 : m_code α w.buffer ≠ 0) (h3 : m_code α w.buffer ≠ 3) :
    (m_codes cfg s w).2.log = w.log ++
      (if m_code α w.buffer = 5 then [Cmd.motors_disable_z, Cmd.motors_stop_z]
       else if m_code α w.buffer = 17 then [Cmd.motors_enable]
       else if m_code α w.buffer = 18 then [Cmd.motors_disable]
       else if m_code α w.buffer = 41 then [Cmd.servo_set_tension 0]
       else if m_code α w.buffer = 42 then [Cmd.servo_set_tension s.tension_]
       else if m_code α w.buffer = 73 then [Cmd.lcd_print_progress]
       else if m_code α w.buffer = 201 then
         [Cmd.motors_set_acceleration_x
            (FVal.fin (gcode_parse_code w.buffer 'X' s.acceleration_x)),
          Cmd.motors_set_acceleration_y
            (FVal.fin (gcode_parse_code w.buffer 'Y' s.acceleration_y)),
          Cmd.motors_set_acceleration_z
            (gcode_parse_code w.buffer 'Z' cfg.ACCELERATION_INITIAL_Z_HZ)]
       else []) ∧
    (m_codes cfg s w).1.acceleration_x =
      (if m_code α w.buffer = 201 then gcode_parse_code w.buffer 'X' s.acceleration_x
       else s.acceleration_x) ∧
    (m_codes cfg s w).1.acceleration_y =
      (if m_code α w.buffer = 201 then gcode_parse_code w.buffer 'Y' s.acceleration_y
       else s.acceleration_y) := by
  have k : ∀ (m : Int) (s2 : State α), s2.command = m → m ≠ 0 → m ≠ 3 →
      s2.tension_ = s.tension_ → s2.acceleration_x = s.acceleration_x →
      s2.acceleration_y = s.acceleration_y →
      (m_switch cfg s2 w).2.log = w.log ++
        (if m = 5 then [Cmd.motors_disable_z, Cmd.motors_stop_z]
         else if m = 17 then [Cmd.motors_enable]
         else if m = 18 then [Cmd.motors_disable]
         else if m = 41 then [Cmd.servo_set_tension 0]
         else if m = 42 then [Cmd.servo_set_tension s.tension_]
         else if m = 73 then [Cmd.lcd_print_progress]
         else if m = 201 then
           [Cmd.motors_set_acceleration_x
              (FVal.fin (gcode_parse_code w.buffer 'X' s.acceleration_x)),
            Cmd.motors_set_acceleration_y
              (FVal.fin (gcode_parse_code w.buffer 'Y' s.acceleration_y)),
            Cmd.motors_set_acceleration_z
              (gcode_parse_code w.buffer 'Z' cfg.ACCELERATION_INITIAL_Z_HZ)]
         else []) ∧
      (m_switch cfg s2 w).1.acceleration_x =
        (if m = 201 then gcode_parse_code w.buffer 'X' s.acceleration_x
         else s.acceleration_x) ∧
      (m_switch cfg s2 w).1.acceleration_y =
        (if m = 201 then gcode_parse_code w.buffer 'Y' s.acceleration_y
         else s.acceleration_y) := by
    intro m s2 hm hm0 hm3 ht hax hay
    unfold m_switch
    rw [hm, if_neg hm0, if_neg hm3]
    by_cases c5 : m = 5
    · subst c5; simp [World.emit, hax, hay]
    rw [if_neg c5, if_neg c5]
    by_cases c17 : m = 17
    · subst c17; simp [World.emit, hax, hay]
    rw [if_neg c17, if_neg c17]
    by_cases c18 : m = 18
    · subst c18; simp [World.emit, hax, hay]
    rw [if_neg c18, if_neg c18]
    by_cases c41 : m = 41
    · subst c41; simp [World.emit, hax, hay]
    rw [if_neg c41, if_neg c41]
    by_cases c42 : m = 42
    · subst c42; simp [World.emit, hax, hay, ht]
    rw [if_neg c42, if_neg c42]
    by_cases c73 : m = 73
    · subst c73; simp [World.emit, hax, hay, m_progress]
    rw [if_neg c73, if_neg c73]
    by_cases c201 : m = 201
    · subst c201; simp [World.emit, hax, hay, m_accelerations]
    rw [if_neg c201, if_neg c201, if_neg c201, if_neg c201]
    simp [hax, hay]
  exact k _ { s with command := ftrunc (gcode_parse_code w.buffer 'M' (-1 : α)) } rfl h0 h3
    rfl rfl rfl

end MoveClaim

section MoveClaim2
variable {α : Type} [LinearOrderedField α] [FloorRing α]

/-- C13 (amended): a tick that executes a `G0` or `G1` line carrying neither
`M0` nor `M3` sets `x_new` and `y_new` to the fields `X` and `Y` (default: the
motor's current coordinate) and `speed_xy` to the field `F` (default: its old
value), computes the interpolation factors by `calculate_interpolation` from
the current position and the new target, and issues, after the commands of
the gate and in this order, the axis speeds `speed_xy * factor`, the axis
accelerations `acceleration * factor` (the accelerations as they were before
the tick) and `motors_move_to_position(x_new, y_new)`; it ends with
`CONDITION_AFTER_MOVE`.  The commands that follow are those of the M code of
the line, none of them a move: none at all for a code that is not 5, 17, 18,
41, 42, 73 or 201, and no axis speed or acceleration unless the code is 201;
with `M201` on the line the accelerations are set to the fields `X` and `Y`
and commanded again, unscaled, after the move. -/
theorem move_dispatch (cfg : Config α) (s : State α) (w : World α) (line : List Char)
    (hp : tick_proceeds s w) (hl : w.file.get? w.cursor = some line)
    (hG : g_code α line = 0 ∨ g_code α line = 1)
    (hM0 : m_code α line ≠ 0) (hM3 : m_code α line ≠ 3) :
    (gcode_cycle cfg s w).1.x_new = gcode_parse_code line 'X' w.motor_x ∧
    (gcode_cycle cfg s w).1.y_new = gcode_parse_code line 'Y' w.motor_y ∧
    (gcode_cycle cfg s w).1.speed_xy = gcode_parse_code line 'F' s.speed_xy ∧
    (gcode_cycle cfg s w).1.interpolation_x =
      (calculate_interpolation cfg
        { s with x_new := gcode_parse_code line 'X' w.motor_x,
                 y_new := gcode_parse_code line 'Y' w.motor_y } w).interpolation_x ∧
    (gcode_cycle cfg s w).1.interpolation_y =
      (calculate_interpolation cfg
        { s with x_new := gcode_parse_code line 'X' w.motor_x,
                 y_new := gcode_parse_code line 'Y' w.motor_y } w).interpolation_y ∧
    (gcode_cycle cfg s w).1.next_line_condition = Condition.CONDITION_AFTER_MOVE ∧
    (gcode_cycle cfg s w).2.log =
      (gate_world s w).log ++
        [Cmd.motors_set_speed_x (fmul (gcode_cycle cfg s w).1.speed_xy
           (gcode_cycle cfg s w).1.interpolation_x),
         Cmd.motors_set_speed_y (fmul (gcode_cycle cfg s w).1.speed_xy
           (gcode_cycle cfg s w).1.interpolation_y),
         Cmd.motors_set_acceleration_x (fmul s.acceleration_x
           (gcode_cycle cfg s w).1.interpolation_x),
         Cmd.motors_set_acceleration_y (fmul s.acceleration_y
           (gcode_cycle cfg s w).1.interpolation_y),
         Cmd.motors_move_to_position (gcode_cycle cfg s w).1.x_new
           (gcode_cycle cfg s w).1.y_new] ++
        (if m_code α line = 5 then [Cmd.motors_disable_z, Cmd.motors_stop_z]
         else if m_code α line = 17 then [Cmd.motors_enable]
         else if m_code α line = 18 then [Cmd.motors_disable]
         else if m_code α line = 41 then [Cmd.servo_set_tension 0]
         else if m_code α line = 42 then [Cmd.servo_set_tension s.tension_]
         else if m_code α line = 73 then [Cmd.lcd_print_progress]
         else if m_code α line = 201 then
           [Cmd.motors_set_acceleration_x
              (FVal.fin (gcode_parse_code line 'X' s.acceleration_x)),
            Cmd.motors_set_acceleration_y
              (FVal.fin (gcode_parse_code line 'Y' s.acceleration_y)),
            Cmd.motors_set_acceleration_z
              (gcode_parse_code line 'Z' cfg.ACCELERATION_INITIAL_Z_HZ)]
         else []) ∧
    (gcode_cycle cfg s w).1.acceleration_x =
      (if m_code α line = 201 then gcode_parse_code line 'X' s.acceleration_x
       else s.acceleration_x) ∧
    (gcode_cycle cfg s w).1.acceleration_y =
      (if m_code α line = 201 then gcode_parse_code line 'Y' s.acceleration_y
       else s.acceleration_y) := by
  obtain ⟨hc, hx, hy, hf, hix, hiy, hlog⟩ := cycle_move cfg s w line hp hl hG
  obtain ⟨-, -, -, -, gax, gay, -, -, hgb, -, -, -, -, -⟩ :=
    g_codes_frame cfg (proceed_state s w) (fetch_world (gate_world s w) line)
  have hgt := g_codes_tension cfg (proceed_state s w) (fetch_world (gate_world s w) line)
  have hb : (fetch_world (gate_world s w) line).buffer = line := rfl
  rw [hb] at hgb
  obtain ⟨mc, -⟩ := m_codes_gating cfg
    (g_codes cfg (proceed_state s w) (fetch_world (gate_world s w) line)).1
    (g_codes cfg (proceed_state s w) (fetch_world (gate_world s w) line)).2
    (by rw [hgb]; exact hM0) (by rw [hgb]; exact hM3)
  obtain ⟨tl, tx, ty⟩ := m_codes_tail cfg
    (g_codes cfg (proceed_state s w) (fetch_world (gate_world s w) line)).1
    (g_codes cfg (proceed_state s w) (fetch_world (gate_world s w) line)).2
    (by rw [hgb]; exact hM0) (by rw [hgb]; exact hM3)
  rw [hgb, gax, gay, hgt] at tl
  rw [hgb, gax] at tx
  rw [hgb, gay] at ty
  refine ⟨hx, hy, hf, hix, hiy, ?_, ?_, ?_, ?_⟩
  · rw [cycle_line cfg s w line hp hl, mc]
    exact hc
  · rw [hx, hy, hf, hix, hiy, cycle_line cfg s w line hp hl, tl, hlog]
    rfl
  · rw [cycle_line cfg s w line hp hl, tx]
    rfl
  · rw [cycle_line cfg s w line hp hl, ty]
    rfl

end MoveClaim2

section MoveWitnesses

theorem clear_r0_facts (file : List (List Char)) :
    (clear_r0 file).1.next_line_condition = Condition.CONDITION_IMMEDIATELY ∧
    (clear_r0 file).1.speed_xy = 100 ∧
    (clear_r0 file).1.acceleration_x = 300 ∧
    (clear_r0 file).1.acceleration_y = 400 ∧
    (clear_r0 file).2.motor_x = 0 ∧
    (clear_r0 file).2.motor_y = 0 ∧
    (clear_r0 file).2.log = [] ∧
    (clear_r0 file).2.file = file ∧
    (clear_r0 file).2.cursor = 0 ∧
    (clear_r0 file).2.clock = 1000 := by
  refine ⟨rfl, rfl, rfl, rfl, ?_, ?_, ?_, ?_, ?_, ?_⟩ <;>
    simp [clear_r0, gcode_clear, demo_world, needle_sensor_clear_interrupt_flag]

theorem clear_r0_proceeds (file : List (List Char)) :
    tick_proceeds (clear_r0 file).1 (clear_r0 file).2 := by
  unfold tick_proceeds
  rw [(clear_r0_facts file).1]
  trivial

theorem clear_r0_gate_log (file : List (List Char)) :
    (gate_world (clear_r0 file).1 (clear_r0 file).2).log = [] := by
  rw [gate_world_of_not_interrupt _ _ (by rw [(clear_r0_facts file).1]; decide)]
  exact (clear_r0_facts file).2.2.2.2.2.2.1

theorem demo_sqrt_25 : demo_sqrt 25 = 5 := by
  unfold demo_sqrt
  have h1 : (25 : ℚ).num.toNat = 5 * 5 := rfl
  have h2 : (25 : ℚ).den = 1 * 1 := rfl
  rw [h1, h2, Nat.sqrt_eq, Nat.sqrt_eq]
  norm_num

theorem codes_G1_X3_Y4_F500 (d : ℚ) :
    g_code ℚ "G1 X3 Y4 F500".toList = 1 ∧ m_code ℚ "G1 X3 Y4 F500".toList = -1 ∧
    gcode_parse_code "G1 X3 Y4 F500".toList 'X' d = 3 ∧
    gcode_parse_code "G1 X3 Y4 F500".toList 'Y' d = 4 ∧
    gcode_parse_code "G1 X3 Y4 F500".toList 'F' d = 500 := by
  refine ⟨?_, ?_, ?_, ?_, ?_⟩
  · simp [g_code, gcode_parse_code, parse_loop, strchr_next, atof, take_sign, skip_space,
      take_digits, isspace, isdigit, take_exponent, ftrunc_one]
  · simp [m_code, gcode_parse_code, parse_loop, strchr_next, ftrunc_neg_one]
  · simp [gcode_parse_code, parse_loop, strchr_next, atof, take_sign, skip_space,
      take_digits, isspace, isdigit, take_exponent]
  · simp [gcode_parse_code, parse_loop, strchr_next, atof, take_sign, skip_space,
      take_digits, isspace, isdigit, take_exponent]
  · simp [gcode_parse_code, parse_loop, strchr_next, atof, take_sign, skip_space,
      take_digits, isspace, isdigit, take_exponent]

theorem codes_G1_X3_Y4_M201 (d : ℚ) :
    g_code ℚ "G1 X3 Y4 M201".toList = 1 ∧ m_code ℚ "G1 X3 Y4 M201".toList = 201 ∧
    gcode_parse_code "G1 X3 Y4 M201".toList 'X' d = 3 ∧
    gcode_parse_code "G1 X3 Y4 M201".toList 'Y' d = 4 ∧
    gcode_parse_code "G1 X3 Y4 M201".toList 'F' d = d ∧
    gcode_parse_code "G1 X3 Y4 M201".toList 'Z' d = d := by
  refine ⟨?_, ?_, ?_, ?_, ?_, ?_⟩
  · simp [g_code, gcode_parse_code, parse_loop, strchr_next, atof, take_sign, skip_space,
      take_digits, isspace, isdigit, take_exponent, ftrunc_one]
  · simp [m_code, gcode_parse_code, parse_loop, strchr_next, atof, take_sign, skip_space,
      take_digits, isspace, isdigit, take_exponent, ftrunc_ofNat]
  · simp [gcode_parse_code, parse_loop, strchr_next, atof, take_sign, skip_space,
      take_digits, isspace, isdigit, take_exponent]
  · simp [gcode_parse_code, parse_loop, strchr_next, atof, take_sign, skip_space,
      take_digits, isspace, isdigit, take_exponent]
  · simp [gcode_parse_code, parse_loop, strchr_next]
  · simp [gcode_parse_code, parse_loop, strchr_next]

/-- The interpolation factors of the move from the origin to (3, 4). -/
theorem factors_3_4 (s : State ℚ) (w : World ℚ) (hx : w.motor_x = 0) (hy : w.motor_y = 0) :
    (calculate_interpolation demo_config { s with x_new := 3, y_new := 4 } w).interpolation_x
      = FVal.fin (3 / 5) ∧
    (calculate_interpolation demo_config { s with x_new := 3, y_new := 4 } w).interpolation_y
      = FVal.fin (4 / 5) := by
  have h25 : ((3 : ℚ) - 0) * (3 - 0) + (4 - 0) * (4 - 0) = 25 := by norm_num
  constructor
  · show fdiv |(3 : ℚ) - w.motor_x| (demo_sqrt ((3 - w.motor_x) * (3 - w.motor_x) +
      (4 - w.motor_y) * (4 - w.motor_y))) = _
    rw [hx, hy, h25, demo_sqrt_25]
    norm_num [fdiv]
  · show fdiv |(4 : ℚ) - w.motor_y| (demo_sqrt ((3 - w.motor_x) * (3 - w.motor_x) +
      (4 - w.motor_y) * (4 - w.motor_y))) = _
    rw [hx, hy, h25, demo_sqrt_25]
    norm_num [fdiv]

theorem move_dispatch_witness :
    tick_proceeds (clear_r0 program_move).1 (clear_r0 program_move).2 ∧
    (clear_r0 program_move).2.file.get? (clear_r0 program_move).2.cursor =
      some "G1 X3 Y4 F500".toList ∧
    (g_code ℚ "G1 X3 Y4 F500".toList = 0 ∨ g_code ℚ "G1 X3 Y4 F500".toList = 1) ∧
    m_code ℚ "G1 X3 Y4 F500".toList ≠ 0 ∧ m_code ℚ "G1 X3 Y4 F500".toList ≠ 3 ∧
    (gcode_cycle demo_config (clear_r0 program_move).1
      (clear_r0 program_move).2).1.next_line_condition = Condition.CONDITION_AFTER_MOVE ∧
    (gcode_cycle demo_config (clear_r0 program_move).1 (clear_r0 program_move).2).2.log =
      [Cmd.motors_set_speed_x (FVal.fin 300), Cmd.motors_set_speed_y (FVal.fin 400),
       Cmd.motors_set_acceleration_x (FVal.fin 180),
       Cmd.motors_set_acceleration_y (FVal.fin 320),
       Cmd.motors_move_to_position 3 4] :=
  have h0 : m_code ℚ "G1 X3 Y4 F500".toList ≠ 0 := by
    rw [(codes_G1_X3_Y4_F500 0).2.1]; decide
  have h3 : m_code ℚ "G1 X3 Y4 F500".toList ≠ 3 := by
    rw [(codes_G1_X3_Y4_F500 0).2.1]; decide
  have h := move_dispatch demo_config (clear_r0 program_move).1 (clear_r0 program_move).2
    "G1 X3 Y4 F500".toList (clear_r0_proceeds _) rfl (Or.inr (codes_G1_X3_Y4_F500 0).1) h0 h3
  ⟨clear_r0_proceeds _, rfl, Or.inr (codes_G1_X3_Y4_F500 0).1, h0, h3, h.2.2.2.2.2.1, by
    obtain ⟨hx, hy, hf, hix, hiy, -, hlog, -, -⟩ := h
    obtain ⟨-, -, fa, fb, fx, fy, -, -, -, -⟩ := clear_r0_facts program_move
    rw [(codes_G1_X3_Y4_F500 _).2.2.1, (codes_G1_X3_Y4_F500 _).2.2.2.1] at hix hiy
    rw [(factors_3_4 _ _ fx fy).1] at hix
    rw [(factors_3_4 _ _ fx fy).2] at hiy
    rw [hlog, hx, hy, hf, hix, hiy, clear_r0_gate_log, fa, fb, (codes_G1_X3_Y4_F500 0).2.1,
      (codes_G1_X3_Y4_F500 _).2.2.1, (codes_G1_X3_Y4_F500 _).2.2.2.1,
      (codes_G1_X3_Y4_F500 _).2.2.2.2]
    norm_num [fmul]⟩

/-- C13 as stated fails when the line also carries `M201`: after `gcode_clear`
the tick that executes `G1 X3 Y4 M201`, a `G1` line with neither `M0` nor
`M3`, commands the scaled accelerations 180 and 320 before the move and then,
from the `M201` case, the accelerations 3 and 4 (the fields `X` and `Y` of the
move, unscaled), and it leaves `acceleration_x = 3` and `acceleration_y = 4`:
the accelerations commanded last are not the scaled ones. -/
theorem move_line_with_M201_commands_accelerations_again :
    (g_code ℚ "G1 X3 Y4 M201".toList = 0 ∨ g_code ℚ "G1 X3 Y4 M201".toList = 1) ∧
    m_code ℚ "G1 X3 Y4 M201".toList ≠ 0 ∧ m_code ℚ "G1 X3 Y4 M201".toList ≠ 3 ∧
    (clear_r0 program_move_accelerations).2.file.get?
      (clear_r0 program_move_accelerations).2.cursor = some "G1 X3 Y4 M201".toList ∧
    (first_tick program_move_accelerations).2.log =
      [Cmd.motors_set_speed_x (FVal.fin 60), Cmd.motors_set_speed_y (FVal.fin 80),
       Cmd.motors_set_acceleration_x (FVal.fin 180),
       Cmd.motors_set_acceleration_y (FVal.fin 320),
       Cmd.motors_move_to_position 3 4,
       Cmd.motors_set_acceleration_x (FVal.fin 3),
       Cmd.motors_set_acceleration_y (FVal.fin 4),
       Cmd.motors_set_acceleration_z 500] ∧
    (first_tick program_move_accelerations).1.acceleration_x = 3 ∧
    (first_tick program_move_accelerations).1.acceleration_y = 4 := by
  have hG := (codes_G1_X3_Y4_M201 0).1
  have hM := (codes_G1_X3_Y4_M201 0).2.1
  have h0 : m_code ℚ "G1 X3 Y4 M201".toList ≠ 0 := by rw [hM]; decide
  have h3 : m_code ℚ "G1 X3 Y4 M201".toList ≠ 3 := by rw [hM]; decide
  have hp := clear_r0_proceeds program_move_accelerations
  have hl : (clear_r0 program_move_accelerations).2.file.get?
      (clear_r0 program_move_accelerations).2.cursor = some "G1 X3 Y4 M201".toList := rfl
  obtain ⟨-, fs, fa, fb, fx, fy, -, -, -, -⟩ := clear_r0_facts program_move_accelerations
  obtain ⟨-, -, -, -, -, -, hlog⟩ := cycle_move demo_config _ _ _ hp hl (Or.inr hG)
  obtain ⟨-, -, -, -, gax, gay, -, -, hgb, -, -, -, -, -⟩ :=
    g_codes_frame demo_config
      (proceed_state (clear_r0 program_move_accelerations).1
        (clear_r0 program_move_accelerations).2)
      (fetch_world (gate_world (clear_r0 program_move_accelerations).1
        (clear_r0 program_move_accelerations).2) "G1 X3 Y4 M201".toList)
  have hb : (fetch_world (gate_world (clear_r0 program_move_accelerations).1
      (clear_r0 program_move_accelerations).2) "G1 X3 Y4 M201".toList).buffer =
      "G1 X3 Y4 M201".toList := rfl
  rw [hb] at hgb
  obtain ⟨tl, tx, ty⟩ := m_codes_tail demo_config
    (g_codes demo_config (proceed_state (clear_r0 program_move_accelerations).1
        (clear_r0 program_move_accelerations).2)
      (fetch_world (gate_world (clear_r0 program_move_accelerations).1
        (clear_r0 program_move_accelerations).2) "G1 X3 Y4 M201".toList)).1
    (g_codes demo_config (proceed_state (clear_r0 program_move_accelerations).1
        (clear_r0 program_move_accelerations).2)
      (fetch_world (gate_world (clear_r0 program_move_accelerations).1
        (clear_r0 program_move_accelerations).2) "G1 X3 Y4 M201".toList)).2
    (by rw [hgb]; exact h0) (by rw [hgb]; exact h3)
  rw [hgb, hM] at tl tx ty
  rw [(codes_G1_X3_Y4_M201 _).2.2.1] at tl tx
  rw [(codes_G1_X3_Y4_M201 _).2.2.2.1] at tl ty
  rw [(codes_G1_X3_Y4_M201 _).2.2.2.2.2, hlog, clear_r0_gate_log,
    (codes_G1_X3_Y4_M201 _).2.2.1, (codes_G1_X3_Y4_M201 _).2.2.2.1,
    (codes_G1_X3_Y4_M201 _).2.2.2.2.1, (factors_3_4 _ _ fx fy).1, (factors_3_4 _ _ fx fy).2,
    fs, fa, fb] at tl
  refine ⟨Or.inr hG, h0, h3, hl, ?_, ?_, ?_⟩
  · show (gcode_cycle demo_config _ _).2.log = _
    rw [cycle_line demo_config _ _ _ hp hl, tl]
    norm_num [fmul, demo_config]
  · show (gcode_cycle demo_config _ _).1.acceleration_x = _
    rw [cycle_line demo_config _ _ _ hp hl, tx]
    rfl
  · show (gcode_cycle demo_config _ _).1.acceleration_y = _
    rw [cycle_line demo_config _ _ _ hp hl, ty]
    rfl

end MoveWitnesses

section DwellClaim
variable {α : Type} [LinearOrderedField α] [FloorRing α]

end DwellClaim

section DwellWitnesses

end DwellWitnesses

end OpenEmbroidery
